import Mathlib

set_option maxHeartbeats 1000000

/- Shallow embedding of the core of the SFDX data-move utility
   (migrationJob.ts and migrationJobTask.ts), together with proofs about
   the task-graph builder, the identifier / external-id indices, the CSV
   validation and repair engine, and the execution-engine selector. -/

/- ===================== JavaScript collection primitives =====================
   A JavaScript `Map` is modelled as an insertion-ordered association list.
   `set` overwrites the value in place when the key exists and appends
   otherwise; `has`/`get` are keyed lookups.  A JavaScript object used as a
   CSV row is modelled the same way (property keys are unique in the source
   data; `undefined` values are conflated with the empty string, and string
   truthiness is `≠ ""`). -/

def jsMapHas {α : Type} (m : List (String × α)) (k : String) : Bool :=
  m.any (fun p => p.1 == k)

def jsMapSet {α : Type} (m : List (String × α)) (k : String) (v : α) : List (String × α) :=
  if jsMapHas m k then m.map (fun p => if p.1 = k then (k, v) else p)
  else m ++ [(k, v)]

def jsMapGet {α : Type} : List (String × α) → String → Option α
  | [], _ => none
  | (k2, v) :: rest, k => if k2 = k then some v else jsMapGet rest k

/- ===================== Records and the index update =====================
   `___setExternalIdMap` (migrationJobTask.ts lines 748-766).  A fetched
   record is reduced to the two projections the function reads: its `Id`
   property and the (possibly composite) external-id value that
   `Common.getRecordValue(record, complexExternalId)` extracts from it.
   The identifier index stores the whole record. -/

structure SRecord where
  recordId : String
  extIdValue : String
deriving DecidableEq, Repr

/-- One step of the `records.forEach` loop in `___setExternalIdMap`:
    accumulator is (extIdRecordsMap, idRecordsMap, newRecordsCount). -/
def setExtStep (acc : List (String × String) × List (String × SRecord) × Nat)
    (record : SRecord) : List (String × String) × List (String × SRecord) × Nat :=
  let e := acc.1
  let m := acc.2.1
  let c := acc.2.2
  let e2 := if record.extIdValue ≠ "" then jsMapSet e record.extIdValue record.recordId else e
  if record.recordId ≠ "" then
    if jsMapHas m record.recordId then (e2, m, c)
    else (e2, jsMapSet m record.recordId record, c + 1)
  else (e2, m, c)

/-- `___setExternalIdMap(records, sourceExtIdRecordsMap, sourceIdRecordsMap)`:
    returns the updated external-id index, the updated identifier index and
    the new-records count. -/
def setExternalIdMap (records : List SRecord)
    (sourceExtIdRecordsMap : List (String × String))
    (sourceIdRecordsMap : List (String × SRecord)) :
    List (String × String) × List (String × SRecord) × Nat :=
  records.foldl setExtStep (sourceExtIdRecordsMap, sourceIdRecordsMap, 0)

/- ===================== Execution engine selector =====================
   `createApiEngine` (migrationJobTask.ts lines 815-862), reduced to the
   engine-selection decision; construction parameters are irrelevant to the
   choice of engine. -/

inductive ApiEngineKind
  | bulkApiV2
  | bulkApiV1
  | restApi
deriving DecidableEq, Repr

def createApiEngine (bulkThreshold : Nat) (alwaysUseRestApiToUpdateRecords : Bool)
    (bulkApiVersionNumber : Nat) (amountOfRecordsToProcess : Nat) : ApiEngineKind :=
  if bulkThreshold < amountOfRecordsToProcess ∧ alwaysUseRestApiToUpdateRecords = false then
    if bulkApiVersionNumber = 2 then ApiEngineKind.bulkApiV2 else ApiEngineKind.bulkApiV1
  else ApiEngineKind.restApi

/- ===================== CSV rows and validation =====================
   A CSV row is a JavaScript object: insertion-ordered string-keyed map. -/

def Row : Type := List (String × String)

def rowKeys (r : Row) : List String := r.map Prod.fst

def rowHasKey (r : Row) (k : String) : Bool := jsMapHas r k

def rowGet (r : Row) (k : String) : String := (jsMapGet r k).getD ""

def rowSet (r : Row) (k v : String) : Row := jsMapSet r k v

def rowDelete (r : Row) (k : String) : Row := r.filter (fun p => ¬ (p.1 = k))

/-- JavaScript `String.prototype.trim`: strip leading and trailing
    whitespace (structurally recursive over the character list). -/
def strTrim (s : String) : String :=
  String.mk (((s.data.dropWhile Char.isWhitespace).reverse.dropWhile
    Char.isWhitespace).reverse)

/-- A structural-issue record (helper_interfaces ICSVIssues).  The `Date`
    field of the source record is a wall-clock timestamp and is not
    modelled; the error message is identified by its resource key. -/
structure CSVIssue where
  childSObject : String
  childField : Option String
  childValue : Option String
  parentSObject : Option String
  parentField : Option String
  parentValue : Option String
  errorMsg : String
deriving DecidableEq, Repr

def csvFileIsEmptyIssue (sObjectName : String) : CSVIssue :=
  ⟨sObjectName, none, none, none, none, none, "csvFileIsEmpty"⟩

def columnsMissingIssue (sObjectName fieldName : String) : CSVIssue :=
  ⟨sObjectName, some fieldName, none, none, none, none, "columnsMissingInCSV"⟩

/-- `validateCSV` (migrationJobTask.ts lines 97-147).  `csvColumnsRow` is
    the result of reading the csv header row
    (`Common.readCsvFileAsync(filename, 1)`): empty for a missing or empty
    file, otherwise a one-element list holding the first row. -/
def validateCSV (sObjectName : String) (fieldsToUpdate : List String)
    (csvColumnsRow : List Row) : List CSVIssue :=
  if csvColumnsRow.length = 0 then [csvFileIsEmptyIssue sObjectName]
  else
    fieldsToUpdate.foldl (fun issues fieldName =>
      let columnExists := (rowKeys (csvColumnsRow.headD [])).any (fun columnName =>
        let c := strTrim columnName
        c == fieldName || (c.splitOn ".").any (fun namePart => namePart == fieldName))
      if columnExists then issues
      else issues ++ [columnsMissingIssue sObjectName fieldName]) []

/- ===================== Task graph builder =====================
   `MigrationJob.setup` (migrationJob.ts lines 52-170).  A script object
   (entity descriptor) is reduced to the fields the setup algorithm reads;
   the parent-lookup and parent-master-detail sets are kept as lists of
   entity names (the source compares them by `name`).  Tasks are identified
   by the index of their descriptor in the input list. -/

structure ScriptObject where
  name : String
  allRecords : Bool
  isSpecialObject : Bool
  isObjectWithoutRelationships : Bool
  isReadonlyObject : Bool
  hasComplexExternalId : Bool
  hasAutonumberExternalId : Bool
  isLimitedQuery : Bool
  parentLookupObjects : List String
  parentMasterDetailObjects : List String
deriving Inhabited, DecidableEq, Repr

/-- `Array.prototype.indexOf` restricted to the in-bounds case: index of the
    first occurrence, list length when absent (the source only calls it on
    present elements, where the two semantics agree). -/
def listIndexOf (a : Nat) (l : List Nat) : Nat := l.findIdx (fun x => x == a)

/-- `Array.prototype.splice(n, 0, a)`: insert at position `n`, appending
    when `n` is past the end. -/
def listInsertAt {α : Type} : Nat → α → List α → List α
  | 0, a, l => a :: l
  | _ + 1, a, [] => [a]
  | n + 1, a, x :: xs => x :: listInsertAt n a xs

/-- The `processAllSource` assignment performed at the start of the setup
    loop (migrationJob.ts lines 69-82). -/
def processAllSourceOf (o : ScriptObject) : Bool :=
  o.allRecords || o.isSpecialObject || o.isObjectWithoutRelationships

/-- The backward scan computing `indexToInsert` for a non-special object
    (migrationJob.ts lines 100-112): scan from the end down to
    `lowerIndexForAnyObjects`; every existing task whose parent-lookup set
    names the new object overwrites the candidate index, so the smallest
    such index wins; default is the list length (append). -/
def scanInsertIndex (objs : List ScriptObject) (objToAdd : ScriptObject)
    (tasks : List Nat) (lowerIndexForAnyObjects : Nat) : Nat :=
  ((List.range' lowerIndexForAnyObjects (tasks.length - lowerIndexForAnyObjects)).reverse).foldl
    (fun indexToInsert existedTaskIndex =>
      let existed := objs.getD (tasks.getD existedTaskIndex 0) default
      if existed.parentLookupObjects.contains objToAdd.name then existedTaskIndex
      else indexToInsert)
    tasks.length

/-- One iteration of the placement loop (migrationJob.ts lines 62-118).
    State: (task chain, lowerIndexForAnyObjects, lowerIndexForReadonlyObjects).
    The distinguished classification entity is named "RecordType"
    (CONSTANTS.RECORD_TYPE_SOBJECT_NAME). -/
def placeStep (objs : List ScriptObject) (st : List Nat × Nat × Nat) (i : Nat) :
    List Nat × Nat × Nat :=
  if (objs.getD i default).name = "RecordType" then (i :: st.1, st.2.1 + 1, st.2.2 + 1)
  else if (objs.getD i default).isReadonlyObject then
    (listInsertAt st.2.2 i st.1, st.2.1 + 1, st.2.2)
  else if st.1.length = 0 then (st.1 ++ [i], st.2.1, st.2.2)
  else
    (listInsertAt (scanInsertIndex objs (objs.getD i default) st.1 st.2.1) i st.1,
      st.2.1, st.2.2)

def placeTasks (objs : List ScriptObject) : List Nat :=
  ((List.range objs.length).foldl (placeStep objs) ([], 0, 0)).1

/-- `rightIsParentMasterDetailOfLeft` (migrationJob.ts line 157): the
    descriptor of the left task declares the right task's name among its
    parent-master-detail objects. -/
def mdCond (objs : List ScriptObject) (l r : Nat) : Bool :=
  ((objs.getD l default).parentMasterDetailObjects).contains (objs.getD r default).name

/-- The ordered index pairs (leftIndex, rightIndex) visited by the nested
    loops of `___putMasterDetailsBefore`. -/
def pairsList (n : Nat) : List (Nat × Nat) :=
  (List.range n).flatMap (fun i => ((List.range n).filter (fun j => i < j)).map (fun j => (i, j)))

/-- The body of the nested loops of `___putMasterDetailsBefore`
    (migrationJob.ts lines 153-166): `tasks` is the `tempTasks` snapshot,
    the accumulator is the live task list together with the `swapped` flag,
    and the indices for the move are recomputed against the live list,
    exactly as in the source. -/
def mdStep (cond : Nat → Nat → Bool) (tasks : List Nat) (acc : List Nat × Bool)
    (p : Nat × Nat) : List Nat × Bool :=
  if cond (tasks.getD p.1 0) (tasks.getD p.2 0) then
    (listInsertAt (listIndexOf (tasks.getD p.1 0) acc.1) (tasks.getD p.2 0)
      (acc.1.eraseIdx (listIndexOf (tasks.getD p.2 0) acc.1)), true)
  else acc

/-- One relaxation pass: `___putMasterDetailsBefore` (migrationJob.ts lines
    150-169). -/
def mdPass (cond : Nat → Nat → Bool) (tasks : List Nat) : List Nat × Bool :=
  (pairsList tasks.length).foldl (mdStep cond tasks) (tasks, false)

/-- The bounded relaxation loop (migrationJob.ts lines 121-124): up to 10
    passes, stopping early after a pass with no swap. -/
def relaxLoop (cond : Nat → Nat → Bool) : Nat → List Nat → List Nat
  | 0, ts => ts
  | n + 1, ts =>
    if (mdPass cond ts).2 then relaxLoop cond n (mdPass cond ts).1 else (mdPass cond ts).1

/-- The execution-order task list produced by `setup`: initial placement
    followed by the bounded master-detail relaxation. -/
def setupTasks (objs : List ScriptObject) : List Nat :=
  relaxLoop (mdCond objs) 10 (placeTasks objs)

/-- `task.sourceData.allRecords || task.scriptObject.isLimitedQuery`
    (migrationJob.ts line 128): `sourceData.allRecords` reads the
    `processAllSource` flag assigned during placement. -/
def queryTaskFlag (objs : List ScriptObject) (t : Nat) : Bool :=
  processAllSourceOf (objs.getD t default) || (objs.getD t default).isLimitedQuery

/-- The query-order derivation (migrationJob.ts lines 126-137): first all
    tasks with the flag, in execution order; then every task not already in
    the list (`indexOf < 0`), in execution order. -/
def queryOrderOf (objs : List ScriptObject) (tasks : List Nat) : List Nat :=
  tasks.foldl (fun acc t => if acc.contains t then acc else acc ++ [t])
    (tasks.foldl (fun acc t => if queryTaskFlag objs t then acc ++ [t] else acc) [])

def queryTasksOf (objs : List ScriptObject) : List Nat :=
  queryOrderOf objs (setupTasks objs)

/-- Special objects of the placement prefix: the classification entity and
    read-only entities (migrationJob.ts lines 83-94). -/
def specialB (o : ScriptObject) : Bool := (o.name = "RecordType") || o.isReadonlyObject

/-- Invariant of the placement loop state: the task chain splits into the
    classification-entity block, the read-only block and the remaining
    tasks, with the two cursors equal to the block lengths. -/
def PlacedInv (objs : List ScriptObject) (st : List Nat × Nat × Nat) : Prop :=
  ∃ rt ro rest : List Nat,
    st.1 = rt ++ ro ++ rest
    ∧ rt.length = st.2.2
    ∧ rt.length + ro.length = st.2.1
    ∧ (∀ t ∈ rt, (objs.getD t default).name = "RecordType")
    ∧ (∀ t ∈ ro, specialB (objs.getD t default) = true)
    ∧ (∀ t ∈ rest, specialB (objs.getD t default) = false)

/-- The task list consists of the fixed special prefix `pre` followed by
    non-special tasks only. -/
def SpecialSplit (objs : List ScriptObject) (pre ts : List Nat) : Prop :=
  ∃ rest : List Nat,
    ts = pre ++ rest
    ∧ (∀ t ∈ pre, specialB (objs.getD t default) = true)
    ∧ (∀ t ∈ rest, specialB (objs.getD t default) = false)

/- Concrete descriptor lists used as counterexample and witness inputs.
   Field order: name, allRecords, isSpecialObject,
   isObjectWithoutRelationships, isReadonlyObject, hasComplexExternalId,
   hasAutonumberExternalId, isLimitedQuery, parentLookupObjects,
   parentMasterDetailObjects. -/

def exCyclicMD : List ScriptObject :=
  [⟨"A", false, false, false, false, false, false, false, [], ["B"]⟩,
   ⟨"B", false, false, false, false, false, false, false, [], ["A"]⟩]

def exContactAccount : List ScriptObject :=
  [⟨"Contact", false, false, false, false, false, false, false, ["Account"], ["Account"]⟩,
   ⟨"Account", false, false, false, false, false, false, false, [], []⟩]

def exReadonlyMD : List ScriptObject :=
  [⟨"R", false, false, false, true, false, false, false, [], ["X"]⟩,
   ⟨"X", false, false, false, false, false, false, false, [], []⟩]

def exSpecialPrefix : List ScriptObject :=
  [⟨"RecordType", false, true, false, false, false, false, false, [], []⟩,
   ⟨"R1", false, false, false, true, false, false, false, [], []⟩,
   ⟨"X", false, false, false, false, false, false, false, [], ["Y"]⟩,
   ⟨"Y", false, false, false, false, false, false, false, [], []⟩]

/- ===================== Record retrieval =====================
   `retrieveRecords` (migrationJobTask.ts lines 610-781).  Collaborators
   outside this file's two sources are oracles in a `RetrieveEnv`:
   `createQuery` / `createFieldInQueries` compose SOQL strings
   (soql-parser-js and Common), `fetch` is `Sfdx.retrieveRecordsAsync`,
   `fetchCsvRecords` is the CSV-file read, `getFieldValue` reads a named
   property of a stored record, `selfRefFields` lists the
   `isSimpleSelfReference` fields of the task's query, and
   `createFilteredQueries` is `_createFilteredQueries`, which depends on
   job-wide task state.  The function returns the updated per-endpoint
   indices and the list of queries issued, in issue order. -/

inductive QueryMode
  | forwards
  | backwards
  | target
deriving DecidableEq, Repr

inductive MediaKind
  | orgMedia
  | fileMedia
deriving DecidableEq, Repr

inductive OperationKind
  | insertOp
  | updateOp
  | upsertOp
  | readonlyOp
  | deleteOp
deriving DecidableEq, Repr

structure TaskOrgData where
  extIdRecordsMap : List (String × String)
  idRecordsMap : List (String × SRecord)
deriving DecidableEq, Repr

structure RetrieveEnv where
  createQuery : String
  createFilteredQueries : QueryMode → Bool → List String
  fetch : String → List SRecord
  fetchCsvRecords : List SRecord
  selfRefFields : List String
  getFieldValue : SRecord → String → String
  createFieldInQueries : String → List String → List String

structure RetrieveState where
  operationKind : OperationKind
  processAllSource : Bool
  processAllTarget : Bool
  sourceMedia : MediaKind
  targetMedia : MediaKind
  sourceData : TaskOrgData
  targetData : TaskOrgData
deriving DecidableEq, Repr

def applyExternalIdMap (records : List SRecord) (d : TaskOrgData) : TaskOrgData :=
  let r := setExternalIdMap records d.extIdRecordsMap d.idRecordsMap
  ⟨r.1, r.2.1⟩

/-- `Common.distinctStringArray` (not part of the two source files):
    de-duplication of a string list preserving first occurrences. -/
def distinctStringArray (l : List String) : List String :=
  l.foldl (fun acc v => if acc.contains v then acc else acc ++ [v]) []

def retrieveRecords (env : RetrieveEnv) (queryMode : QueryMode) (reversed : Bool)
    (st : RetrieveState) : RetrieveState × List String :=
  if st.operationKind = OperationKind.deleteOp then (st, [])
  else if ¬ (queryMode = QueryMode.target) then
    -- Read SOURCE DATA (lines 621-702)
    let main :=
      if st.sourceMedia = MediaKind.fileMedia ∧ queryMode = QueryMode.forwards then
        (some env.fetchCsvRecords, [env.createQuery])
      else if st.processAllSource ∧ queryMode = QueryMode.forwards then
        (some (env.fetch env.createQuery), [env.createQuery])
      else if st.processAllSource = false then
        let queries := env.createFilteredQueries queryMode reversed
        if queries.length > 0 then
          (some (queries.foldl (fun acc q => acc ++ env.fetch q) []), queries)
        else (none, [])
      else (none, [])
    let st1 :=
      match main.1 with
      | some records => { st with sourceData := applyExternalIdMap records st.sourceData }
      | none => st
    -- Read SELF REFERENCE records from the SOURCE (lines 666-701)
    if st.sourceMedia = MediaKind.orgMedia ∧ queryMode = QueryMode.forwards then
      let inValues := env.selfRefFields.foldl (fun acc f =>
        (st1.sourceData.idRecordsMap.map Prod.snd).foldl (fun vs sourceRec =>
          if ¬ (env.getFieldValue sourceRec f = "") then vs ++ [env.getFieldValue sourceRec f]
          else vs) acc) []
      if inValues.length > 0 then
        let vals := distinctStringArray inValues
        let queries := env.createFieldInQueries "Id" vals
        let records := queries.foldl (fun acc q => acc ++ env.fetch q) []
        let st2 :=
          if queries.length > 0 then
            { st1 with sourceData := applyExternalIdMap records st1.sourceData }
          else st1
        (st2, main.2 ++ queries)
      else (st1, main.2)
    else (st1, main.2)
  else
    -- Read TARGET DATA (lines 705-741)
    if st.targetMedia = MediaKind.orgMedia ∧ ¬ (st.operationKind = OperationKind.insertOp) then
      if st.processAllTarget then
        let records := env.fetch env.createQuery
        ({ st with targetData := applyExternalIdMap records st.targetData }, [env.createQuery])
      else
        let queries := env.createFilteredQueries QueryMode.target reversed
        if queries.length > 0 then
          let records := queries.foldl (fun acc q => acc ++ env.fetch q) []
          ({ st with targetData := applyExternalIdMap records st.targetData }, queries)
        else (st, [])
    else (st, [])

/- ===================== File cache and repair engine =====================
   `repairCSV` (migrationJobTask.ts lines 158-423).  A parsed file is a
   `FileMap`: an insertion-ordered map from the row's cache key to the row.
   `CachedCSVContent` and the helpers `Common.readCsvFileOnceAsync` and
   `Common.getRecordValue` are repository code that is not part of the two
   source files; they are modelled from the spec: the file cache parses
   each distinct path once and tracks a dirty-path set, the `nextId`
   getter draws from a job-wide monotonically increasing
   synthetic-identifier counter that never repeats a value, and
   `getRecordValue` extracts the value of the named property of a record
   (reading the alternative field name when one is passed; the
   RecordType-specific composition is not modelled).  Reading a file that
   is missing on disk yields the empty map.  A task is reduced to the
   fields `repairCSV` reads; field describes are reduced to the column
   names involved. -/

structure ChildRField where
  fullOriginalName__r : String
  fullIdName__r : String
  nameId : String
  childObjectName : String
deriving DecidableEq, Repr

structure RepairField where
  nameId : String
  fullName__r : String
  isReference : Bool
  parentObjectName : String
  parentExternalId : String
deriving DecidableEq, Repr

structure RepairTask where
  sObjectName : String
  sourceCsvFilename : String
  useCSVValuesMapping : Bool
  originalExternalId : String
  child__rSFields : List ChildRField
  fieldsInQuery : List RepairField
deriving DecidableEq, Repr

abbrev FileMap : Type := List (String × Row)

structure CachedCSVContent where
  csvDataCacheMap : List (String × FileMap)
  updatedFilenames : List String
  idCounter : Nat

/-- Modelled from the spec: the job-wide synthetic-identifier counter;
    each access returns a fresh value and bumps the counter. -/
def nextId (c : CachedCSVContent) : CachedCSVContent × String :=
  ({ c with idCounter := c.idCounter + 1 }, "ID" ++ toString c.idCounter)

/-- Modelled from the spec: `Common.readCsvFileOnceAsync` — one parse per
    distinct path per job run; `disk` is the parse-from-disk oracle. -/
def readCsvFileOnce (disk : String → FileMap) (c : CachedCSVContent) (fn : String) :
    CachedCSVContent × FileMap :=
  match jsMapGet c.csvDataCacheMap fn with
  | some fm => (c, fm)
  | none => ({ c with csvDataCacheMap := c.csvDataCacheMap ++ [(fn, disk fn)] }, disk fn)

def getFile (c : CachedCSVContent) (fn : String) : FileMap :=
  (jsMapGet c.csvDataCacheMap fn).getD []

def setFile (c : CachedCSVContent) (fn : String) (fm : FileMap) : CachedCSVContent :=
  { c with csvDataCacheMap := jsMapSet c.csvDataCacheMap fn fm }

/-- `updatedFilenames.add` (a JavaScript `Set`). -/
def markUpdated (c : CachedCSVContent) (fn : String) : CachedCSVContent :=
  if fn ∈ c.updatedFilenames then c
  else { c with updatedFilenames := c.updatedFilenames ++ [fn] }

def firstRowOf (fm : FileMap) : Row := ((fm.head?).map Prod.snd).getD []

/-- `job.getTaskBySObjectName` (migrationJob.ts lines 489-491): the first
    task whose entity name matches. -/
def getTaskBySObjectName (tasks : List RepairTask) (name : String) : Option RepairTask :=
  (tasks.filter (fun t => t.sObjectName == name)).head?

/-- Modelled from the spec: `Common.getRecordValue(record, propName)`. -/
def getRecordValue (record : Row) (propName : String) : String := rowGet record propName

/-- Modelled from the spec: the four-argument form of
    `Common.getRecordValue`, which reads the `sFieldName` property. -/
def getRecordValue4 (record : Row) (propName : String) (sFieldName : String) : String :=
  rowGet record sFieldName

/-- `___trimColumnNames` (lines 238-256): the header columns of the first
    row that carry surrounding whitespace. -/
def columnsToUpdateOf (fm : FileMap) : List String :=
  (rowKeys (firstRowOf fm)).filter (fun field => ¬ (field = strTrim field))

def trimRow (cols : List String) (csvRow : Row) : Row :=
  cols.foldl (fun row column => rowDelete (rowSet row (strTrim column) (rowGet row column)) column)
    csvRow

def trimColumnNames (c : CachedCSVContent) (fn : String) : CachedCSVContent :=
  if (columnsToUpdateOf (getFile c fn)).length > 0 then
    markUpdated
      (setFile c fn ((getFile c fn).map
        (fun pr => (pr.1, trimRow (columnsToUpdateOf (getFile c fn)) pr.2))))
      fn
  else c

/-- One row of `___updateWithCSVValueMapping` (lines 214-231): rewrite the
    field when its trimmed raw value has a mapping rule. -/
def mapRowValues (valuesMap : List (String × String)) (field : String) (csvRow : Row) : Row :=
  match jsMapGet valuesMap (strTrim (rowGet csvRow field)) with
  | some mapped => rowSet csvRow field mapped
  | none => csvRow

def updateWithCSVValueMapping (csvValuesMapping : List (String × List (String × String)))
    (sObjectName : String) (c : CachedCSVContent) (fn : String) : CachedCSVContent :=
  markUpdated
    (setFile c fn
      ((rowKeys (firstRowOf (getFile c fn))).foldl (fun fm field =>
        match jsMapGet csvValuesMapping (sObjectName ++ field) with
        | some valuesMap =>
          if valuesMap.length > 0 then
            fm.map (fun pr => (pr.1, mapRowValues valuesMap field pr.2))
          else fm
        | none => fm) (getFile c fn)))
    fn

/-- `___addMissingIdColumn` (lines 262-268): every row gains an `Id` column
    holding its cache key. -/
def addMissingIdColumn (c : CachedCSVContent) (fn : String) : CachedCSVContent :=
  markUpdated
    (setFile c fn ((getFile c fn).map (fun pr => (pr.1, rowSet pr.2 "Id" pr.1))))
    fn

/-- The map from external-id value to the cache key of the row bearing it
    (rows are dereferenced live through the cache when used, matching the
    row references a JavaScript `Map` would hold). -/
def buildExtIdKeyMap (fm : FileMap) (extIdCol : String) : List (String × String) :=
  fm.foldl (fun m pr =>
    if ¬ (rowGet pr.2 extIdCol = "") then jsMapSet m (rowGet pr.2 extIdCol) pr.1 else m) []

/-- One row of the loop of `___updateChildOriginalIdColumnsAsync`
    (lines 395-402) with the row already dereferenced (`row`); the local
    `extIdValue` and `idVal` bindings of the source are inlined. -/
def childRowBranch (selfFn childFn : String) (extIdCol : String) (childF : ChildRField)
    (parentExtIdMap : List (String × String)) (acc : CachedCSVContent × Bool)
    (prKey : String) (row : Row) : CachedCSVContent × Bool :=
  if ¬ (getRecordValue4 row extIdCol childF.fullOriginalName__r = "") then
    match jsMapGet parentExtIdMap (getRecordValue4 row extIdCol childF.fullOriginalName__r) with
    | some parentKey =>
      (setFile acc.1 childFn
        (jsMapSet (getFile acc.1 childFn) prKey
          (rowSet (rowSet row childF.nameId
              (rowGet ((jsMapGet (getFile acc.1 selfFn) parentKey).getD []) "Id"))
            childF.fullIdName__r
            (rowGet ((jsMapGet (getFile acc.1 selfFn) parentKey).getD []) "Id"))), true)
    | none => acc
  else acc

def childRowStep (selfFn childFn : String) (extIdCol : String) (childF : ChildRField)
    (parentExtIdMap : List (String × String)) (acc : CachedCSVContent × Bool)
    (pr : String × Row) : CachedCSVContent × Bool :=
  childRowBranch selfFn childFn extIdCol childF parentExtIdMap acc pr.1
    ((jsMapGet (getFile acc.1 childFn) pr.1).getD [])

/-- The row loop of `___updateChildOriginalIdColumnsAsync` (lines 395-402),
    threading the cache so that aliasing between the child file and the
    current file behaves as in the source. -/
def updateChildRowsFold (selfFn childFn : String) (extIdCol : String) (childF : ChildRField)
    (parentExtIdMap : List (String × String)) (snapshot : FileMap)
    (c : CachedCSVContent) : CachedCSVContent × Bool :=
  snapshot.foldl (childRowStep selfFn childFn extIdCol childF parentExtIdMap) (c, false)

/-- `___updateChildOriginalIdColumnsAsync` (lines 375-421); the local
    bindings of the source are inlined. -/
def updateChildOriginalIdColumns (tasks : List RepairTask) (disk : String → FileMap)
    (self : RepairTask) (childF : ChildRField) (c : CachedCSVContent) :
    CachedCSVContent × List CSVIssue :=
  if ¬ (self.originalExternalId = "Id") then
    match getTaskBySObjectName tasks childF.childObjectName with
    | some childTask =>
      if ((readCsvFileOnce disk c childTask.sourceCsvFilename).2).length > 0 then
        if rowHasKey (firstRowOf (readCsvFileOnce disk c childTask.sourceCsvFilename).2)
            childF.fullOriginalName__r then
          (if (updateChildRowsFold self.sourceCsvFilename childTask.sourceCsvFilename
                self.originalExternalId childF
                (buildExtIdKeyMap
                  (getFile (readCsvFileOnce disk c childTask.sourceCsvFilename).1
                    self.sourceCsvFilename)
                  self.originalExternalId)
                (readCsvFileOnce disk c childTask.sourceCsvFilename).2
                (readCsvFileOnce disk c childTask.sourceCsvFilename).1).2 = true
           then markUpdated (updateChildRowsFold self.sourceCsvFilename
                childTask.sourceCsvFilename self.originalExternalId childF
                (buildExtIdKeyMap
                  (getFile (readCsvFileOnce disk c childTask.sourceCsvFilename).1
                    self.sourceCsvFilename)
                  self.originalExternalId)
                (readCsvFileOnce disk c childTask.sourceCsvFilename).2
                (readCsvFileOnce disk c childTask.sourceCsvFilename).1).1
              childTask.sourceCsvFilename
           else (updateChildRowsFold self.sourceCsvFilename childTask.sourceCsvFilename
                self.originalExternalId childF
                (buildExtIdKeyMap
                  (getFile (readCsvFileOnce disk c childTask.sourceCsvFilename).1
                    self.sourceCsvFilename)
                  self.originalExternalId)
                (readCsvFileOnce disk c childTask.sourceCsvFilename).2
                (readCsvFileOnce disk c childTask.sourceCsvFilename).1).1, [])
        else
          ((readCsvFileOnce disk c childTask.sourceCsvFilename).1,
           [⟨childTask.sObjectName, some childF.fullOriginalName__r, none,
             some self.sObjectName, some "Id", none, "cantUpdateChildLookupCSVColumn"⟩])
      else ((readCsvFileOnce disk c childTask.sourceCsvFilename).1, [])
    | none => (c, [])
  else (c, [])

def missingParentIssue1 (selfName : String) (sField : RepairField) (desired : String) :
    CSVIssue :=
  ⟨selfName, some sField.fullName__r, some desired, some sField.parentObjectName,
    some sField.parentExternalId, none, "missingParentRecordForGivenLookupValue"⟩

def missingParentIssue2 (selfName : String) (sField : RepairField) (idValue : String) :
    CSVIssue :=
  ⟨selfName, some sField.nameId, some idValue, some sField.parentObjectName,
    some "Id", none, "missingParentRecordForGivenLookupValue"⟩

/-- One row of the loop of `___addMissingLookupColumnsAsync`
    (lines 291-358) with the row already dereferenced (`row`); the local
    `desired`, `idValue` and the `nextId` bindings of the source are
    inlined. -/
def lookupRowBranch (selfName : String) (selfFn parentFn : String) (sField : RepairField)
    (parentRowsMap : List (String × String))
    (acc : CachedCSVContent × List CSVIssue × Bool) (id : String) (row : Row) :
    CachedCSVContent × List CSVIssue × Bool :=
  if ¬ rowHasKey row sField.nameId then
    if ¬ rowHasKey row sField.fullName__r then
      (setFile (nextId (nextId acc.1).1).1 selfFn
        (jsMapSet (getFile (nextId (nextId acc.1).1).1 selfFn) id
          (rowSet (rowSet row sField.nameId (nextId acc.1).2)
            sField.fullName__r (nextId (nextId acc.1).1).2)),
       acc.2.1, true)
    else
      if ¬ (getRecordValue4 row sField.parentExternalId sField.fullName__r = "") then
        match jsMapGet parentRowsMap
            (getRecordValue4 row sField.parentExternalId sField.fullName__r) with
        | none =>
          (setFile (nextId acc.1).1 selfFn
            (jsMapSet (getFile (nextId acc.1).1 selfFn) id
              (rowSet row sField.nameId (nextId acc.1).2)),
           acc.2.1 ++ [missingParentIssue1 selfName sField
             (getRecordValue4 row sField.parentExternalId sField.fullName__r)], true)
        | some parentKey =>
          (setFile acc.1 selfFn (jsMapSet (getFile acc.1 selfFn) id
            (rowSet row sField.nameId
              (rowGet ((jsMapGet (getFile acc.1 parentFn) parentKey).getD []) "Id"))),
           acc.2.1, true)
      else acc
  else
    if ¬ rowHasKey row sField.fullName__r then
      if ¬ (rowGet row sField.nameId = "") then
        match jsMapGet (getFile acc.1 parentFn) (rowGet row sField.nameId) with
        | none =>
          (setFile (nextId acc.1).1 selfFn
            (jsMapSet (getFile (nextId acc.1).1 selfFn) id
              (rowSet row sField.fullName__r (nextId acc.1).2)),
           acc.2.1 ++ [missingParentIssue2 selfName sField (rowGet row sField.nameId)], true)
        | some parentRow =>
          (setFile acc.1 selfFn (jsMapSet (getFile acc.1 selfFn) id
            (rowSet row sField.fullName__r (rowGet parentRow sField.parentExternalId))),
           acc.2.1, true)
      else acc
    else acc

def lookupRowStep (selfName : String) (selfFn parentFn : String) (sField : RepairField)
    (parentRowsMap : List (String × String))
    (acc : CachedCSVContent × List CSVIssue × Bool) (id : String) :
    CachedCSVContent × List CSVIssue × Bool :=
  lookupRowBranch selfName selfFn parentFn sField parentRowsMap acc id
    ((jsMapGet (getFile acc.1 selfFn) id).getD [])

/-- The row loop of `___addMissingLookupColumnsAsync` (lines 291-358):
    accumulator is (cache, issues, isFileChanged); parent rows are
    dereferenced live through the cache. -/
def lookupRowsFold (selfName : String) (selfFn parentFn : String) (sField : RepairField)
    (parentRowsMap : List (String × String)) (keys : List String)
    (c : CachedCSVContent) : CachedCSVContent × List CSVIssue × Bool :=
  keys.foldl (lookupRowStep selfName selfFn parentFn sField parentRowsMap) (c, [], false)

/-- `___addMissingLookupColumnsAsync` (lines 276-363); the local bindings
    of the source are inlined. -/
def addMissingLookupColumns (tasks : List RepairTask) (disk : String → FileMap)
    (self : RepairTask) (sField : RepairField) (c : CachedCSVContent) :
    CachedCSVContent × List CSVIssue :=
  match getTaskBySObjectName tasks sField.parentObjectName with
  | some parentTask =>
    (if (lookupRowsFold self.sObjectName self.sourceCsvFilename
          parentTask.sourceCsvFilename sField
          (buildExtIdKeyMap (readCsvFileOnce disk c parentTask.sourceCsvFilename).2
            sField.parentExternalId)
          ((getFile (readCsvFileOnce disk c parentTask.sourceCsvFilename).1
            self.sourceCsvFilename).map Prod.fst)
          (readCsvFileOnce disk c parentTask.sourceCsvFilename).1).2.2 = true
     then markUpdated (lookupRowsFold self.sObjectName self.sourceCsvFilename
          parentTask.sourceCsvFilename sField
          (buildExtIdKeyMap (readCsvFileOnce disk c parentTask.sourceCsvFilename).2
            sField.parentExternalId)
          ((getFile (readCsvFileOnce disk c parentTask.sourceCsvFilename).1
            self.sourceCsvFilename).map Prod.fst)
          (readCsvFileOnce disk c parentTask.sourceCsvFilename).1).1
        self.sourceCsvFilename
     else (lookupRowsFold self.sObjectName self.sourceCsvFilename
          parentTask.sourceCsvFilename sField
          (buildExtIdKeyMap (readCsvFileOnce disk c parentTask.sourceCsvFilename).2
            sField.parentExternalId)
          ((getFile (readCsvFileOnce disk c parentTask.sourceCsvFilename).1
            self.sourceCsvFilename).map Prod.fst)
          (readCsvFileOnce disk c parentTask.sourceCsvFilename).1).1,
     (lookupRowsFold self.sObjectName self.sourceCsvFilename
          parentTask.sourceCsvFilename sField
          (buildExtIdKeyMap (readCsvFileOnce disk c parentTask.sourceCsvFilename).2
            sField.parentExternalId)
          ((getFile (readCsvFileOnce disk c parentTask.sourceCsvFilename).1
            self.sourceCsvFilename).map Prod.fst)
          (readCsvFileOnce disk c parentTask.sourceCsvFilename).1).2.1)
  | none => (c, [])

/-- One step of the fold over `child__rSFields` (lines 190-195 of
    `repairCSV`). -/
def childFieldStep (tasks : List RepairTask) (disk : String → FileMap)
    (self : RepairTask) (acc : CachedCSVContent × List CSVIssue) (childF : ChildRField) :
    CachedCSVContent × List CSVIssue :=
  ((updateChildOriginalIdColumns tasks disk self childF acc.1).1,
   acc.2 ++ (updateChildOriginalIdColumns tasks disk self childF acc.1).2)

/-- One step of the fold over `fieldsInQuery` (lines 197-205 of
    `repairCSV`). -/
def fieldStep (tasks : List RepairTask) (disk : String → FileMap)
    (self : RepairTask) (acc : CachedCSVContent × List CSVIssue) (sField : RepairField) :
    CachedCSVContent × List CSVIssue :=
  if sField.isReference = true
      ∧ (¬ rowHasKey (firstRowOf (getFile acc.1 self.sourceCsvFilename)) sField.fullName__r
        ∨ ¬ rowHasKey (firstRowOf (getFile acc.1 self.sourceCsvFilename)) sField.nameId)
  then
    ((addMissingLookupColumns tasks disk self sField acc.1).1,
     acc.2 ++ (addMissingLookupColumns tasks disk self sField acc.1).2)
  else acc

/-- The cache after the read, header-trim and optional value-mapping steps
    of `repairCSV` (lines 163-176). -/
def repairTrimmed (disk : String → FileMap) (self : RepairTask)
    (cache : CachedCSVContent) : CachedCSVContent :=
  trimColumnNames (readCsvFileOnce disk cache self.sourceCsvFilename).1
    self.sourceCsvFilename

def repairMapped (csvValuesMapping : List (String × List (String × String)))
    (disk : String → FileMap) (self : RepairTask) (cache : CachedCSVContent) :
    CachedCSVContent :=
  if self.useCSVValuesMapping ∧ csvValuesMapping.length > 0 then
    updateWithCSVValueMapping csvValuesMapping self.sObjectName
      (repairTrimmed disk self cache) self.sourceCsvFilename
  else repairTrimmed disk self cache

/-- The missing-Id branch of `repairCSV` (lines 178-195). -/
def repairIdStage (tasks : List RepairTask)
    (csvValuesMapping : List (String × List (String × String)))
    (disk : String → FileMap) (self : RepairTask) (cache : CachedCSVContent) :
    CachedCSVContent × List CSVIssue :=
  if ¬ rowHasKey (firstRowOf (getFile (repairMapped csvValuesMapping disk self cache)
      self.sourceCsvFilename)) "Id" then
    self.child__rSFields.foldl (childFieldStep tasks disk self)
      (addMissingIdColumn (repairMapped csvValuesMapping disk self cache)
        self.sourceCsvFilename, [])
  else (repairMapped csvValuesMapping disk self cache, [])

/-- `repairCSV` (migrationJobTask.ts lines 158-206). -/
def repairCSV (tasks : List RepairTask)
    (csvValuesMapping : List (String × List (String × String)))
    (disk : String → FileMap) (self : RepairTask) (cache : CachedCSVContent) :
    CachedCSVContent × List CSVIssue :=
  if (readCsvFileOnce disk cache self.sourceCsvFilename).2.length = 0 then
    ((readCsvFileOnce disk cache self.sourceCsvFilename).1, [])
  else
    self.fieldsInQuery.foldl (fieldStep tasks disk self)
      (repairIdStage tasks csvValuesMapping disk self cache)

/-- Row state for one reference field after a repair pass: either both the
    lookup-id column and the relationship column are present, or exactly
    one is present and the value that would drive the repair of the other
    is empty (so the repair loop leaves the row untouched). -/
def RowOK (s : RepairField) (r : Row) : Prop :=
  (rowHasKey r s.nameId = true ∧ rowHasKey r s.fullName__r = true)
  ∨ (rowHasKey r s.nameId = false ∧ rowHasKey r s.fullName__r = true
      ∧ rowGet r s.fullName__r = "")
  ∨ (rowHasKey r s.nameId = true ∧ rowHasKey r s.fullName__r = false
      ∧ rowGet r s.nameId = "")

/-- A step of the `___updateWithCSVValueMapping` field fold is either the
    identity or a per-row rewrite by a mapping table with no empty-value
    rule; `RowProps` collects what those rewrites preserve. -/
def RowProps (g : Row → Row) : Prop :=
  (∀ r k, rowHasKey (g r) k = rowHasKey r k)
  ∧ (∀ r k, rowGet r k = "" → rowGet (g r) k = "")
  ∧ (∀ s r, RowOK s r → RowOK s (g r))
  ∧ (∀ r, rowKeys (g r) = rowKeys r)

/-- `row2` arises from `row` by the column writes one pass of the lookup
    repair loop can perform for field `s`. -/
def RowWrite (s : RepairField) (row row2 : Row) : Prop :=
  (∃ v, row2 = rowSet row s.nameId v)
  ∨ (∃ v, row2 = rowSet row s.fullName__r v)
  ∨ (∃ v1 v2, row2 = rowSet (rowSet row s.nameId v1) s.fullName__r v2)

/-- `row2` arises from `row` by the column writes of the child
    original-id propagation loop for child field `cf`. -/
def ChildWrite (cf : ChildRField) (row row2 : Row) : Prop :=
  ∃ v1 v2, row2 = rowSet (rowSet row cf.nameId v1) cf.fullIdName__r v2

/-- After repair, a reference field of a task is in one of the states that
    make a second repair pass skip it or leave every row untouched. -/
def GoodField (tasks : List RepairTask) (self : RepairTask) (s : RepairField)
    (c : CachedCSVContent) : Prop :=
  s.isReference = false
  ∨ getTaskBySObjectName tasks s.parentObjectName = none
  ∨ (rowHasKey (firstRowOf (getFile c self.sourceCsvFilename)) s.fullName__r = true
      ∧ rowHasKey (firstRowOf (getFile c self.sourceCsvFilename)) s.nameId = true)
  ∨ (∀ pr ∈ getFile c self.sourceCsvFilename, RowOK s pr.2)

/-- The columns written for one reference field do not collide with the
    columns of another (the side condition under which repairs to distinct
    lookup fields do not disturb each other). -/
def FieldDisj (f g : RepairField) : Prop :=
  ¬ (g.nameId = f.nameId) ∧ ¬ (g.nameId = f.fullName__r)
  ∧ ¬ (g.fullName__r = f.nameId) ∧ ¬ (g.fullName__r = f.fullName__r)

/-- Example repair input: a Case file referencing Account rows by external
    id through a header column with trailing whitespace, with one
    resolvable and one missing parent. -/
def exRepairDisk : String → FileMap := fun fn =>
  if fn = "Account.csv" then
    [("a1", [("Name", "Acme"), ("External_Id__c", "X1")])]
  else if fn = "Case.csv" then
    [("c1", [("Subject", "S1"), ("Account__r ", "X1")]),
     ("c2", [("Subject", "S2"), ("Account__r ", "X9")])]
  else []

def exRepairParent : RepairTask :=
  ⟨"Account", "Account.csv", false, "External_Id__c", [], []⟩

def exRepairSelf : RepairTask :=
  ⟨"Case", "Case.csv", false, "Subject", [],
   [⟨"AccountId", "Account__r", true, "Account", "External_Id__c"⟩]⟩

def exRepairTasks : List RepairTask := [exRepairSelf, exRepairParent]

def exRepairCache : CachedCSVContent := ⟨[], [], 0⟩

/-- Input refuting unconditional repair idempotence: the value-mapping
    table for `Case.Account__r` carries a rule keyed by the empty raw
    value (an empty RawValue cell in the mapping file produces such a
    key).  The first pass maps `"Z"` to `""`, so the lookup loop skips the
    row (empty desired value) and yields no issue; the second pass maps
    `""` to `"W"`, re-enters the same branch, fails the parent lookup and
    records a fresh missing-parent issue. -/
def exNonIdemVM : List (String × List (String × String)) :=
  [("CaseAccount__r", [("Z", ""), ("", "W")])]

def exNonIdemDisk : String → FileMap := fun fn =>
  if fn = "Account.csv" then
    [("a1", [("Name", "Acme"), ("External_Id__c", "X1")])]
  else if fn = "Case.csv" then
    [("c1", [("Subject", "S1"), ("Account__r", "Z")])]
  else []

def exNonIdemSelf : RepairTask :=
  ⟨"Case", "Case.csv", true, "Subject", [],
   [⟨"AccountId", "Account__r", true, "Account", "External_Id__c"⟩]⟩

def exNonIdemTasks : List RepairTask :=
  [exNonIdemSelf, ⟨"Account", "Account.csv", false, "External_Id__c", [], []⟩]

/- ===================== Theorems ===================== -/

theorem jsMapHas_nil {α : Type} (k : String) : jsMapHas ([] : List (String × α)) k = false := rfl

theorem jsMapHas_cons {α : Type} (k2 : String) (v : α) (rest : List (String × α)) (k : String) :
    jsMapHas ((k2, v) :: rest) k = ((k2 == k) || jsMapHas rest k) := rfl

theorem jsMapGet_append_left {α : Type} (m m2 : List (String × α)) (k : String) (v : α)
    (h : jsMapGet m k = some v) : jsMapGet (m ++ m2) k = some v := by
  induction m with
  | nil => simp [jsMapGet] at h
  | cons p rest ih =>
    obtain ⟨k2, v2⟩ := p
    rw [List.cons_append]
    by_cases hk : k2 = k
    · rw [jsMapGet, if_pos hk] at h ⊢
      exact h
    · rw [jsMapGet, if_neg hk] at h ⊢
      exact ih h

theorem jsMapHas_append {α : Type} (m m2 : List (String × α)) (k : String) :
    jsMapHas (m ++ m2) k = (jsMapHas m k || jsMapHas m2 k) := by
  simp [jsMapHas, List.any_append]

theorem jsMapSet_of_not_has {α : Type} (m : List (String × α)) (k : String) (v : α)
    (h : jsMapHas m k = false) : jsMapSet m k v = m ++ [(k, v)] := by
  simp [jsMapSet, h]

theorem jsMapHas_iff_mem_keys {α : Type} (m : List (String × α)) (k : String) :
    jsMapHas m k = true ↔ k ∈ m.map Prod.fst := by
  simp only [jsMapHas, List.any_eq_true, List.mem_map, beq_iff_eq]

theorem jsMapGet_map_overwrite_self {α : Type} (m : List (String × α)) (k : String) (v : α)
    (h : jsMapHas m k = true) :
    jsMapGet (m.map (fun p => if p.1 = k then (k, v) else p)) k = some v := by
  induction m with
  | nil => simp [jsMapHas] at h
  | cons p rest ih =>
    obtain ⟨k2, v2⟩ := p
    rw [List.map_cons]
    by_cases hk : k2 = k
    · have hhead : (if (k2, v2).1 = k then (k, v) else (k2, v2)) = (k, v) := by
        simp [hk]
      rw [hhead, jsMapGet, if_pos rfl]
    · have hhead : (if (k2, v2).1 = k then (k, v) else (k2, v2)) = (k2, v2) := by
        simp [hk]
      rw [hhead, jsMapGet, if_neg hk]
      rw [jsMapHas_cons] at h
      have hb : (k2 == k) = false := beq_eq_false_iff_ne.mpr hk
      rw [hb, Bool.false_or] at h
      exact ih h

theorem jsMapGet_map_overwrite_other {α : Type} (m : List (String × α)) (k k2 : String) (v : α)
    (h : ¬ (k2 = k)) :
    jsMapGet (m.map (fun p => if p.1 = k then (k, v) else p)) k2 = jsMapGet m k2 := by
  induction m with
  | nil => simp
  | cons p rest ih =>
    obtain ⟨ka, va⟩ := p
    rw [List.map_cons]
    by_cases hka : ka = k
    · subst hka
      have hhead : (if (ka, va).1 = ka then (ka, v) else (ka, va)) = (ka, v) := by
        simp
      rw [hhead, jsMapGet, if_neg (fun hc => h hc.symm)]
      rw [jsMapGet, if_neg (fun hc => h hc.symm)]
      exact ih
    · have hhead : (if (ka, va).1 = k then (k, v) else (ka, va)) = (ka, va) := by
        simp [hka]
      rw [hhead]
      by_cases hk2 : ka = k2
      · rw [jsMapGet, if_pos hk2, jsMapGet, if_pos hk2]
      · rw [jsMapGet, if_neg hk2, jsMapGet, if_neg hk2]
        exact ih

theorem jsMapGet_append_single_self {α : Type} (m : List (String × α)) (k : String) (v : α)
    (h : jsMapHas m k = false) :
    jsMapGet (m ++ [(k, v)]) k = some v := by
  induction m with
  | nil => simp [jsMapGet]
  | cons p rest ih =>
    obtain ⟨k2, v2⟩ := p
    rw [jsMapHas_cons] at h
    have h1 : (k2 == k) = false := by
      cases hb : (k2 == k)
      · rfl
      · rw [hb] at h; simp at h
    have h2 : jsMapHas rest k = false := by
      rw [h1, Bool.false_or] at h; exact h
    have hne : ¬ (k2 = k) := beq_eq_false_iff_ne.mp h1
    simp only [List.cons_append, jsMapGet, hne, if_false]
    exact ih h2

theorem jsMapGet_append_single_other {α : Type} (m : List (String × α)) (k k2 : String) (v : α)
    (h : ¬ (k2 = k)) :
    jsMapGet (m ++ [(k, v)]) k2 = jsMapGet m k2 := by
  induction m with
  | nil =>
    have h1 : ¬ (k = k2) := fun hc => h hc.symm
    simp [jsMapGet, h1]
  | cons p rest ih =>
    obtain ⟨ka, va⟩ := p
    by_cases hk2 : ka = k2
    · simp [jsMapGet, hk2]
    · simp [jsMapGet, hk2, ih]

theorem jsMapGet_set_self {α : Type} (m : List (String × α)) (k : String) (v : α) :
    jsMapGet (jsMapSet m k v) k = some v := by
  unfold jsMapSet
  by_cases h : jsMapHas m k
  · rw [if_pos h]
    exact jsMapGet_map_overwrite_self m k v h
  · rw [if_neg h]
    exact jsMapGet_append_single_self m k v (by simpa using h)

theorem jsMapGet_set_other {α : Type} (m : List (String × α)) (k k2 : String) (v : α)
    (h : ¬ (k2 = k)) : jsMapGet (jsMapSet m k v) k2 = jsMapGet m k2 := by
  unfold jsMapSet
  by_cases hh : jsMapHas m k
  · rw [if_pos hh]
    exact jsMapGet_map_overwrite_other m k k2 v h
  · rw [if_neg hh]
    exact jsMapGet_append_single_other m k k2 v h

/-- Generalized accumulator form of the identifier-index part of
    `___setExternalIdMap`: the fold only ever appends fresh entries to the
    identifier index, the counter counts exactly those entries, and the
    appended keys are exactly the distinct non-empty record identifiers not
    already present. -/
theorem setExtFold_idMap (records : List SRecord) :
    ∀ (e : List (String × String)) (m : List (String × SRecord)) (c : Nat),
    ∃ extras : List (String × SRecord),
      (records.foldl setExtStep (e, m, c)).2.1 = m ++ extras
      ∧ (records.foldl setExtStep (e, m, c)).2.2 = c + extras.length
      ∧ (extras.map Prod.fst).Nodup
      ∧ (∀ k, k ∈ extras.map Prod.fst ↔
          (¬ (k = "") ∧ jsMapHas m k = false ∧ k ∈ records.map SRecord.recordId)) := by
  induction records with
  | nil =>
    intro e m c
    refine ⟨[], by simp, by simp, by simp, ?_⟩
    intro k
    simp
  | cons r rs ih =>
    intro e m c
    simp only [List.foldl_cons]
    by_cases hid : r.recordId = ""
    · have hstep : setExtStep (e, m, c) r =
        ((if r.extIdValue ≠ "" then jsMapSet e r.extIdValue r.recordId else e), m, c) := by
        simp [setExtStep, hid]
      rw [hstep]
      obtain ⟨extras, h1, h2, h3, h4⟩ := ih _ m c
      refine ⟨extras, h1, h2, h3, ?_⟩
      intro k
      rw [h4 k]
      constructor
      · rintro ⟨hk1, hk2, hk3⟩
        exact ⟨hk1, hk2, by simp [hk3]⟩
      · rintro ⟨hk1, hk2, hk3⟩
        refine ⟨hk1, hk2, ?_⟩
        simp only [List.map_cons, List.mem_cons] at hk3
        rcases hk3 with hk3 | hk3
        · exact absurd (hk3 ▸ hid) hk1
        · exact hk3
    · by_cases hhas : jsMapHas m r.recordId
      · have hstep : setExtStep (e, m, c) r =
          ((if r.extIdValue ≠ "" then jsMapSet e r.extIdValue r.recordId else e), m, c) := by
          simp [setExtStep, hid, hhas]
        rw [hstep]
        obtain ⟨extras, h1, h2, h3, h4⟩ := ih _ m c
        refine ⟨extras, h1, h2, h3, ?_⟩
        intro k
        rw [h4 k]
        constructor
        · rintro ⟨hk1, hk2, hk3⟩
          exact ⟨hk1, hk2, by simp [hk3]⟩
        · rintro ⟨hk1, hk2, hk3⟩
          refine ⟨hk1, hk2, ?_⟩
          simp only [List.map_cons, List.mem_cons] at hk3
          rcases hk3 with hk3 | hk3
          · rw [hk3] at hk2
            rw [hhas] at hk2
            exact absurd hk2 (by simp)
          · exact hk3
      · have hhasf : jsMapHas m r.recordId = false := by simpa using hhas
        have hmset : jsMapSet m r.recordId r = m ++ [(r.recordId, r)] :=
          jsMapSet_of_not_has m r.recordId r hhasf
        have hstep : setExtStep (e, m, c) r =
          ((if r.extIdValue ≠ "" then jsMapSet e r.extIdValue r.recordId else e),
            m ++ [(r.recordId, r)], c + 1) := by
          simp only [setExtStep]
          rw [if_pos hid, if_neg (by rw [hhasf]; simp)]
          rw [hmset]
        rw [hstep]
        obtain ⟨extras, h1, h2, h3, h4⟩ := ih _ (m ++ [(r.recordId, r)]) (c + 1)
        refine ⟨(r.recordId, r) :: extras, ?_, ?_, ?_, ?_⟩
        · rw [h1]; simp
        · rw [h2]; simp only [List.length_cons]; omega
        · simp only [List.map_cons, List.nodup_cons]
          refine ⟨?_, h3⟩
          intro hcon
          have := (h4 r.recordId).mp hcon
          have hfalse := this.2.1
          rw [jsMapHas_append] at hfalse
          simp [jsMapHas] at hfalse
        · intro k
          simp only [List.map_cons, List.mem_cons]
          rw [h4 k]
          constructor
          · rintro (hk | ⟨hk1, hk2, hk3⟩)
            · subst hk
              exact ⟨hid, hhasf, by simp⟩
            · rw [jsMapHas_append] at hk2
              simp only [Bool.or_eq_false_iff] at hk2
              exact ⟨hk1, hk2.1, by simp [hk3]⟩
          · rintro ⟨hk1, hk2, hk3⟩
            by_cases hkr : k = r.recordId
            · exact Or.inl hkr
            · refine Or.inr ⟨hk1, ?_, ?_⟩
              · rw [jsMapHas_append]
                simp only [Bool.or_eq_false_iff]
                refine ⟨hk2, ?_⟩
                simp only [jsMapHas, List.any_cons, List.any_nil, Bool.or_false]
                exact beq_eq_false_iff_ne.mpr (fun hc => hkr hc.symm)
              · have hk3b : k = r.recordId ∨ k ∈ List.map SRecord.recordId rs := by
                  simpa using hk3
                rcases hk3b with hk3b | hk3b
                · exact absurd hk3b hkr
                · exact hk3b

/-- C2: applying the uniform index update (`___setExternalIdMap`) to any
    sequence of fetched records only appends fresh entries to the
    identifier index (so the index never shrinks and no already-known
    identifier's record is replaced — first-write-wins), and the returned
    new-records count is exactly the number of appended entries, whose keys
    are pairwise distinct and are precisely the non-empty identifiers
    occurring among the fetched records that were not previously present in
    the identifier index. -/
theorem c2_identifier_index_first_write_wins (records : List SRecord)
    (e : List (String × String)) (m : List (String × SRecord)) :
    ∃ extras : List (String × SRecord),
      (setExternalIdMap records e m).2.1 = m ++ extras
      ∧ (setExternalIdMap records e m).2.2 = extras.length
      ∧ (extras.map Prod.fst).Nodup
      ∧ (∀ k, k ∈ extras.map Prod.fst ↔
          (¬ (k = "") ∧ jsMapHas m k = false ∧ k ∈ records.map SRecord.recordId))
      ∧ m.length ≤ (setExternalIdMap records e m).2.1.length
      ∧ (∀ k v, jsMapGet m k = some v → jsMapGet (setExternalIdMap records e m).2.1 k = some v) := by
  obtain ⟨extras, h1, h2, h3, h4⟩ := setExtFold_idMap records e m 0
  refine ⟨extras, h1, by simpa using h2, h3, h4, ?_, ?_⟩
  · unfold setExternalIdMap
    rw [h1]
    rw [List.length_append]
    omega
  · intro k v hv
    unfold setExternalIdMap
    rw [h1]
    exact jsMapGet_append_left m extras k v hv

/-- C9: engine selection — the row-level REST engine is chosen exactly when
    the record count is at or below the bulk threshold or the job always
    uses the REST engine; otherwise a bulk engine is chosen, version 2 when
    the configured bulk-api version number is 2 and version 1 otherwise. -/
theorem c9_engine_selection (bulkThreshold : Nat) (alwaysRest : Bool)
    (versionNumber : Nat) (amount : Nat) :
    (createApiEngine bulkThreshold alwaysRest versionNumber amount = ApiEngineKind.restApi
      ↔ (amount ≤ bulkThreshold ∨ alwaysRest = true))
    ∧ (createApiEngine bulkThreshold alwaysRest versionNumber amount = ApiEngineKind.bulkApiV2
      ↔ (bulkThreshold < amount ∧ alwaysRest = false ∧ versionNumber = 2))
    ∧ (createApiEngine bulkThreshold alwaysRest versionNumber amount = ApiEngineKind.bulkApiV1
      ↔ (bulkThreshold < amount ∧ alwaysRest = false ∧ ¬ (versionNumber = 2))) := by
  unfold createApiEngine
  by_cases h1 : bulkThreshold < amount
  · cases alwaysRest with
    | true =>
      rw [if_neg (by simp)]
      refine ⟨by simp, by simp, by simp⟩
    | false =>
      rw [if_pos ⟨h1, rfl⟩]
      by_cases h3 : versionNumber = 2
      · rw [if_pos h3]
        refine ⟨?_, ?_, ?_⟩
        · simp; omega
        · simp [h1, h3]
        · simp [h3]
      · rw [if_neg h3]
        refine ⟨?_, ?_, ?_⟩
        · simp; omega
        · simp [h3]
        · simp [h1, h3]
  · rw [if_neg (by intro hc; exact h1 hc.1)]
    refine ⟨?_, ?_, ?_⟩
    · simp
      omega
    · simp
      intro h
      omega
    · simp
      intro h
      omega

/-- C6: for a missing or empty source file (the header read returns zero
    rows) `validateCSV` returns exactly one issue, attributed to the
    entity, with the empty-file error, independently of the per-field
    column checks. -/
theorem c6_empty_file_single_issue (sObjectName : String) (fieldsToUpdate : List String) :
    validateCSV sObjectName fieldsToUpdate [] = [csvFileIsEmptyIssue sObjectName] := by
  simp [validateCSV]

theorem setExtStep_fst (acc : List (String × String) × List (String × SRecord) × Nat)
    (x : SRecord) :
    (setExtStep acc x).1 =
      (if x.extIdValue ≠ "" then jsMapSet acc.1 x.extIdValue x.recordId else acc.1) := by
  unfold setExtStep
  by_cases h1 : x.recordId ≠ ""
  · by_cases h2 : jsMapHas acc.2.1 x.recordId
    · simp [h1, h2]
    · simp [h1, h2]
  · simp [h1]

theorem setExtFold_extMap_frame (records : List SRecord) :
    ∀ (acc : List (String × String) × List (String × SRecord) × Nat) (v : String),
    (∀ x ∈ records, ¬ (x.extIdValue = v)) →
    jsMapGet (records.foldl setExtStep acc).1 v = jsMapGet acc.1 v := by
  induction records with
  | nil => intro acc v _; rfl
  | cons x xs ih =>
    intro acc v hall
    rw [List.foldl_cons]
    rw [ih (setExtStep acc x) v (fun y hy => hall y (List.mem_cons_of_mem x hy))]
    rw [setExtStep_fst]
    by_cases hx : x.extIdValue ≠ ""
    · rw [if_pos hx]
      exact jsMapGet_set_other acc.1 x.extIdValue v x.recordId
        (fun hc => hall x (List.mem_cons_self x xs) hc.symm)
    · rw [if_neg hx]

theorem setExtFold_extMap_last (records : List SRecord) :
    ∀ (acc : List (String × String) × List (String × SRecord) × Nat) (v : String) (r : SRecord),
    ¬ (v = "") →
    (records.filter (fun x => x.extIdValue == v)).getLast? = some r →
    jsMapGet (records.foldl setExtStep acc).1 v = some r.recordId := by
  induction records with
  | nil =>
    intro acc v r _ hlast
    simp at hlast
  | cons x xs ih =>
    intro acc v r hv hlast
    rw [List.foldl_cons]
    by_cases hx : x.extIdValue = v
    · have hxb : (x.extIdValue == v) = true := beq_iff_eq.mpr hx
      rw [List.filter_cons, if_pos hxb] at hlast
      cases hfe : xs.filter (fun y => y.extIdValue == v) with
      | nil =>
        rw [hfe] at hlast
        simp at hlast
        subst hlast
        have hnone : ∀ y ∈ xs, ¬ (y.extIdValue = v) := by
          intro y hy hc
          have : y ∈ xs.filter (fun z => z.extIdValue == v) :=
            List.mem_filter.mpr ⟨hy, beq_iff_eq.mpr hc⟩
          rw [hfe] at this
          simp at this
        rw [setExtFold_extMap_frame xs (setExtStep acc x) v hnone]
        rw [setExtStep_fst]
        rw [if_pos (by rw [hx]; exact hv)]
        rw [hx]
        exact jsMapGet_set_self acc.1 v x.recordId
      | cons y ys =>
        rw [hfe] at hlast
        rw [List.getLast?_cons_cons] at hlast
        rw [← hfe] at hlast
        exact ih (setExtStep acc x) v r hv hlast
    · have hxb : (x.extIdValue == v) = false := beq_eq_false_iff_ne.mpr hx
      rw [List.filter_cons, if_neg (by rw [hxb]; simp)] at hlast
      exact ih (setExtStep acc x) v r hv hlast

theorem setExtFold_extMap_all_empty (records : List SRecord) :
    ∀ (acc : List (String × String) × List (String × SRecord) × Nat),
    (∀ x ∈ records, x.extIdValue = "") →
    (records.foldl setExtStep acc).1 = acc.1 := by
  induction records with
  | nil => intro acc _; rfl
  | cons x xs ih =>
    intro acc hall
    rw [List.foldl_cons]
    rw [ih (setExtStep acc x) (fun y hy => hall y (List.mem_cons_of_mem x hy))]
    rw [setExtStep_fst]
    rw [if_neg (by simpa using hall x (List.mem_cons_self x xs))]

/-- C3: within one task's external-id index, rediscovery of the same
    non-empty external-id value replaces the mapped identifier: after
    `___setExternalIdMap` processes the batch, a non-empty external-id
    value maps to the identifier of the last fetched record bearing it
    (last-write-wins); a batch of records whose external-id values are all
    empty leaves the external-id index unchanged. -/
theorem c3_external_id_last_write_wins (records : List SRecord)
    (e : List (String × String)) (m : List (String × SRecord)) :
    (∀ v r, ¬ (v = "") →
      ((records.filter (fun x => x.extIdValue == v)).getLast? = some r) →
      jsMapGet (setExternalIdMap records e m).1 v = some r.recordId)
    ∧ ((∀ x ∈ records, x.extIdValue = "") → (setExternalIdMap records e m).1 = e) := by
  constructor
  · intro v r hv hlast
    exact setExtFold_extMap_last records (e, m, 0) v r hv hlast
  · intro hall
    exact setExtFold_extMap_all_empty records (e, m, 0) hall

/-- Witness for C3: two records sharing external id "K" leave "K" mapped to
    the identifier of the later one; a record with empty external id leaves
    the external-id index untouched. -/
theorem c3_external_id_last_write_wins_witness :
    jsMapGet (setExternalIdMap [⟨"I1", "K"⟩, ⟨"I2", "K"⟩] [] []).1 "K"
        = some (SRecord.mk "I2" "K").recordId
    ∧ (setExternalIdMap [⟨"I3", ""⟩] [("K", "I9")] []).1 = [("K", "I9")] :=
  ⟨(c3_external_id_last_write_wins [⟨"I1", "K"⟩, ⟨"I2", "K"⟩] [] []).1 "K" ⟨"I2", "K"⟩
      (by decide) (by decide),
   (c3_external_id_last_write_wins [⟨"I3", ""⟩] [("K", "I9")] []).2 (by decide)⟩

/-- C10: a task whose operation is Delete returns from `retrieveRecords`
    immediately, in every query mode and for both values of the reversed
    flag: no query is issued and the identifier and external-id indices of
    both endpoints (the whole task state) are unchanged. -/
theorem c10_delete_retrieve_noop (env : RetrieveEnv) (queryMode : QueryMode)
    (reversed : Bool) (st : RetrieveState)
    (h : st.operationKind = OperationKind.deleteOp) :
    retrieveRecords env queryMode reversed st = (st, []) := by
  unfold retrieveRecords
  rw [if_pos h]

/-- Witness for C10 at a concrete delete-operation task state. -/
theorem c10_delete_retrieve_noop_witness :
    retrieveRecords
      ⟨"Q", fun _ _ => ["F1"], fun _ => [⟨"A", "B"⟩], [⟨"C", "D"⟩], ["S"],
        fun _ _ => "V", fun _ _ => ["F2"]⟩
      QueryMode.forwards false
      ⟨OperationKind.deleteOp, true, true, MediaKind.orgMedia, MediaKind.orgMedia,
        ⟨[], []⟩, ⟨[], []⟩⟩
    = (⟨OperationKind.deleteOp, true, true, MediaKind.orgMedia, MediaKind.orgMedia,
        ⟨[], []⟩, ⟨[], []⟩⟩, []) :=
  c10_delete_retrieve_noop _ QueryMode.forwards false _ rfl

theorem pairsList_mem_bound (n : Nat) (p : Nat × Nat) (h : p ∈ pairsList n) :
    p.1 < p.2 ∧ p.2 < n := by
  unfold pairsList at h
  simp only [List.mem_flatMap, List.mem_map, List.mem_filter, List.mem_range] at h
  obtain ⟨i, hi, j, ⟨hj, hij⟩, rfl⟩ := h
  exact ⟨by simpa using hij, hj⟩

theorem mem_pairsList (n i j : Nat) (hij : i < j) (hj : j < n) : (i, j) ∈ pairsList n := by
  unfold pairsList
  simp only [List.mem_flatMap, List.mem_map, List.mem_filter, List.mem_range]
  exact ⟨i, lt_trans hij hj, j, ⟨hj, by simpa using hij⟩, rfl⟩

theorem mdFold_flag_true (cond : Nat → Nat → Bool) (tasks : List Nat)
    (l : List (Nat × Nat)) :
    ∀ ts : List Nat, (l.foldl (mdStep cond tasks) (ts, true)).2 = true := by
  induction l with
  | nil => intro ts; rfl
  | cons p l ih =>
    intro ts
    rw [List.foldl_cons]
    unfold mdStep
    by_cases hc : cond (tasks.getD p.1 0) (tasks.getD p.2 0)
    · rw [if_pos hc]
      exact ih _
    · rw [if_neg hc]
      exact ih ts

theorem mdFold_flag_false (cond : Nat → Nat → Bool) (tasks : List Nat)
    (l : List (Nat × Nat)) :
    ∀ acc : List Nat × Bool, (l.foldl (mdStep cond tasks) acc).2 = false →
      ∀ p ∈ l, cond (tasks.getD p.1 0) (tasks.getD p.2 0) = false := by
  induction l with
  | nil =>
    intro acc _ p hp
    simp at hp
  | cons q l ih =>
    intro acc h p hp
    rw [List.foldl_cons] at h
    by_cases hc : cond (tasks.getD q.1 0) (tasks.getD q.2 0)
    · exfalso
      have hstep : mdStep cond tasks acc q =
          (listInsertAt (listIndexOf (tasks.getD q.1 0) acc.1) (tasks.getD q.2 0)
            (acc.1.eraseIdx (listIndexOf (tasks.getD q.2 0) acc.1)), true) := by
        unfold mdStep
        rw [if_pos hc]
      rw [hstep] at h
      rw [mdFold_flag_true cond tasks l _] at h
      exact absurd h (by simp)
    · have hstep : mdStep cond tasks acc q = acc := by
        unfold mdStep
        rw [if_neg hc]
      rw [hstep] at h
      rcases List.mem_cons.mp hp with hp1 | hp1
      · subst hp1
        simpa using hc
      · exact ih acc h p hp1

theorem mdPass_no_swap (cond : Nat → Nat → Bool) (ts : List Nat)
    (h : (mdPass cond ts).2 = false) :
    ∀ i j, i < j → j < ts.length → cond (ts.getD i 0) (ts.getD j 0) = false := by
  intro i j hij hj
  exact mdFold_flag_false cond ts (pairsList ts.length) (ts, false) h (i, j)
    (mem_pairsList ts.length i j hij hj)

/-- C1 (amended): whenever the relaxation of `setup` reaches a fixed point
    (the execution order admits no further master-detail move, which is the
    case exactly when the loop stopped early after a pass with zero moves),
    every task that declares the task at another position as a
    parent-master-detail object comes strictly after it: the parent's index
    is strictly less than the child's index. -/
theorem c1_master_detail_order_on_convergence (objs : List ScriptObject) (i j : Nat)
    (hconv : (mdPass (mdCond objs) (setupTasks objs)).2 = false)
    (hi : i < (setupTasks objs).length) (hj : j < (setupTasks objs).length)
    (hij : ¬ (i = j))
    (hdecl : mdCond objs ((setupTasks objs).getD i 0) ((setupTasks objs).getD j 0) = true) :
    j < i := by
  rcases Nat.lt_trichotomy i j with h | h | h
  · have := mdPass_no_swap (mdCond objs) (setupTasks objs) hconv i j h hj
    rw [hdecl] at this
    exact absurd this (by simp)
  · exact absurd h hij
  · exact h

/-- Witness for C1 (amended) at spec scenario 7: with descriptors
    [Contact (master-detail parent Account), Account], setup converges to
    [Account, Contact] and the theorem places the parent at the smaller
    index. -/
theorem c1_master_detail_order_on_convergence_witness :
    (mdPass (mdCond exContactAccount) (setupTasks exContactAccount)).2 = false
    ∧ 0 < 1 :=
  ⟨by decide,
   c1_master_detail_order_on_convergence exContactAccount 1 0 (by decide) (by decide)
     (by decide) (by decide) (by decide)⟩

/-- Counterexample to C1 as stated: with a cyclic master-detail declaration
    (A declares B, B declares A) the 10-pass relaxation oscillates without
    converging, and after setup the pair (parent B, child A) violates
    "parent index < child index". -/
theorem c1_counterexample :
    ¬ (∀ i j, i < (setupTasks exCyclicMD).length → j < (setupTasks exCyclicMD).length →
        ¬ (i = j) →
        mdCond exCyclicMD ((setupTasks exCyclicMD).getD i 0)
          ((setupTasks exCyclicMD).getD j 0) = true →
        j < i) := by
  intro h
  have h1 : mdCond exCyclicMD ((setupTasks exCyclicMD).getD 0 0)
      ((setupTasks exCyclicMD).getD 1 0) = true := by decide
  have := h 0 1 (by decide) (by decide) (by decide) h1
  omega

theorem listInsertAt_perm {α : Type} (n : Nat) (a : α) (l : List α) :
    List.Perm (listInsertAt n a l) (a :: l) := by
  induction n generalizing l with
  | zero => exact List.Perm.refl _
  | succ n ih =>
    cases l with
    | nil => exact List.Perm.refl _
    | cons x xs =>
      show List.Perm (x :: listInsertAt n a xs) (a :: x :: xs)
      exact List.Perm.trans (List.Perm.cons x (ih xs)) (List.Perm.swap a x xs)

theorem indexOf_erase_perm (a : Nat) (l : List Nat) (h : a ∈ l) :
    List.Perm l (a :: l.eraseIdx (listIndexOf a l)) := by
  induction l with
  | nil => simp at h
  | cons x xs ih =>
    by_cases hx : x = a
    · subst hx
      have hidx : listIndexOf x (x :: xs) = 0 := by
        simp [listIndexOf, List.findIdx_cons]
      rw [hidx, List.eraseIdx_cons_zero]
    · have hxs : a ∈ xs := by
        rcases List.mem_cons.mp h with h1 | h1
        · exact absurd h1.symm hx
        · exact h1
      have hb : (x == a) = false := beq_eq_false_iff_ne.mpr hx
      have hidx : listIndexOf a (x :: xs) = listIndexOf a xs + 1 := by
        simp [listIndexOf, List.findIdx_cons, hb]
      rw [hidx, List.eraseIdx_cons_succ]
      exact List.Perm.trans (List.Perm.cons x (ih hxs)) (List.Perm.swap a x _)

theorem mdStep_perm (cond : Nat → Nat → Bool) (tasks : List Nat)
    (acc : List Nat × Bool) (p : Nat × Nat)
    (hperm : List.Perm acc.1 tasks) (hp2 : p.2 < tasks.length) :
    List.Perm (mdStep cond tasks acc p).1 tasks := by
  unfold mdStep
  by_cases hc : cond (tasks.getD p.1 0) (tasks.getD p.2 0)
  · rw [if_pos hc]
    have hmem : tasks.getD p.2 0 ∈ tasks := by
      rw [List.getD_eq_getElem tasks 0 hp2]
      exact List.getElem_mem hp2
    have hmemacc : tasks.getD p.2 0 ∈ acc.1 := (hperm.mem_iff).mpr hmem
    have h1 := listInsertAt_perm (listIndexOf (tasks.getD p.1 0) acc.1) (tasks.getD p.2 0)
      (acc.1.eraseIdx (listIndexOf (tasks.getD p.2 0) acc.1))
    have h2 := indexOf_erase_perm (tasks.getD p.2 0) acc.1 hmemacc
    exact h1.trans (h2.symm.trans hperm)
  · rw [if_neg hc]
    exact hperm

theorem mdFold_perm (cond : Nat → Nat → Bool) (tasks : List Nat) :
    ∀ (l : List (Nat × Nat)) (acc : List Nat × Bool),
    (∀ p ∈ l, p.2 < tasks.length) → List.Perm acc.1 tasks →
    List.Perm ((l.foldl (mdStep cond tasks) acc).1) tasks := by
  intro l
  induction l with
  | nil => intro acc _ h; exact h
  | cons p l ih =>
    intro acc hl h
    rw [List.foldl_cons]
    exact ih _ (fun q hq => hl q (List.mem_cons_of_mem _ hq))
      (mdStep_perm cond tasks acc p h (hl p (List.mem_cons_self _ _)))

theorem mdPass_perm (cond : Nat → Nat → Bool) (ts : List Nat) :
    List.Perm (mdPass cond ts).1 ts := by
  unfold mdPass
  exact mdFold_perm cond ts (pairsList ts.length) (ts, false)
    (fun p hp => (pairsList_mem_bound ts.length p hp).2) (List.Perm.refl ts)

theorem relaxLoop_perm (cond : Nat → Nat → Bool) :
    ∀ (n : Nat) (ts : List Nat), List.Perm (relaxLoop cond n ts) ts := by
  intro n
  induction n with
  | zero => intro ts; exact List.Perm.refl ts
  | succ n ih =>
    intro ts
    unfold relaxLoop
    by_cases h : (mdPass cond ts).2
    · rw [if_pos h]
      exact (ih (mdPass cond ts).1).trans (mdPass_perm cond ts)
    · rw [if_neg h]
      exact mdPass_perm cond ts

theorem placeStep_perm (objs : List ScriptObject) (st : List Nat × Nat × Nat) (i : Nat) :
    List.Perm (placeStep objs st i).1 (i :: st.1) := by
  unfold placeStep
  by_cases h1 : (objs.getD i default).name = "RecordType"
  · rw [if_pos h1]
  · rw [if_neg h1]
    by_cases h2 : (objs.getD i default).isReadonlyObject
    · rw [if_pos h2]
      exact listInsertAt_perm _ _ _
    · rw [if_neg h2]
      by_cases h3 : st.1.length = 0
      · rw [if_pos h3]
        exact List.perm_append_singleton _ _
      · rw [if_neg h3]
        exact listInsertAt_perm _ _ _

theorem placeFold_perm (objs : List ScriptObject) :
    ∀ (l : List Nat) (st : List Nat × Nat × Nat),
    List.Perm ((l.foldl (placeStep objs) st).1) (st.1 ++ l) := by
  intro l
  induction l with
  | nil => intro st; simp
  | cons i l ih =>
    intro st
    rw [List.foldl_cons]
    have h1 := ih (placeStep objs st i)
    have h2 : List.Perm ((placeStep objs st i).1 ++ l) ((i :: st.1) ++ l) :=
      (placeStep_perm objs st i).append_right l
    have h3 : List.Perm ((i :: st.1) ++ l) (st.1 ++ i :: l) := by
      show List.Perm (i :: (st.1 ++ l)) (st.1 ++ i :: l)
      exact List.perm_middle.symm
    exact (h1.trans h2).trans h3

theorem placeTasks_perm (objs : List ScriptObject) :
    List.Perm (placeTasks objs) (List.range objs.length) := by
  unfold placeTasks
  have := placeFold_perm objs (List.range objs.length) ([], 0, 0)
  simpa using this

theorem setupTasks_perm (objs : List ScriptObject) :
    List.Perm (setupTasks objs) (List.range objs.length) :=
  (relaxLoop_perm (mdCond objs) 10 (placeTasks objs)).trans (placeTasks_perm objs)

theorem setupTasks_nodup (objs : List ScriptObject) : (setupTasks objs).Nodup :=
  ((setupTasks_perm objs).symm).nodup (List.nodup_range objs.length)

theorem setupTasks_length (objs : List ScriptObject) :
    (setupTasks objs).length = objs.length := by
  have := (setupTasks_perm objs).length_eq
  simpa using this

theorem foldl_filter_append {α : Type} (p : α → Bool) (l : List α) :
    ∀ acc : List α,
    l.foldl (fun acc t => if p t then acc ++ [t] else acc) acc = acc ++ l.filter p := by
  induction l with
  | nil => intro acc; simp
  | cons x xs ih =>
    intro acc
    rw [List.foldl_cons, List.filter_cons]
    by_cases hx : p x
    · rw [if_pos hx, if_pos hx, ih]
      simp
    · rw [if_neg hx, if_neg hx, ih]

theorem listContains_iff (l : List Nat) (a : Nat) : l.contains a = true ↔ a ∈ l := by
  simp

theorem foldl_dedup_append (p : Nat → Bool) (l : List Nat) :
    ∀ acc : List Nat, l.Nodup → (∀ t ∈ l, acc.contains t = p t) →
    l.foldl (fun acc t => if acc.contains t then acc else acc ++ [t]) acc
      = acc ++ l.filter (fun t => ! p t) := by
  induction l with
  | nil => intro acc _ _; simp
  | cons x xs ih =>
    intro acc hnd hmem
    rw [List.foldl_cons, List.filter_cons]
    have hx := hmem x (List.mem_cons_self x xs)
    by_cases hpx : p x = true
    · rw [hpx] at hx
      rw [if_pos hx]
      have hb : (! p x) = false := by rw [hpx]; rfl
      rw [hb, if_neg (by simp)]
      exact ih acc (List.Nodup.of_cons hnd) (fun t ht => hmem t (List.mem_cons_of_mem x ht))
    · have hpxf : p x = false := by
        cases hpc : p x
        · rfl
        · exact absurd hpc hpx
      rw [hpxf] at hx
      rw [if_neg (by rw [hx]; simp)]
      have hnotin : x ∉ xs := (List.nodup_cons.mp hnd).1
      have hmem2 : ∀ t ∈ xs, (acc ++ [x]).contains t = p t := by
        intro t ht
        have hne : ¬ (t = x) := fun hc => hnotin (hc ▸ ht)
        cases hpt : p t with
        | true =>
          have h1 : t ∈ acc := (listContains_iff acc t).mp (by rw [hmem t (List.mem_cons_of_mem x ht), hpt])
          exact (listContains_iff _ t).mpr (List.mem_append_left _ h1)
        | false =>
          cases hc : (acc ++ [x]).contains t with
          | false => rfl
          | true =>
            exfalso
            have h1 := (listContains_iff _ t).mp hc
            rcases List.mem_append.mp h1 with h2 | h2
            · have h3 := hmem t (List.mem_cons_of_mem x ht)
              rw [hpt] at h3
              have h4 := (listContains_iff acc t).mpr h2
              rw [h3] at h4
              exact absurd h4 (by simp)
            · simp at h2
              exact hne h2
      rw [ih (acc ++ [x]) (List.Nodup.of_cons hnd) hmem2]
      have hb : (! p x) = true := by rw [hpxf]; rfl
      rw [hb, if_pos rfl]
      simp

/-- C8: the query-order task list derived by `setup` consists of all tasks
    flagged process-all-source or limited-query first, in execution-order
    relative order, followed by all remaining tasks, in execution-order
    relative order, and every task of the execution order appears exactly
    once. -/
theorem c8_query_order (objs : List ScriptObject) :
    queryTasksOf objs
      = (setupTasks objs).filter (queryTaskFlag objs)
        ++ (setupTasks objs).filter (fun t => ! queryTaskFlag objs t)
    ∧ ∀ t ∈ setupTasks objs, (queryTasksOf objs).count t = 1 := by
  have hnd := setupTasks_nodup objs
  have hq : queryTasksOf objs = (setupTasks objs).filter (queryTaskFlag objs)
      ++ (setupTasks objs).filter (fun t => ! queryTaskFlag objs t) := by
    unfold queryTasksOf queryOrderOf
    rw [foldl_filter_append (queryTaskFlag objs) (setupTasks objs) []]
    rw [List.nil_append]
    apply foldl_dedup_append (queryTaskFlag objs) (setupTasks objs) _ hnd
    intro t ht
    cases hpt : queryTaskFlag objs t with
    | true =>
      apply (listContains_iff _ _).mpr
      exact List.mem_filter.mpr ⟨ht, hpt⟩
    | false =>
      cases hc : (List.filter (queryTaskFlag objs) (setupTasks objs)).contains t with
      | false => rfl
      | true =>
        exfalso
        have h1 := (List.mem_filter.mp ((listContains_iff _ _).mp hc)).2
        rw [hpt] at h1
        exact absurd h1 (by simp)
  refine ⟨hq, ?_⟩
  intro t ht
  rw [hq, List.count_append]
  cases hpt : queryTaskFlag objs t with
  | true =>
    have h1 : List.count t (List.filter (queryTaskFlag objs) (setupTasks objs)) = 1 :=
      List.count_eq_one_of_mem (hnd.filter _) (List.mem_filter.mpr ⟨ht, hpt⟩)
    have h2 : List.count t ((setupTasks objs).filter (fun t => ! queryTaskFlag objs t)) = 0 := by
      rw [List.count_eq_zero]
      intro hc
      have h3 := (List.mem_filter.mp hc).2
      rw [hpt] at h3
      exact absurd h3 (by simp)
    rw [h1, h2]
  | false =>
    have h1 : List.count t (List.filter (queryTaskFlag objs) (setupTasks objs)) = 0 := by
      rw [List.count_eq_zero]
      intro hc
      have h3 := (List.mem_filter.mp hc).2
      rw [hpt] at h3
      exact absurd h3 (by simp)
    have h2 : List.count t ((setupTasks objs).filter (fun t => ! queryTaskFlag objs t)) = 1 := by
      apply List.count_eq_one_of_mem (hnd.filter _)
      apply List.mem_filter.mpr
      refine ⟨ht, ?_⟩
      rw [hpt]
      rfl
    rw [h1, h2]

theorem listInsertAt_append_right {α : Type} (l1 : List α) :
    ∀ (l2 : List α) (n : Nat) (a : α), l1.length ≤ n →
    listInsertAt n a (l1 ++ l2) = l1 ++ listInsertAt (n - l1.length) a l2 := by
  induction l1 with
  | nil => intro l2 n a _; simp
  | cons x xs ih =>
    intro l2 n a h
    cases n with
    | zero => simp at h
    | succ m =>
      have hm : xs.length ≤ m := by
        simp only [List.length_cons] at h
        omega
      have harith : m + 1 - (xs.length + 1) = m - xs.length := by omega
      show x :: listInsertAt m a (xs ++ l2) = x :: (xs ++ listInsertAt (m + 1 - (xs.length + 1)) a l2)
      rw [ih l2 m a hm, harith]

theorem mem_listInsertAt {α : Type} :
    ∀ (n : Nat) (a x : α) (l : List α), x ∈ listInsertAt n a l → x = a ∨ x ∈ l := by
  intro n
  induction n with
  | zero =>
    intro a x l h
    rcases List.mem_cons.mp h with h1 | h1
    · exact Or.inl h1
    · exact Or.inr h1
  | succ n ih =>
    intro a x l h
    cases l with
    | nil =>
      rcases List.mem_cons.mp h with h1 | h1
      · exact Or.inl h1
      · simp at h1
    | cons y ys =>
      rcases List.mem_cons.mp h with h1 | h1
      · exact Or.inr (h1 ▸ List.mem_cons_self y ys)
      · rcases ih a x ys h1 with h2 | h2
        · exact Or.inl h2
        · exact Or.inr (List.mem_cons_of_mem y h2)

theorem eraseIdx_append_right {α : Type} (l1 : List α) :
    ∀ (l2 : List α) (n : Nat), l1.length ≤ n →
    (l1 ++ l2).eraseIdx n = l1 ++ l2.eraseIdx (n - l1.length) := by
  induction l1 with
  | nil => intro l2 n _; simp
  | cons x xs ih =>
    intro l2 n h
    cases n with
    | zero => simp at h
    | succ m =>
      have hm : xs.length ≤ m := by
        simp only [List.length_cons] at h
        omega
      have harith : m + 1 - (xs.length + 1) = m - xs.length := by omega
      show ((x :: (xs ++ l2)).eraseIdx (m + 1)) = x :: (xs ++ l2.eraseIdx (m + 1 - (xs.length + 1)))
      rw [List.eraseIdx_cons_succ, ih l2 m hm, harith]

theorem listIndexOf_append_not_mem (a : Nat) (l1 : List Nat) :
    ∀ l2 : List Nat, a ∉ l1 →
    listIndexOf a (l1 ++ l2) = l1.length + listIndexOf a l2 := by
  induction l1 with
  | nil => intro l2 _; simp
  | cons x xs ih =>
    intro l2 h
    have hx : ¬ (x = a) := fun hc => h (hc ▸ List.mem_cons_self x xs)
    have hb : (x == a) = false := beq_eq_false_iff_ne.mpr hx
    unfold listIndexOf
    rw [List.cons_append, List.findIdx_cons, hb]
    simp only [Bool.cond_false]
    have hih := ih l2 (fun hc => h (List.mem_cons_of_mem x hc))
    unfold listIndexOf at hih
    rw [hih]
    simp only [List.length_cons]
    omega

theorem getD_mem_of_lt {α : Type} (l : List α) (j : Nat) (d : α) (h : j < l.length) :
    l.getD j d ∈ l := by
  rw [List.getD_eq_getElem l d h]
  exact List.getElem_mem h

theorem scanInsertIndex_ge (objs : List ScriptObject) (o : ScriptObject)
    (tasks : List Nat) (lowerAny : Nat) (h : lowerAny ≤ tasks.length) :
    lowerAny ≤ scanInsertIndex objs o tasks lowerAny := by
  unfold scanInsertIndex
  have hgen : ∀ (l : List Nat) (acc : Nat), lowerAny ≤ acc → (∀ j ∈ l, lowerAny ≤ j) →
      lowerAny ≤ l.foldl (fun indexToInsert existedTaskIndex =>
        if (objs.getD (tasks.getD existedTaskIndex 0) default).parentLookupObjects.contains
            o.name
        then existedTaskIndex else indexToInsert) acc := by
    intro l
    induction l with
    | nil => intro acc ha _; exact ha
    | cons x xs ih =>
      intro acc ha hl
      rw [List.foldl_cons]
      apply ih
      · by_cases hc :
          (objs.getD (tasks.getD x 0) default).parentLookupObjects.contains o.name
        · rw [if_pos hc]
          exact hl x (List.mem_cons_self x xs)
        · rw [if_neg hc]
          exact ha
      · exact fun j hj => hl j (List.mem_cons_of_mem x hj)
  apply hgen
  · exact h
  · intro j hj
    rw [List.mem_reverse] at hj
    exact (List.mem_range'_1.mp hj).1

theorem specialB_default : specialB (default : ScriptObject) = false := by decide

theorem placeStep_placedInv (objs : List ScriptObject) (st : List Nat × Nat × Nat) (i : Nat)
    (h : PlacedInv objs st) :
    PlacedInv objs (placeStep objs st i)
    ∧ st.2.2 ≤ (placeStep objs st i).2.2
    ∧ ((objs.getD i default).name = "RecordType" → 0 < (placeStep objs st i).2.2) := by
  obtain ⟨rt, ro, rest, he, hrt, hro, hnrt, hnro, hnrest⟩ := h
  unfold placeStep
  by_cases h1 : (objs.getD i default).name = "RecordType"
  · rw [if_pos h1]
    refine ⟨⟨i :: rt, ro, rest, ?_, ?_, ?_, ?_, hnro, hnrest⟩, ?_, ?_⟩
    · rw [he]
      rfl
    · simp [hrt]
    · simp only [List.length_cons]
      omega
    · intro t ht
      rcases List.mem_cons.mp ht with h2 | h2
      · rw [h2]
        exact h1
      · exact hnrt t h2
    · exact Nat.le_succ _
    · intro _
      exact Nat.succ_pos _
  · rw [if_neg h1]
    by_cases h2 : (objs.getD i default).isReadonlyObject
    · rw [if_pos h2]
      have hspec : specialB (objs.getD i default) = true := by
        unfold specialB
        rw [h2]
        simp
      have hins : listInsertAt st.2.2 i st.1 = rt ++ ((i :: ro) ++ rest) := by
        rw [he, ← hrt, List.append_assoc]
        rw [listInsertAt_append_right rt (ro ++ rest) rt.length i (le_refl _)]
        rw [Nat.sub_self]
        rfl
      refine ⟨⟨rt, i :: ro, rest, ?_, hrt, ?_, hnrt, ?_, hnrest⟩, le_refl _, ?_⟩
      · rw [hins]
        exact (List.append_assoc rt (i :: ro) rest).symm
      · simp only [List.length_cons]
        omega
      · intro t ht
        rcases List.mem_cons.mp ht with h3 | h3
        · rw [h3]
          exact hspec
        · exact hnro t h3
      · intro hc
        exact absurd hc h1
    · rw [if_neg h2]
      have hnsi : specialB (objs.getD i default) = false := by
        unfold specialB
        rw [decide_eq_false h1, Bool.false_or]
        exact Bool.eq_false_iff.mpr h2
      by_cases h3 : st.1.length = 0
      · rw [if_pos h3]
        have hall : rt = [] ∧ ro = [] ∧ rest = [] := by
          rw [he] at h3
          rw [List.length_eq_zero] at h3
          rw [List.append_eq_nil, List.append_eq_nil] at h3
          exact ⟨h3.1.1, h3.1.2, h3.2⟩
        obtain ⟨hrt0, hro0, hrest0⟩ := hall
        refine ⟨⟨rt, ro, rest ++ [i], ?_, hrt, hro, hnrt, hnro, ?_⟩, le_refl _, ?_⟩
        · rw [he]
          simp
        · intro t ht
          rcases List.mem_append.mp ht with h4 | h4
          · exact hnrest t h4
          · simp at h4
            rw [h4]
            exact hnsi
        · intro hc
          exact absurd hc h1
      · rw [if_neg h3]
        have hlen : st.2.1 ≤ st.1.length := by
          rw [he, ← hro]
          simp only [List.length_append]
          omega
        have hge : rt.length + ro.length
            ≤ scanInsertIndex objs (objs.getD i default) st.1 st.2.1 := by
          rw [hro]
          exact scanInsertIndex_ge objs (objs.getD i default) st.1 st.2.1 hlen
        have hprelen : (rt ++ ro).length
            ≤ scanInsertIndex objs (objs.getD i default) st.1 st.2.1 := by
          rw [List.length_append]
          exact hge
        have hins : listInsertAt (scanInsertIndex objs (objs.getD i default) st.1 st.2.1) i st.1
            = (rt ++ ro) ++ listInsertAt
              (scanInsertIndex objs (objs.getD i default) st.1 st.2.1 - (rt ++ ro).length)
              i rest := by
          rw [he]
          rw [he] at hprelen
          exact listInsertAt_append_right (rt ++ ro) rest _ i hprelen
        refine ⟨⟨rt, ro, listInsertAt
            (scanInsertIndex objs (objs.getD i default) st.1 st.2.1 - (rt ++ ro).length) i rest,
            ?_, hrt, hro, hnrt, hnro, ?_⟩, le_refl _, ?_⟩
        · rw [hins]
        · intro t ht
          rcases mem_listInsertAt _ i t rest ht with h4 | h4
          · rw [h4]
            exact hnsi
          · exact hnrest t h4
        · intro hc
          exact absurd hc h1

theorem placeFold_placedInv (objs : List ScriptObject) :
    ∀ (l : List Nat) (st : List Nat × Nat × Nat), PlacedInv objs st →
    PlacedInv objs (l.foldl (placeStep objs) st)
    ∧ st.2.2 ≤ (l.foldl (placeStep objs) st).2.2
    ∧ (∀ i ∈ l, (objs.getD i default).name = "RecordType" →
        0 < (l.foldl (placeStep objs) st).2.2) := by
  intro l
  induction l with
  | nil =>
    intro st h
    refine ⟨h, le_refl _, ?_⟩
    intro i hi
    simp at hi
  | cons i l ih =>
    intro st h
    rw [List.foldl_cons]
    obtain ⟨hinv, hmono, hrt⟩ := placeStep_placedInv objs st i h
    obtain ⟨hinv2, hmono2, hall2⟩ := ih (placeStep objs st i) hinv
    refine ⟨hinv2, le_trans hmono hmono2, ?_⟩
    intro j hj hname
    rcases List.mem_cons.mp hj with h4 | h4
    · subst h4
      exact Nat.lt_of_lt_of_le (hrt hname) hmono2
    · exact hall2 j h4 hname

theorem placeTasks_split (objs : List ScriptObject) :
    ∃ rt ro rest : List Nat,
      placeTasks objs = rt ++ ro ++ rest
      ∧ (∀ t ∈ rt, (objs.getD t default).name = "RecordType")
      ∧ (∀ t ∈ ro, specialB (objs.getD t default) = true)
      ∧ (∀ t ∈ rest, specialB (objs.getD t default) = false)
      ∧ ((∃ o ∈ objs, o.name = "RecordType") → ¬ (rt = [])) := by
  have hinit : PlacedInv objs (([], 0, 0) : List Nat × Nat × Nat) := by
    exact ⟨[], [], [], rfl, rfl, rfl, by simp, by simp, by simp⟩
  obtain ⟨hinv, _, hall⟩ := placeFold_placedInv objs (List.range objs.length) ([], 0, 0) hinit
  obtain ⟨rt, ro, rest, he, hrt, _, hnrt, hnro, hnrest⟩ := hinv
  refine ⟨rt, ro, rest, he, hnrt, hnro, hnrest, ?_⟩
  rintro ⟨o, ho, hname⟩ hrt0
  obtain ⟨n, hn, hgn⟩ := List.mem_iff_getElem.mp ho
  have hname2 : (objs.getD n default).name = "RecordType" := by
    rw [List.getD_eq_getElem objs default hn, hgn]
    exact hname
  have := hall n (List.mem_range.mpr hn) hname2
  rw [← hrt] at this
  rw [hrt0] at this
  simp at this

theorem mdStep_specialSplit (objs : List ScriptObject) (pre : List Nat)
    (tasks : List Nat) (acc : List Nat × Bool) (p : Nat × Nat)
    (HS : ∀ t : Nat, specialB (objs.getD t default) = true →
      (objs.getD t default).parentMasterDetailObjects = [])
    (hsnap : SpecialSplit objs pre tasks)
    (hacc : SpecialSplit objs pre acc.1)
    (hp1 : p.1 < p.2) (hp2 : p.2 < tasks.length) :
    SpecialSplit objs pre (mdStep (mdCond objs) tasks acc p).1 := by
  unfold mdStep
  by_cases hc : mdCond objs (tasks.getD p.1 0) (tasks.getD p.2 0)
  case neg =>
    rw [if_neg hc]
    exact hacc
  case pos =>
    rw [if_pos hc]
    obtain ⟨rest0, hsnapE, hpreS, hrest0⟩ := hsnap
    obtain ⟨rest, haccE, _, hrest⟩ := hacc
    have hleftNS : specialB (objs.getD (tasks.getD p.1 0) default) = false := by
      by_cases hb : specialB (objs.getD (tasks.getD p.1 0) default) = true
      · exfalso
        have hempty := HS _ hb
        unfold mdCond at hc
        rw [hempty] at hc
        simp at hc
      · exact Bool.eq_false_iff.mpr hb
    have hposleft : pre.length ≤ p.1 := by
      by_contra hlt
      push_neg at hlt
      have heq : tasks.getD p.1 0 = pre.getD p.1 0 := by
        rw [hsnapE]
        exact List.getD_append pre rest0 0 p.1 hlt
      have hmem : pre.getD p.1 0 ∈ pre := getD_mem_of_lt pre p.1 0 hlt
      have hsp := hpreS _ hmem
      rw [← heq] at hsp
      rw [hleftNS] at hsp
      exact absurd hsp (by simp)
    have hposright : pre.length ≤ p.2 := le_trans hposleft (le_of_lt hp1)
    have hrightNS : specialB (objs.getD (tasks.getD p.2 0) default) = false := by
      have hlen0 : tasks.length = pre.length + rest0.length := by
        rw [hsnapE]
        simp
      have hlt2 : p.2 - pre.length < rest0.length := by omega
      have heq : tasks.getD p.2 0 = rest0.getD (p.2 - pre.length) 0 := by
        rw [hsnapE]
        exact List.getD_append_right pre rest0 0 p.2 hposright
      rw [heq]
      exact hrest0 _ (getD_mem_of_lt _ _ 0 hlt2)
    have hleftNotPre : tasks.getD p.1 0 ∉ pre := by
      intro hmem
      have hsp := hpreS _ hmem
      rw [hleftNS] at hsp
      exact absurd hsp (by simp)
    have hrightNotPre : tasks.getD p.2 0 ∉ pre := by
      intro hmem
      have hsp := hpreS _ hmem
      rw [hrightNS] at hsp
      exact absurd hsp (by simp)
    have hli : listIndexOf (tasks.getD p.1 0) acc.1
        = pre.length + listIndexOf (tasks.getD p.1 0) rest := by
      rw [haccE]
      exact listIndexOf_append_not_mem _ pre rest hleftNotPre
    have hri : listIndexOf (tasks.getD p.2 0) acc.1
        = pre.length + listIndexOf (tasks.getD p.2 0) rest := by
      rw [haccE]
      exact listIndexOf_append_not_mem _ pre rest hrightNotPre
    refine ⟨listInsertAt (listIndexOf (tasks.getD p.1 0) rest) (tasks.getD p.2 0)
        (rest.eraseIdx (listIndexOf (tasks.getD p.2 0) rest)), ?_, hpreS, ?_⟩
    · show listInsertAt (listIndexOf (tasks.getD p.1 0) acc.1) (tasks.getD p.2 0)
          (acc.1.eraseIdx (listIndexOf (tasks.getD p.2 0) acc.1)) = _
      rw [hri, hli, haccE]
      rw [eraseIdx_append_right pre rest
        (pre.length + listIndexOf (tasks.getD p.2 0) rest) (by omega)]
      rw [listInsertAt_append_right pre _
        (pre.length + listIndexOf (tasks.getD p.1 0) rest) _ (by omega)]
      have h1 : pre.length + listIndexOf (tasks.getD p.2 0) rest - pre.length
          = listIndexOf (tasks.getD p.2 0) rest := by omega
      have h2 : pre.length + listIndexOf (tasks.getD p.1 0) rest - pre.length
          = listIndexOf (tasks.getD p.1 0) rest := by omega
      rw [h1, h2]
    · intro t ht
      rcases mem_listInsertAt _ _ t _ ht with h4 | h4
      · rw [h4]
        exact hrightNS
      · exact hrest t (List.Sublist.mem h4 (List.eraseIdx_sublist rest _))

theorem mdFold_specialSplit (objs : List ScriptObject) (pre : List Nat)
    (tasks : List Nat)
    (HS : ∀ t : Nat, specialB (objs.getD t default) = true →
      (objs.getD t default).parentMasterDetailObjects = [])
    (hsnap : SpecialSplit objs pre tasks) :
    ∀ (l : List (Nat × Nat)) (acc : List Nat × Bool),
    (∀ p ∈ l, p.1 < p.2 ∧ p.2 < tasks.length) →
    SpecialSplit objs pre acc.1 →
    SpecialSplit objs pre ((l.foldl (mdStep (mdCond objs) tasks) acc).1) := by
  intro l
  induction l with
  | nil => intro acc _ h; exact h
  | cons p l ih =>
    intro acc hl h
    rw [List.foldl_cons]
    exact ih _ (fun q hq => hl q (List.mem_cons_of_mem _ hq))
      (mdStep_specialSplit objs pre tasks acc p HS hsnap h
        (hl p (List.mem_cons_self _ _)).1 (hl p (List.mem_cons_self _ _)).2)

theorem mdPass_specialSplit (objs : List ScriptObject) (pre : List Nat) (ts : List Nat)
    (HS : ∀ t : Nat, specialB (objs.getD t default) = true →
      (objs.getD t default).parentMasterDetailObjects = [])
    (h : SpecialSplit objs pre ts) :
    SpecialSplit objs pre (mdPass (mdCond objs) ts).1 := by
  unfold mdPass
  exact mdFold_specialSplit objs pre ts HS h (pairsList ts.length) (ts, false)
    (fun p hp => pairsList_mem_bound ts.length p hp) h

theorem relaxLoop_specialSplit (objs : List ScriptObject) (pre : List Nat)
    (HS : ∀ t : Nat, specialB (objs.getD t default) = true →
      (objs.getD t default).parentMasterDetailObjects = []) :
    ∀ (n : Nat) (ts : List Nat), SpecialSplit objs pre ts →
    SpecialSplit objs pre (relaxLoop (mdCond objs) n ts) := by
  intro n
  induction n with
  | zero => intro ts h; exact h
  | succ n ih =>
    intro ts h
    unfold relaxLoop
    by_cases hs : (mdPass (mdCond objs) ts).2
    · rw [if_pos hs]
      exact ih _ (mdPass_specialSplit objs pre ts HS h)
    · rw [if_neg hs]
      exact mdPass_specialSplit objs pre ts HS h

/-- C4 (amended): provided no read-only entity and no classification entity
    declares a parent-master-detail object, after setup completes the
    read-only entities plus the classification entity occupy a contiguous
    prefix of the execution-order task list, and the classification entity
    is at index 0 whenever it is declared. -/
theorem c4_special_prefix_amended (objs : List ScriptObject)
    (HS : ∀ o ∈ objs, specialB o = true → o.parentMasterDetailObjects = []) :
    ∃ k, k ≤ (setupTasks objs).length
    ∧ (∀ j, j < (setupTasks objs).length →
        (specialB (objs.getD ((setupTasks objs).getD j 0) default) = true ↔ j < k))
    ∧ ((∃ o ∈ objs, o.name = "RecordType") →
        0 < (setupTasks objs).length
        ∧ (objs.getD ((setupTasks objs).getD 0 0) default).name = "RecordType") := by
  have HS2 : ∀ t : Nat, specialB (objs.getD t default) = true →
      (objs.getD t default).parentMasterDetailObjects = [] := by
    intro t hb
    by_cases ht : t < objs.length
    · exact HS _ (getD_mem_of_lt objs t default ht) hb
    · rw [List.getD_eq_default objs default (le_of_not_lt ht)] at hb
      rw [specialB_default] at hb
      exact absurd hb (by simp)
  obtain ⟨rt, ro, rest, hpl, hnrt, hnro, hnrest, hrtne⟩ := placeTasks_split objs
  have hsplit0 : SpecialSplit objs (rt ++ ro) (placeTasks objs) := by
    refine ⟨rest, by rw [hpl], ?_, hnrest⟩
    intro t ht
    rcases List.mem_append.mp ht with h4 | h4
    · unfold specialB
      rw [hnrt t h4]
      simp
    · exact hnro t h4
  have hsplit : SpecialSplit objs (rt ++ ro) (setupTasks objs) :=
    relaxLoop_specialSplit objs (rt ++ ro) HS2 10 (placeTasks objs) hsplit0
  obtain ⟨restF, hE, hpreS, hrestF⟩ := hsplit
  refine ⟨(rt ++ ro).length, ?_, ?_, ?_⟩
  · rw [hE]
    simp
  · intro j hj
    by_cases hjk : j < (rt ++ ro).length
    · have heq : (setupTasks objs).getD j 0 = (rt ++ ro).getD j 0 := by
        rw [hE]
        exact List.getD_append _ _ 0 j hjk
      constructor
      · intro _
        exact hjk
      · intro _
        rw [heq]
        exact hpreS _ (getD_mem_of_lt _ j 0 hjk)
    · have hge : (rt ++ ro).length ≤ j := le_of_not_lt hjk
      have hlen0 : (setupTasks objs).length = (rt ++ ro).length + restF.length := by
        rw [hE]
        simp only [List.length_append]
      have hlt2 : j - (rt ++ ro).length < restF.length := by omega
      have heq : (setupTasks objs).getD j 0 = restF.getD (j - (rt ++ ro).length) 0 := by
        rw [hE]
        exact List.getD_append_right _ _ 0 j hge
      constructor
      · intro hb
        rw [heq] at hb
        rw [hrestF _ (getD_mem_of_lt _ _ 0 hlt2)] at hb
        exact absurd hb (by simp)
      · intro hlt
        exact absurd hlt hjk
  · intro hex
    have hrtne2 := hrtne hex
    have hrtlen : 0 < rt.length := List.length_pos.mpr hrtne2
    have hprelen : 0 < (rt ++ ro).length := by
      simp only [List.length_append]
      omega
    have hlen : 0 < (setupTasks objs).length := by
      rw [hE]
      simp only [List.length_append]
      omega
    refine ⟨hlen, ?_⟩
    have heq1 : (setupTasks objs).getD 0 0 = (rt ++ ro).getD 0 0 := by
      rw [hE]
      exact List.getD_append _ _ 0 0 hprelen
    have heq2 : (rt ++ ro).getD 0 0 = rt.getD 0 0 := List.getD_append _ _ 0 0 hrtlen
    rw [heq1, heq2]
    exact hnrt _ (getD_mem_of_lt rt 0 0 hrtlen)

/-- Witness for C4 (amended) at a concrete input with a classification
    entity, a read-only entity and two plain entities related by
    master-detail. -/
theorem c4_special_prefix_amended_witness :
    (∀ o ∈ exSpecialPrefix, specialB o = true → o.parentMasterDetailObjects = [])
    ∧ (∃ k, k ≤ (setupTasks exSpecialPrefix).length
      ∧ (∀ j, j < (setupTasks exSpecialPrefix).length →
          (specialB (exSpecialPrefix.getD ((setupTasks exSpecialPrefix).getD j 0) default)
            = true ↔ j < k))
      ∧ ((∃ o ∈ exSpecialPrefix, o.name = "RecordType") →
          0 < (setupTasks exSpecialPrefix).length
          ∧ (exSpecialPrefix.getD ((setupTasks exSpecialPrefix).getD 0 0) default).name
            = "RecordType")) :=
  ⟨by decide, c4_special_prefix_amended exSpecialPrefix (by decide)⟩

/-- Counterexample to C4 as stated: a read-only entity that declares a
    master-detail parent is moved after it by the relaxation, so the
    read-only entities no longer form a prefix of the execution order. -/
theorem c4_counterexample :
    ¬ (∃ k, ∀ j, j < (setupTasks exReadonlyMD).length →
        (specialB (exReadonlyMD.getD ((setupTasks exReadonlyMD).getD j 0) default) = true
          ↔ j < k)) := by
  rintro ⟨k, hk⟩
  have h0 := hk 0 (by decide)
  have h1 := hk 1 (by decide)
  have hs0 : specialB (exReadonlyMD.getD ((setupTasks exReadonlyMD).getD 0 0) default)
      = false := by decide
  have hs1 : specialB (exReadonlyMD.getD ((setupTasks exReadonlyMD).getD 1 0) default)
      = true := by decide
  rw [hs1] at h1
  have hk1 : 1 < k := h1.mp rfl
  rw [hs0] at h0
  have hk0 : ¬ (0 < k) := fun hc => by simpa using h0.mpr hc
  omega

theorem repairCSV_empty_file (tasks : List RepairTask)
    (csvValuesMapping : List (String × List (String × String)))
    (disk : String → FileMap) (self : RepairTask) (cache : CachedCSVContent)
    (hempty : (readCsvFileOnce disk cache self.sourceCsvFilename).2.length = 0) :
    repairCSV tasks csvValuesMapping disk self cache
      = ((readCsvFileOnce disk cache self.sourceCsvFilename).1, []) := by
  simp only [repairCSV]
  rw [if_pos hempty]

theorem readCsvFileOnce_updatedFilenames (disk : String → FileMap)
    (c : CachedCSVContent) (fn : String) :
    (readCsvFileOnce disk c fn).1.updatedFilenames = c.updatedFilenames := by
  unfold readCsvFileOnce
  split
  · rfl
  · rfl

/-- Counterexample to C7 as stated: for an empty source file the validation
    step does NOT yield "no issues" — it returns one issue. -/
theorem c7_counterexample :
    ¬ (validateCSV "Account" ["Name"] [] = []) := by
  decide

/-- C7 (amended): for an absent or empty source input file (the reads
    return no rows) neither step raises an error — both are total and
    return normally; the repair step yields no issues and leaves the
    dirty-file set unchanged, while the validation step yields exactly the
    single descriptive empty-file issue rather than none. -/
theorem c7_empty_file_validation_and_repair (sObjectName : String)
    (fieldsToUpdate : List String) (tasks : List RepairTask)
    (csvValuesMapping : List (String × List (String × String)))
    (disk : String → FileMap) (self : RepairTask) (cache : CachedCSVContent)
    (hempty : (readCsvFileOnce disk cache self.sourceCsvFilename).2.length = 0) :
    validateCSV sObjectName fieldsToUpdate [] = [csvFileIsEmptyIssue sObjectName]
    ∧ (repairCSV tasks csvValuesMapping disk self cache).2 = []
    ∧ (repairCSV tasks csvValuesMapping disk self cache).1.updatedFilenames
        = cache.updatedFilenames := by
  refine ⟨by simp [validateCSV], ?_, ?_⟩
  · rw [repairCSV_empty_file tasks csvValuesMapping disk self cache hempty]
  · rw [repairCSV_empty_file tasks csvValuesMapping disk self cache hempty]
    exact readCsvFileOnce_updatedFilenames disk cache self.sourceCsvFilename

/-- Witness for C7 (amended) at a concrete empty file. -/
theorem c7_empty_file_validation_and_repair_witness :
    ((readCsvFileOnce (fun _ => []) ⟨[], [], 0⟩
        (RepairTask.mk "Account" "Account.csv" true "Name" [] []).sourceCsvFilename).2.length = 0)
    ∧ (validateCSV "Account" ["Name"] [] = [csvFileIsEmptyIssue "Account"]
      ∧ (repairCSV [] [] (fun _ => [])
          (RepairTask.mk "Account" "Account.csv" true "Name" [] []) ⟨[], [], 0⟩).2 = []
      ∧ (repairCSV [] [] (fun _ => [])
          (RepairTask.mk "Account" "Account.csv" true "Name" [] []) ⟨[], [], 0⟩).1.updatedFilenames
          = ([] : List String)) :=
  ⟨rfl, c7_empty_file_validation_and_repair "Account" ["Name"] [] [] (fun _ => [])
    (RepairTask.mk "Account" "Account.csv" true "Name" [] []) ⟨[], [], 0⟩ rfl⟩

theorem jsMapGet_eq_none_iff_has {α : Type} (m : List (String × α)) (k : String) :
    jsMapGet m k = none ↔ jsMapHas m k = false := by
  induction m with
  | nil => simp [jsMapGet, jsMapHas]
  | cons p rest ih =>
    obtain ⟨k2, v2⟩ := p
    by_cases hk : k2 = k
    · subst hk
      simp [jsMapGet, jsMapHas_cons]
    · have hb : (k2 == k) = false := beq_eq_false_iff_ne.mpr hk
      rw [jsMapGet, if_neg hk, jsMapHas_cons, hb, Bool.false_or]
      exact ih

theorem jsMapGet_some_has {α : Type} (m : List (String × α)) (k : String) (v : α)
    (h : jsMapGet m k = some v) : jsMapHas m k = true := by
  cases hh : jsMapHas m k
  · rw [(jsMapGet_eq_none_iff_has m k).mpr hh] at h
    exact absurd h (by simp)
  · rfl

theorem jsMapHas_get_isSome {α : Type} (m : List (String × α)) (k : String)
    (h : jsMapHas m k = true) : ∃ v, jsMapGet m k = some v := by
  cases hg : jsMapGet m k
  · rw [jsMapGet_eq_none_iff_has] at hg
    rw [hg] at h
    exact absurd h (by simp)
  · exact ⟨_, rfl⟩

theorem jsMapGet_mem {α : Type} (m : List (String × α)) (k : String) (v : α)
    (h : jsMapGet m k = some v) : (k, v) ∈ m := by
  induction m with
  | nil => simp [jsMapGet] at h
  | cons p rest ih =>
    obtain ⟨k2, v2⟩ := p
    by_cases hk : k2 = k
    · subst hk
      rw [jsMapGet, if_pos rfl] at h
      have : v2 = v := by injection h
      rw [this]
      exact List.mem_cons_self _ _
    · rw [jsMapGet, if_neg hk] at h
      exact List.mem_cons_of_mem _ (ih h)

theorem jsMapGet_of_nodup_mem {α : Type} (m : List (String × α)) (k : String) (v : α)
    (hnd : (m.map Prod.fst).Nodup) (h : (k, v) ∈ m) : jsMapGet m k = some v := by
  induction m with
  | nil => simp at h
  | cons p rest ih =>
    obtain ⟨k2, v2⟩ := p
    simp only [List.map_cons, List.nodup_cons] at hnd
    rcases List.mem_cons.mp h with h1 | h1
    · have hk2 : k2 = k := by
        have := congrArg Prod.fst h1.symm
        exact this
      have hv2 : v2 = v := by
        have := congrArg Prod.snd h1.symm
        exact this
      rw [jsMapGet, if_pos hk2, hv2]
    · have hk2 : ¬ (k2 = k) := by
        intro hc
        subst hc
        exact hnd.1 (by
          have : k2 ∈ rest.map Prod.fst := List.mem_map.mpr ⟨(k2, v), h1, rfl⟩
          exact this)
      rw [jsMapGet, if_neg hk2]
      exact ih hnd.2 h1

theorem jsMapSet_map_keys {α : Type} (m : List (String × α)) (k : String) (v : α) :
    (m.map (fun p => if p.1 = k then (k, v) else p)).map Prod.fst = m.map Prod.fst := by
  induction m with
  | nil => rfl
  | cons p rest ih =>
    obtain ⟨k2, v2⟩ := p
    simp only [List.map_cons, ih]
    by_cases hk : k2 = k
    · rw [if_pos hk]
      simp [hk]
    · rw [if_neg hk]

theorem jsMapSet_keys_of_has {α : Type} (m : List (String × α)) (k : String) (v : α)
    (h : jsMapHas m k = true) : (jsMapSet m k v).map Prod.fst = m.map Prod.fst := by
  unfold jsMapSet
  rw [if_pos h]
  exact jsMapSet_map_keys m k v

theorem jsMapHas_set_self {α : Type} (m : List (String × α)) (k : String) (v : α) :
    jsMapHas (jsMapSet m k v) k = true :=
  jsMapGet_some_has _ k v (jsMapGet_set_self m k v)

theorem jsMapHas_set_mono {α : Type} (m : List (String × α)) (k k2 : String) (v : α)
    (h : jsMapHas m k = true) : jsMapHas (jsMapSet m k2 v) k = true := by
  by_cases hk : k = k2
  · subst hk
    exact jsMapHas_set_self m k v
  · cases hg : jsMapGet m k with
    | none =>
      rw [jsMapGet_eq_none_iff_has] at hg
      rw [hg] at h
      exact absurd h (by simp)
    | some w =>
      have h2 := jsMapGet_set_other m k2 k v hk
      rw [hg] at h2
      exact jsMapGet_some_has _ k w h2

theorem jsMapHas_set_other {α : Type} (m : List (String × α)) (k k2 : String) (v : α)
    (h : ¬ (k2 = k)) : jsMapHas (jsMapSet m k v) k2 = jsMapHas m k2 := by
  have h2 := jsMapGet_set_other m k k2 v h
  cases hg : jsMapGet m k2 with
  | none =>
    rw [hg] at h2
    rw [jsMapGet_eq_none_iff_has] at hg h2
    rw [hg, h2]
  | some w =>
    rw [hg] at h2
    rw [jsMapGet_some_has _ _ _ h2, jsMapGet_some_has _ _ _ hg]

theorem jsMapSet_mem_of_has {α : Type} (m : List (String × α)) (k : String) (v : α)
    (h : jsMapHas m k = true) (k2 : String) (v2 : α)
    (hmem : (k2, v2) ∈ jsMapSet m k v) :
    (k2 = k ∧ v2 = v) ∨ ((k2, v2) ∈ m ∧ ¬ (k2 = k)) := by
  unfold jsMapSet at hmem
  rw [if_pos h] at hmem
  rcases List.mem_map.mp hmem with ⟨p, hp, heq⟩
  by_cases hpk : p.1 = k
  · rw [if_pos hpk] at heq
    left
    exact ⟨congrArg Prod.fst heq.symm, congrArg Prod.snd heq.symm⟩
  · rw [if_neg hpk] at heq
    right
    refine ⟨heq ▸ hp, ?_⟩
    intro hc
    apply hpk
    rw [show p.1 = k2 from congrArg Prod.fst heq, hc]

theorem rowHasKey_rowSet_self (r : Row) (k v : String) :
    rowHasKey (rowSet r k v) k = true :=
  jsMapHas_set_self r k v

theorem rowHasKey_rowSet_other (r : Row) (k k2 v : String) (h : ¬ (k2 = k)) :
    rowHasKey (rowSet r k v) k2 = rowHasKey r k2 :=
  jsMapHas_set_other r k k2 v h

theorem rowHasKey_rowSet_mono (r : Row) (k k2 v : String) (h : rowHasKey r k2 = true) :
    rowHasKey (rowSet r k v) k2 = true :=
  jsMapHas_set_mono r k2 k v h

theorem rowGet_rowSet_self (r : Row) (k v : String) : rowGet (rowSet r k v) k = v := by
  unfold rowGet rowSet
  rw [jsMapGet_set_self]
  rfl

theorem rowGet_rowSet_other (r : Row) (k k2 v : String) (h : ¬ (k2 = k)) :
    rowGet (rowSet r k v) k2 = rowGet r k2 := by
  unfold rowGet rowSet
  rw [jsMapGet_set_other r k k2 v h]

theorem rowKeys_rowSet_subset (r : Row) (k v k2 : String)
    (h : k2 ∈ rowKeys (rowSet r k v)) : k2 ∈ rowKeys r ∨ k2 = k := by
  unfold rowSet jsMapSet at h
  by_cases hh : jsMapHas r k
  · rw [if_pos hh] at h
    unfold rowKeys at h
    rcases List.mem_map.mp h with ⟨q, hq, hq2⟩
    rcases List.mem_map.mp hq with ⟨p, hp, hpq⟩
    by_cases hpk : p.1 = k
    · rw [if_pos hpk] at hpq
      right
      have hq1 : q.1 = k := by
        rw [← hpq]
      rw [← hq2, hq1]
    · rw [if_neg hpk] at hpq
      left
      rw [← hq2, ← hpq]
      exact List.mem_map.mpr ⟨p, hp, rfl⟩
  · rw [if_neg hh] at h
    unfold rowKeys at h
    rw [List.map_append] at h
    rcases List.mem_append.mp h with h1 | h1
    · left
      exact h1
    · right
      simpa using h1

theorem trim_empty_string : strTrim "" = "" := by decide

theorem rowGet_eq_empty_of_not_has (r : Row) (k : String) (h : rowHasKey r k = false) :
    rowGet r k = "" := by
  unfold rowGet
  rw [(jsMapGet_eq_none_iff_has r k).mpr h]
  rfl

theorem mapRowValues_hasKey (vmv : List (String × String)) (f : String) (r : Row)
    (hvm : jsMapGet vmv "" = none) (k : String) :
    rowHasKey (mapRowValues vmv f r) k = rowHasKey r k := by
  unfold mapRowValues
  cases hg : jsMapGet vmv (strTrim (rowGet r f)) with
  | none => rfl
  | some mapped =>
    have hf : rowHasKey r f = true := by
      cases hh : rowHasKey r f
      · rw [rowGet_eq_empty_of_not_has r f hh, trim_empty_string, hvm] at hg
        exact absurd hg (by simp)
      · rfl
    by_cases hk : k = f
    · subst hk
      rw [rowHasKey_rowSet_self, hf]
    · exact rowHasKey_rowSet_other r f k mapped hk

theorem mapRowValues_get_empty (vmv : List (String × String)) (f : String) (r : Row)
    (hvm : jsMapGet vmv "" = none) (k : String) (h : rowGet r k = "") :
    rowGet (mapRowValues vmv f r) k = "" := by
  unfold mapRowValues
  cases hg : jsMapGet vmv (strTrim (rowGet r f)) with
  | none => exact h
  | some mapped =>
    by_cases hk : k = f
    · subst hk
      rw [h, trim_empty_string, hvm] at hg
      exact absurd hg (by simp)
    · rw [rowGet_rowSet_other r f k mapped hk]
      exact h

theorem RowOK_mapRowValues (s : RepairField) (vmv : List (String × String)) (f : String)
    (r : Row) (hvm : jsMapGet vmv "" = none) (h : RowOK s r) :
    RowOK s (mapRowValues vmv f r) := by
  rcases h with ⟨h1, h2⟩ | ⟨h1, h2, h3⟩ | ⟨h1, h2, h3⟩
  · exact Or.inl ⟨by rw [mapRowValues_hasKey vmv f r hvm, h1],
      by rw [mapRowValues_hasKey vmv f r hvm, h2]⟩
  · exact Or.inr (Or.inl ⟨by rw [mapRowValues_hasKey vmv f r hvm, h1],
      by rw [mapRowValues_hasKey vmv f r hvm, h2],
      mapRowValues_get_empty vmv f r hvm _ h3⟩)
  · exact Or.inr (Or.inr ⟨by rw [mapRowValues_hasKey vmv f r hvm, h1],
      by rw [mapRowValues_hasKey vmv f r hvm, h2],
      mapRowValues_get_empty vmv f r hvm _ h3⟩)

theorem RowOK_rowSet_of_ne (s : RepairField) (r : Row) (col v : String)
    (h1 : ¬ (col = s.nameId)) (h2 : ¬ (col = s.fullName__r)) (h : RowOK s r) :
    RowOK s (rowSet r col v) := by
  have hn : ¬ (s.nameId = col) := fun hc => h1 hc.symm
  have hr : ¬ (s.fullName__r = col) := fun hc => h2 hc.symm
  rcases h with ⟨g1, g2⟩ | ⟨g1, g2, g3⟩ | ⟨g1, g2, g3⟩
  · exact Or.inl ⟨by rw [rowHasKey_rowSet_other r col _ v hn, g1],
      by rw [rowHasKey_rowSet_other r col _ v hr, g2]⟩
  · exact Or.inr (Or.inl ⟨by rw [rowHasKey_rowSet_other r col _ v hn, g1],
      by rw [rowHasKey_rowSet_other r col _ v hr, g2],
      by rw [rowGet_rowSet_other r col _ v hr, g3]⟩)
  · exact Or.inr (Or.inr ⟨by rw [rowHasKey_rowSet_other r col _ v hn, g1],
      by rw [rowHasKey_rowSet_other r col _ v hr, g2],
      by rw [rowGet_rowSet_other r col _ v hn, g3]⟩)

theorem markUpdated_of_mem (c : CachedCSVContent) (fn : String)
    (h : fn ∈ c.updatedFilenames) : markUpdated c fn = c := by
  unfold markUpdated
  rw [if_pos h]

theorem markUpdated_self_mem (c : CachedCSVContent) (fn : String) :
    fn ∈ (markUpdated c fn).updatedFilenames := by
  unfold markUpdated
  by_cases h : fn ∈ c.updatedFilenames
  · rw [if_pos h]
    exact h
  · rw [if_neg h]
    simp

theorem markUpdated_mono (c : CachedCSVContent) (fn p : String)
    (h : p ∈ c.updatedFilenames) : p ∈ (markUpdated c fn).updatedFilenames := by
  unfold markUpdated
  by_cases hm : fn ∈ c.updatedFilenames
  · rw [if_pos hm]
    exact h
  · rw [if_neg hm]
    simp [h]

theorem markUpdated_cacheMap (c : CachedCSVContent) (fn : String) :
    (markUpdated c fn).csvDataCacheMap = c.csvDataCacheMap := by
  unfold markUpdated
  by_cases hm : fn ∈ c.updatedFilenames
  · rw [if_pos hm]
  · rw [if_neg hm]

theorem markUpdated_idCounter (c : CachedCSVContent) (fn : String) :
    (markUpdated c fn).idCounter = c.idCounter := by
  unfold markUpdated
  by_cases hm : fn ∈ c.updatedFilenames
  · rw [if_pos hm]
  · rw [if_neg hm]

theorem setFile_updated (c : CachedCSVContent) (fn : String) (fm : FileMap) :
    (setFile c fn fm).updatedFilenames = c.updatedFilenames := rfl

theorem getFile_setFile_self (c : CachedCSVContent) (fn : String) (fm : FileMap) :
    getFile (setFile c fn fm) fn = fm := by
  unfold getFile setFile
  rw [jsMapGet_set_self]
  rfl

theorem getFile_setFile_other (c : CachedCSVContent) (fn fn2 : String) (fm : FileMap)
    (h : ¬ (fn2 = fn)) : getFile (setFile c fn fm) fn2 = getFile c fn2 := by
  unfold getFile setFile
  rw [jsMapGet_set_other _ fn fn2 fm h]

theorem setFile_has_mono (c : CachedCSVContent) (fn fn2 : String) (fm : FileMap)
    (h : jsMapHas c.csvDataCacheMap fn2 = true) :
    jsMapHas (setFile c fn fm).csvDataCacheMap fn2 = true :=
  jsMapHas_set_mono _ fn2 fn fm h

theorem getFile_markUpdated (c : CachedCSVContent) (fn fn2 : String) :
    getFile (markUpdated c fn) fn2 = getFile c fn2 := by
  unfold getFile
  rw [markUpdated_cacheMap]

theorem firstRowOf_nil : firstRowOf ([] : FileMap) = [] := rfl

theorem firstRowOf_cons (k : String) (r : Row) (rest : FileMap) :
    firstRowOf ((k, r) :: rest) = r := rfl

theorem readCsvFileOnce_of_has (disk : String → FileMap) (c : CachedCSVContent) (fn : String)
    (h : jsMapHas c.csvDataCacheMap fn = true) :
    readCsvFileOnce disk c fn = (c, getFile c fn) := by
  obtain ⟨fm, hg⟩ := jsMapHas_get_isSome _ fn h
  unfold readCsvFileOnce
  rw [hg]
  unfold getFile
  rw [hg]
  rfl

theorem readCsvFileOnce_has_after (disk : String → FileMap) (c : CachedCSVContent)
    (fn : String) : jsMapHas (readCsvFileOnce disk c fn).1.csvDataCacheMap fn = true := by
  unfold readCsvFileOnce
  cases hg : jsMapGet c.csvDataCacheMap fn with
  | some fm => exact jsMapGet_some_has _ _ _ hg
  | none =>
    show jsMapHas (c.csvDataCacheMap ++ [(fn, disk fn)]) fn = true
    rw [jsMapHas_append]
    simp [jsMapHas]

theorem readCsvFileOnce_has_mono (disk : String → FileMap) (c : CachedCSVContent)
    (fn fn2 : String) (h : jsMapHas c.csvDataCacheMap fn2 = true) :
    jsMapHas (readCsvFileOnce disk c fn).1.csvDataCacheMap fn2 = true := by
  unfold readCsvFileOnce
  cases hg : jsMapGet c.csvDataCacheMap fn with
  | some fm => exact h
  | none =>
    show jsMapHas (c.csvDataCacheMap ++ [(fn, disk fn)]) fn2 = true
    rw [jsMapHas_append, h, Bool.true_or]

theorem readCsvFileOnce_getFile_preserve (disk : String → FileMap) (c : CachedCSVContent)
    (fn fn2 : String) (h : jsMapHas c.csvDataCacheMap fn2 = true) :
    getFile (readCsvFileOnce disk c fn).1 fn2 = getFile c fn2 := by
  unfold readCsvFileOnce
  cases hg : jsMapGet c.csvDataCacheMap fn with
  | some fm => rfl
  | none =>
    obtain ⟨v, hv⟩ := jsMapHas_get_isSome _ fn2 h
    show getFile { c with csvDataCacheMap := c.csvDataCacheMap ++ [(fn, disk fn)] } fn2 = _
    unfold getFile
    rw [jsMapGet_append_left _ _ fn2 v hv, hv]

theorem readCsvFileOnce_snd_eq (disk : String → FileMap) (c : CachedCSVContent)
    (fn : String) :
    (readCsvFileOnce disk c fn).2 = getFile (readCsvFileOnce disk c fn).1 fn := by
  unfold readCsvFileOnce
  cases hg : jsMapGet c.csvDataCacheMap fn with
  | some fm =>
    show fm = getFile c fn
    unfold getFile
    rw [hg]
    rfl
  | none =>
    have hh : jsMapHas c.csvDataCacheMap fn = false := (jsMapGet_eq_none_iff_has _ fn).mp hg
    show disk fn = getFile { c with csvDataCacheMap := c.csvDataCacheMap ++ [(fn, disk fn)] } fn
    unfold getFile
    rw [jsMapGet_append_single_self c.csvDataCacheMap fn (disk fn) hh]
    rfl

theorem trimColumnNames_noop (c : CachedCSVContent) (fn : String)
    (h : ∀ k ∈ rowKeys (firstRowOf (getFile c fn)), strTrim k = k) :
    trimColumnNames c fn = c := by
  have hc : columnsToUpdateOf (getFile c fn) = [] := by
    unfold columnsToUpdateOf
    rw [List.filter_eq_nil_iff]
    intro k hk
    simp [h k hk]
  unfold trimColumnNames
  rw [hc]
  rw [if_neg (by simp)]

theorem mapRowValues_scrutinee_has (vmv : List (String × String)) (f : String) (r : Row)
    (mapped : String) (hvm : jsMapGet vmv "" = none)
    (hg : jsMapGet vmv (strTrim (rowGet r f)) = some mapped) : rowHasKey r f = true := by
  cases hh : rowHasKey r f
  · rw [rowGet_eq_empty_of_not_has r f hh, trim_empty_string, hvm] at hg
    exact absurd hg (by simp)
  · rfl

theorem mapRowValues_keys (vmv : List (String × String)) (f : String) (r : Row)
    (hvm : jsMapGet vmv "" = none) : rowKeys (mapRowValues vmv f r) = rowKeys r := by
  unfold mapRowValues
  cases hg : jsMapGet vmv (strTrim (rowGet r f)) with
  | none => rfl
  | some mapped =>
    have hf : rowHasKey r f = true := mapRowValues_scrutinee_has vmv f r mapped hvm hg
    show rowKeys (rowSet r f mapped) = rowKeys r
    unfold rowKeys rowSet
    exact jsMapSet_keys_of_has r f mapped hf

theorem RowProps_id : RowProps (fun r => r) :=
  ⟨fun _ _ => rfl, fun _ _ h => h, fun _ _ h => h, fun _ => rfl⟩

theorem RowProps_mapRowValues (vmv : List (String × String)) (f : String)
    (hvm : jsMapGet vmv "" = none) : RowProps (mapRowValues vmv f) :=
  ⟨fun r k => mapRowValues_hasKey vmv f r hvm k,
   fun r k h => mapRowValues_get_empty vmv f r hvm k h,
   fun s r h => RowOK_mapRowValues s vmv f r hvm h,
   fun r => mapRowValues_keys vmv f r hvm⟩

theorem RowProps_comp (g1 g2 : Row → Row) (h1 : RowProps g1) (h2 : RowProps g2) :
    RowProps (fun r => g2 (g1 r)) :=
  ⟨fun r k => (h2.1 (g1 r) k).trans (h1.1 r k),
   fun r k h => h2.2.1 (g1 r) k (h1.2.1 r k h),
   fun s r h => h2.2.2.1 s (g1 r) (h1.2.2.1 s r h),
   fun r => (h2.2.2.2 (g1 r)).trans (h1.2.2.2 r)⟩

theorem fileFold_bindings (step : FileMap → String → FileMap)
    (hstep : ∀ (fm : FileMap) (f : String), step fm f = fm ∨
      ∃ vmv, jsMapGet vmv "" = none
        ∧ step fm f = fm.map (fun pr => (pr.1, mapRowValues vmv f pr.2))) :
    ∀ (fields : List String) (fm : FileMap),
    ∃ g : Row → Row, fields.foldl step fm = fm.map (fun pr => (pr.1, g pr.2))
      ∧ RowProps g := by
  intro fields
  induction fields with
  | nil =>
    intro fm
    refine ⟨fun r => r, ?_, RowProps_id⟩
    simp
  | cons f fs ih =>
    intro fm
    rw [List.foldl_cons]
    rcases hstep fm f with heq | ⟨vmv, hvm, heq⟩
    · rw [heq]
      obtain ⟨g, hfold, hp⟩ := ih fm
      exact ⟨g, hfold, hp⟩
    · rw [heq]
      obtain ⟨g, hfold, hp⟩ := ih (fm.map (fun pr => (pr.1, mapRowValues vmv f pr.2)))
      refine ⟨fun r => g (mapRowValues vmv f r), ?_,
        RowProps_comp (mapRowValues vmv f) g (RowProps_mapRowValues vmv f hvm) hp⟩
      rw [hfold, List.map_map]
      rfl

theorem updateWithCSVValueMapping_bindings
    (vm : List (String × List (String × String))) (n : String) (c : CachedCSVContent)
    (fn : String) (H1 : ∀ p ∈ vm, jsMapGet p.2 "" = none) :
    ∃ g : Row → Row,
      getFile (updateWithCSVValueMapping vm n c fn) fn
        = (getFile c fn).map (fun pr => (pr.1, g pr.2))
      ∧ RowProps g := by
  have hstep : ∀ (fm : FileMap) (f : String),
      (match jsMapGet vm (n ++ f) with
       | some valuesMap =>
         if valuesMap.length > 0 then
           fm.map (fun pr => (pr.1, mapRowValues valuesMap f pr.2))
         else fm
       | none => fm) = fm ∨
      ∃ vmv, jsMapGet vmv "" = none
        ∧ (match jsMapGet vm (n ++ f) with
           | some valuesMap =>
             if valuesMap.length > 0 then
               fm.map (fun pr => (pr.1, mapRowValues valuesMap f pr.2))
             else fm
           | none => fm) = fm.map (fun pr => (pr.1, mapRowValues vmv f pr.2)) := by
    intro fm f
    cases hg : jsMapGet vm (n ++ f) with
    | none => exact Or.inl rfl
    | some valuesMap =>
      by_cases hl : valuesMap.length > 0
      · refine Or.inr ⟨valuesMap, H1 _ (jsMapGet_mem vm _ _ hg), ?_⟩
        show (if valuesMap.length > 0 then
            fm.map (fun pr => (pr.1, mapRowValues valuesMap f pr.2)) else fm) = _
        rw [if_pos hl]
      · refine Or.inl ?_
        show (if valuesMap.length > 0 then
            fm.map (fun pr => (pr.1, mapRowValues valuesMap f pr.2)) else fm) = fm
        rw [if_neg hl]
  obtain ⟨g, hfold, hp⟩ := fileFold_bindings _ hstep
    (rowKeys (firstRowOf (getFile c fn))) (getFile c fn)
  refine ⟨g, ?_, hp⟩
  unfold updateWithCSVValueMapping
  rw [getFile_markUpdated, getFile_setFile_self]
  exact hfold

theorem updateWithCSVValueMapping_updated_of_mem
    (vm : List (String × List (String × String))) (n : String) (c : CachedCSVContent)
    (fn : String) (h : fn ∈ c.updatedFilenames) :
    (updateWithCSVValueMapping vm n c fn).updatedFilenames = c.updatedFilenames := by
  unfold updateWithCSVValueMapping
  rw [markUpdated_of_mem _ _ (by rw [setFile_updated]; exact h), setFile_updated]

theorem updateWithCSVValueMapping_updated_mem
    (vm : List (String × List (String × String))) (n : String) (c : CachedCSVContent)
    (fn : String) : fn ∈ (updateWithCSVValueMapping vm n c fn).updatedFilenames := by
  unfold updateWithCSVValueMapping
  exact markUpdated_self_mem _ fn

theorem updateWithCSVValueMapping_updated_mono
    (vm : List (String × List (String × String))) (n : String) (c : CachedCSVContent)
    (fn p : String) (h : p ∈ c.updatedFilenames) :
    p ∈ (updateWithCSVValueMapping vm n c fn).updatedFilenames := by
  unfold updateWithCSVValueMapping
  exact markUpdated_mono _ fn p (by rw [setFile_updated]; exact h)

theorem updateWithCSVValueMapping_getFile_other
    (vm : List (String × List (String × String))) (n : String) (c : CachedCSVContent)
    (fn fn2 : String) (h : ¬ (fn2 = fn)) :
    getFile (updateWithCSVValueMapping vm n c fn) fn2 = getFile c fn2 := by
  unfold updateWithCSVValueMapping
  rw [getFile_markUpdated, getFile_setFile_other _ _ _ _ h]

theorem updateWithCSVValueMapping_has_mono
    (vm : List (String × List (String × String))) (n : String) (c : CachedCSVContent)
    (fn fn2 : String) (h : jsMapHas c.csvDataCacheMap fn2 = true) :
    jsMapHas (updateWithCSVValueMapping vm n c fn).csvDataCacheMap fn2 = true := by
  unfold updateWithCSVValueMapping
  rw [markUpdated_cacheMap]
  exact setFile_has_mono c fn fn2 _ h

theorem bindingsMap_keys (fm : FileMap) (g : Row → Row) :
    (fm.map (fun pr => (pr.1, g pr.2))).map Prod.fst = fm.map Prod.fst := by
  rw [List.map_map]
  rfl

theorem firstRowOf_bindings_map (fm : FileMap) (g : Row → Row) (h : ¬ (fm = [])) :
    firstRowOf (fm.map (fun pr => (pr.1, g pr.2))) = g (firstRowOf fm) := by
  match fm with
  | [] => exact absurd rfl h
  | (k, r) :: rest => rfl

theorem RowOK_both (s : RepairField) (r : Row) (h1 : rowHasKey r s.nameId = true)
    (h2 : rowHasKey r s.fullName__r = true) : RowOK s r := Or.inl ⟨h1, h2⟩

theorem firstRowOf_jsMapSet (fm : FileMap) (id : String) (row2 : Row)
    (h : jsMapHas fm id = true) :
    (firstRowOf (jsMapSet fm id row2) = row2 ∧ jsMapGet fm id = some (firstRowOf fm))
    ∨ firstRowOf (jsMapSet fm id row2) = firstRowOf fm := by
  match fm with
  | [] => simp [jsMapHas] at h
  | (k0, r0) :: rest =>
    unfold jsMapSet
    rw [if_pos h, List.map_cons]
    by_cases hk : k0 = id
    · left
      constructor
      · have hh : (if ((k0, r0) : String × Row).1 = id then (id, row2) else (k0, r0))
            = (id, row2) := by
          rw [if_pos hk]
        rw [hh, firstRowOf_cons]
      · rw [jsMapGet, if_pos hk, firstRowOf_cons]
    · right
      have hh : (if ((k0, r0) : String × Row).1 = id then (id, row2) else (k0, r0))
          = (k0, r0) := by
        rw [if_neg hk]
      rw [hh, firstRowOf_cons, firstRowOf_cons]

theorem lookupRowBranch_cases (sn selfFn parentFn : String) (sF : RepairField)
    (prmap : List (String × String)) (acc : CachedCSVContent × List CSVIssue × Bool)
    (id : String) (row : Row) :
    (lookupRowBranch sn selfFn parentFn sF prmap acc id row = acc ∧ RowOK sF row)
    ∨ (∃ c2 row2 iss2,
        lookupRowBranch sn selfFn parentFn sF prmap acc id row
          = (setFile c2 selfFn (jsMapSet (getFile c2 selfFn) id row2), acc.2.1 ++ iss2, true)
        ∧ c2.updatedFilenames = acc.1.updatedFilenames
        ∧ c2.csvDataCacheMap = acc.1.csvDataCacheMap
        ∧ RowWrite sF row row2 ∧ RowOK sF row2) := by
  unfold lookupRowBranch
  cases hn : rowHasKey row sF.nameId with
  | false =>
    rw [if_pos (show ¬ (false = true) by decide)]
    cases hr : rowHasKey row sF.fullName__r with
    | false =>
      rw [if_pos (show ¬ (false = true) by decide)]
      refine Or.inr ⟨(nextId (nextId acc.1).1).1,
        rowSet (rowSet row sF.nameId (nextId acc.1).2) sF.fullName__r
          (nextId (nextId acc.1).1).2, [], ?_, rfl, rfl,
        Or.inr (Or.inr ⟨_, _, rfl⟩), ?_⟩
      · rw [List.append_nil]
      · exact RowOK_both sF _
          (rowHasKey_rowSet_mono _ sF.fullName__r sF.nameId _
            (rowHasKey_rowSet_self row sF.nameId _))
          (rowHasKey_rowSet_self _ sF.fullName__r _)
    | true =>
      rw [if_neg (show ¬ ¬ (true = true) by decide)]
      by_cases hd : getRecordValue4 row sF.parentExternalId sF.fullName__r = ""
      · rw [if_neg (not_not_intro hd)]
        exact Or.inl ⟨rfl, Or.inr (Or.inl ⟨hn, hr, hd⟩)⟩
      · rw [if_pos hd]
        cases hm : jsMapGet prmap (getRecordValue4 row sF.parentExternalId sF.fullName__r) with
        | none =>
          exact Or.inr ⟨(nextId acc.1).1, rowSet row sF.nameId (nextId acc.1).2,
            [missingParentIssue1 sn sF
              (getRecordValue4 row sF.parentExternalId sF.fullName__r)],
            rfl, rfl, rfl, Or.inl ⟨_, rfl⟩,
            RowOK_both sF _ (rowHasKey_rowSet_self row sF.nameId _)
              (rowHasKey_rowSet_mono row sF.nameId sF.fullName__r _ hr)⟩
        | some parentKey =>
          refine Or.inr ⟨acc.1, rowSet row sF.nameId
              (rowGet ((jsMapGet (getFile acc.1 parentFn) parentKey).getD []) "Id"),
            [], ?_, rfl, rfl, Or.inl ⟨_, rfl⟩,
            RowOK_both sF _ (rowHasKey_rowSet_self row sF.nameId _)
              (rowHasKey_rowSet_mono row sF.nameId sF.fullName__r _ hr)⟩
          rw [List.append_nil]
  | true =>
    rw [if_neg (show ¬ ¬ (true = true) by decide)]
    cases hr : rowHasKey row sF.fullName__r with
    | false =>
      rw [if_pos (show ¬ (false = true) by decide)]
      by_cases hi : rowGet row sF.nameId = ""
      · rw [if_neg (not_not_intro hi)]
        exact Or.inl ⟨rfl, Or.inr (Or.inr ⟨hn, hr, hi⟩)⟩
      · rw [if_pos hi]
        cases hm : jsMapGet (getFile acc.1 parentFn) (rowGet row sF.nameId) with
        | none =>
          exact Or.inr ⟨(nextId acc.1).1, rowSet row sF.fullName__r (nextId acc.1).2,
            [missingParentIssue2 sn sF (rowGet row sF.nameId)],
            rfl, rfl, rfl, Or.inr (Or.inl ⟨_, rfl⟩),
            RowOK_both sF _ (rowHasKey_rowSet_mono row sF.fullName__r sF.nameId _ hn)
              (rowHasKey_rowSet_self row sF.fullName__r _)⟩
        | some parentRow =>
          refine Or.inr ⟨acc.1, rowSet row sF.fullName__r
              (rowGet parentRow sF.parentExternalId),
            [], ?_, rfl, rfl, Or.inr (Or.inl ⟨_, rfl⟩),
            RowOK_both sF _ (rowHasKey_rowSet_mono row sF.fullName__r sF.nameId _ hn)
              (rowHasKey_rowSet_self row sF.fullName__r _)⟩
          rw [List.append_nil]
    | true =>
      rw [if_neg (show ¬ ¬ (true = true) by decide)]
      exact Or.inl ⟨rfl, RowOK_both sF row hn hr⟩

theorem lookupRowBranch_noop (sn selfFn parentFn : String) (sF : RepairField)
    (prmap : List (String × String)) (acc : CachedCSVContent × List CSVIssue × Bool)
    (id : String) (row : Row) (hok : RowOK sF row) :
    lookupRowBranch sn selfFn parentFn sF prmap acc id row = acc := by
  unfold lookupRowBranch
  rcases hok with ⟨h1, h2⟩ | ⟨h1, h2, h3⟩ | ⟨h1, h2, h3⟩
  · rw [h1, h2, if_neg (show ¬ ¬ (true = true) by decide),
      if_neg (show ¬ ¬ (true = true) by decide)]
  · rw [h1, h2, if_pos (show ¬ (false = true) by decide),
      if_neg (show ¬ ¬ (true = true) by decide),
      if_neg (not_not_intro (show getRecordValue4 row sF.parentExternalId sF.fullName__r = ""
        from h3))]
  · rw [h1, h2, if_neg (show ¬ ¬ (true = true) by decide),
      if_pos (show ¬ (false = true) by decide), if_neg (not_not_intro h3)]

theorem RowWrite_pres (sF : RepairField) (P : Row → Prop)
    (hP1 : ∀ r v, P r → P (rowSet r sF.nameId v))
    (hP2 : ∀ r v, P r → P (rowSet r sF.fullName__r v))
    (row row2 : Row) (hwr : RowWrite sF row row2) (h : P row) : P row2 := by
  rcases hwr with ⟨v, rfl⟩ | ⟨v, rfl⟩ | ⟨v1, v2, rfl⟩
  · exact hP1 _ _ h
  · exact hP2 _ _ h
  · exact hP2 _ _ (hP1 _ _ h)

theorem lookupFold_noop (sn selfFn parentFn : String) (sF : RepairField)
    (prmap : List (String × String)) :
    ∀ (keys : List String) (acc : CachedCSVContent × List CSVIssue × Bool),
    (∀ id ∈ keys, ∃ row, jsMapGet (getFile acc.1 selfFn) id = some row ∧ RowOK sF row) →
    keys.foldl (lookupRowStep sn selfFn parentFn sF prmap) acc = acc := by
  intro keys
  induction keys with
  | nil => intro acc h; rfl
  | cons id rest ih =>
    intro acc h
    rw [List.foldl_cons]
    obtain ⟨row, hrow, hok⟩ := h id (List.mem_cons_self id rest)
    have hstep : lookupRowStep sn selfFn parentFn sF prmap acc id = acc := by
      unfold lookupRowStep
      rw [show (jsMapGet (getFile acc.1 selfFn) id).getD [] = row by rw [hrow]; rfl]
      exact lookupRowBranch_noop sn selfFn parentFn sF prmap acc id row hok
    rw [hstep]
    exact ih acc (fun id2 h2 => h id2 (List.mem_cons_of_mem id h2))

theorem lookupFold_preserve (sn selfFn parentFn : String) (sF : RepairField)
    (prmap : List (String × String)) (P Q : Row → Prop)
    (hP1 : ∀ r v, P r → P (rowSet r sF.nameId v))
    (hP2 : ∀ r v, P r → P (rowSet r sF.fullName__r v))
    (hQ1 : ∀ r v, Q r → Q (rowSet r sF.nameId v))
    (hQ2 : ∀ r v, Q r → Q (rowSet r sF.fullName__r v)) :
    ∀ (keys : List String) (acc : CachedCSVContent × List CSVIssue × Bool)
    (res : CachedCSVContent × List CSVIssue × Bool),
    res = keys.foldl (lookupRowStep sn selfFn parentFn sF prmap) acc →
    (∀ id ∈ keys, jsMapHas (getFile acc.1 selfFn) id = true) →
    (∀ pr ∈ getFile acc.1 selfFn, P pr.2) →
    Q (firstRowOf (getFile acc.1 selfFn)) →
    res.1.updatedFilenames = acc.1.updatedFilenames
    ∧ (getFile res.1 selfFn).map Prod.fst = (getFile acc.1 selfFn).map Prod.fst
    ∧ (∀ fn2, ¬ (fn2 = selfFn) → getFile res.1 fn2 = getFile acc.1 fn2)
    ∧ (∀ fn2, jsMapHas acc.1.csvDataCacheMap fn2 = true →
        jsMapHas res.1.csvDataCacheMap fn2 = true)
    ∧ (∀ pr ∈ getFile res.1 selfFn, P pr.2)
    ∧ Q (firstRowOf (getFile res.1 selfFn)) := by
  intro keys
  induction keys with
  | nil =>
    intro acc res hres hk hP hQ
    subst hres
    exact ⟨rfl, rfl, fun fn2 h2 => rfl, fun fn2 h2 => h2, hP, hQ⟩
  | cons id rest ih =>
    intro acc res hres hk hP hQ
    rw [List.foldl_cons] at hres
    have hidhas : jsMapHas (getFile acc.1 selfFn) id = true :=
      hk id (List.mem_cons_self id rest)
    obtain ⟨row, hrow⟩ := jsMapHas_get_isSome _ id hidhas
    have hst : lookupRowStep sn selfFn parentFn sF prmap acc id
        = lookupRowBranch sn selfFn parentFn sF prmap acc id row := by
      unfold lookupRowStep
      rw [show (jsMapGet (getFile acc.1 selfFn) id).getD [] = row by rw [hrow]; rfl]
    rcases lookupRowBranch_cases sn selfFn parentFn sF prmap acc id row with
      ⟨heq, hok⟩ | ⟨c2, row2, iss2, heq, hupd, hcm, hwr, hok2⟩
    · rw [hst, heq] at hres
      exact ih acc res hres (fun id2 h2 => hk id2 (List.mem_cons_of_mem id h2)) hP hQ
    · rw [hst, heq] at hres
      have hgc2 : getFile c2 selfFn = getFile acc.1 selfFn := by
        unfold getFile
        rw [hcm]
      have hfmN : getFile (setFile c2 selfFn (jsMapSet (getFile c2 selfFn) id row2)) selfFn
          = jsMapSet (getFile acc.1 selfFn) id row2 := by
        rw [getFile_setFile_self, hgc2]
      have hkeysN : (getFile (setFile c2 selfFn (jsMapSet (getFile c2 selfFn) id row2))
            selfFn).map Prod.fst = (getFile acc.1 selfFn).map Prod.fst := by
        rw [hfmN]
        exact jsMapSet_keys_of_has _ id row2 hidhas
      have hupdN : (setFile c2 selfFn (jsMapSet (getFile c2 selfFn) id row2)).updatedFilenames
          = acc.1.updatedFilenames := by
        rw [setFile_updated, hupd]
      have hotherN : ∀ fn2, ¬ (fn2 = selfFn) →
          getFile (setFile c2 selfFn (jsMapSet (getFile c2 selfFn) id row2)) fn2
            = getFile acc.1 fn2 := by
        intro fn2 hne
        rw [getFile_setFile_other _ _ _ _ hne]
        unfold getFile
        rw [hcm]
      have hhasN : ∀ fn2, jsMapHas acc.1.csvDataCacheMap fn2 = true →
          jsMapHas (setFile c2 selfFn
            (jsMapSet (getFile c2 selfFn) id row2)).csvDataCacheMap fn2 = true := by
        intro fn2 h2
        apply setFile_has_mono
        rw [hcm]
        exact h2
      have hProw : P row := hP (id, row) (jsMapGet_mem _ id row hrow)
      have hPN : ∀ pr ∈ getFile (setFile c2 selfFn
          (jsMapSet (getFile c2 selfFn) id row2)) selfFn, P pr.2 := by
        intro pr hpr
        rw [hfmN] at hpr
        obtain ⟨k2, v2⟩ := pr
        rcases jsMapSet_mem_of_has _ id row2 hidhas k2 v2 hpr with ⟨hke, hve⟩ | ⟨hmem, hne⟩
        · rw [hve]
          exact RowWrite_pres sF P hP1 hP2 row row2 hwr hProw
        · exact hP (k2, v2) hmem
      have hQN : Q (firstRowOf (getFile (setFile c2 selfFn
          (jsMapSet (getFile c2 selfFn) id row2)) selfFn)) := by
        rw [hfmN]
        rcases firstRowOf_jsMapSet (getFile acc.1 selfFn) id row2 hidhas with
          ⟨hfr, hget⟩ | hfr
        · rw [hfr]
          rw [hrow] at hget
          have hroweq : row = firstRowOf (getFile acc.1 selfFn) := by
            injection hget
          have hQrow : Q row := by
            rw [hroweq]
            exact hQ
          exact RowWrite_pres sF Q hQ1 hQ2 row row2 hwr hQrow
        · rw [hfr]
          exact hQ
      have hkN : ∀ id2 ∈ rest,
          jsMapHas (getFile (setFile c2 selfFn
            (jsMapSet (getFile c2 selfFn) id row2)) selfFn) id2 = true := by
        intro id2 h2
        rw [jsMapHas_iff_mem_keys, hkeysN]
        exact (jsMapHas_iff_mem_keys _ _).mp (hk id2 (List.mem_cons_of_mem id h2))
      obtain ⟨ih1, ih2, ih3, ih4, ih5, ih6⟩ := ih _ res hres hkN hPN hQN
      refine ⟨ih1.trans hupdN, ih2.trans hkeysN, ?_, ?_, ih5, ih6⟩
      · intro fn2 hne
        exact (ih3 fn2 hne).trans (hotherN fn2 hne)
      · intro fn2 h2
        exact ih4 fn2 (hhasN fn2 h2)

theorem lookupFold_establish (sn selfFn parentFn : String) (sF : RepairField)
    (prmap : List (String × String)) :
    ∀ (keys : List String) (acc : CachedCSVContent × List CSVIssue × Bool)
    (res : CachedCSVContent × List CSVIssue × Bool),
    res = keys.foldl (lookupRowStep sn selfFn parentFn sF prmap) acc →
    ((getFile acc.1 selfFn).map Prod.fst).Nodup →
    (∀ id ∈ keys, jsMapHas (getFile acc.1 selfFn) id = true) →
    (∀ pr ∈ getFile acc.1 selfFn, pr.1 ∈ keys ∨ RowOK sF pr.2) →
    ∀ pr ∈ getFile res.1 selfFn, RowOK sF pr.2 := by
  intro keys
  induction keys with
  | nil =>
    intro acc res hres hnd hk hrows
    subst hres
    intro pr hpr
    rcases hrows pr hpr with hmem | hok
    · exact absurd hmem (by simp)
    · exact hok
  | cons id rest ih =>
    intro acc res hres hnd hk hrows
    rw [List.foldl_cons] at hres
    have hidhas : jsMapHas (getFile acc.1 selfFn) id = true :=
      hk id (List.mem_cons_self id rest)
    obtain ⟨row, hrow⟩ := jsMapHas_get_isSome _ id hidhas
    have hst : lookupRowStep sn selfFn parentFn sF prmap acc id
        = lookupRowBranch sn selfFn parentFn sF prmap acc id row := by
      unfold lookupRowStep
      rw [show (jsMapGet (getFile acc.1 selfFn) id).getD [] = row by rw [hrow]; rfl]
    rcases lookupRowBranch_cases sn selfFn parentFn sF prmap acc id row with
      ⟨heq, hok⟩ | ⟨c2, row2, iss2, heq, hupd, hcm, hwr, hok2⟩
    · rw [hst, heq] at hres
      refine ih acc res hres hnd
        (fun id2 h2 => hk id2 (List.mem_cons_of_mem id h2)) ?_
      intro pr hpr
      by_cases hid : pr.1 = id
      · right
        have hget : jsMapGet (getFile acc.1 selfFn) pr.1 = some pr.2 :=
          jsMapGet_of_nodup_mem _ pr.1 pr.2 hnd (by
            obtain ⟨a, b⟩ := pr
            exact hpr)
        rw [hid, hrow] at hget
        have : row = pr.2 := by injection hget
        rw [← this]
        exact hok
      · rcases hrows pr hpr with hmem | hok2
        · rcases List.mem_cons.mp hmem with h1 | h1
          · exact absurd h1 hid
          · exact Or.inl h1
        · exact Or.inr hok2
    · rw [hst, heq] at hres
      have hgc2 : getFile c2 selfFn = getFile acc.1 selfFn := by
        unfold getFile
        rw [hcm]
      have hfmN : getFile (setFile c2 selfFn (jsMapSet (getFile c2 selfFn) id row2)) selfFn
          = jsMapSet (getFile acc.1 selfFn) id row2 := by
        rw [getFile_setFile_self, hgc2]
      have hkeysN : (getFile (setFile c2 selfFn (jsMapSet (getFile c2 selfFn) id row2))
            selfFn).map Prod.fst = (getFile acc.1 selfFn).map Prod.fst := by
        rw [hfmN]
        exact jsMapSet_keys_of_has _ id row2 hidhas
      refine ih _ res hres (by rw [hkeysN]; exact hnd) ?_ ?_
      · intro id2 h2
        rw [jsMapHas_iff_mem_keys, hkeysN]
        exact (jsMapHas_iff_mem_keys _ _).mp (hk id2 (List.mem_cons_of_mem id h2))
      · intro pr hpr
        rw [hfmN] at hpr
        obtain ⟨k2, v2⟩ := pr
        rcases jsMapSet_mem_of_has _ id row2 hidhas k2 v2 hpr with ⟨hke, hve⟩ | ⟨hmem, hne⟩
        · right
          rw [hve]
          exact hok2
        · rcases hrows (k2, v2) hmem with hmem2 | hok3
          · rcases List.mem_cons.mp hmem2 with h1 | h1
            · exact absurd h1 hne
            · exact Or.inl h1
          · exact Or.inr hok3

theorem lookupRowsFold_noop (sn selfFn parentFn : String) (sF : RepairField)
    (prmap : List (String × String)) (keys : List String) (c : CachedCSVContent)
    (h : ∀ id ∈ keys, ∃ row, jsMapGet (getFile c selfFn) id = some row ∧ RowOK sF row) :
    lookupRowsFold sn selfFn parentFn sF prmap keys c = (c, [], false) := by
  unfold lookupRowsFold
  exact lookupFold_noop sn selfFn parentFn sF prmap keys (c, [], false) h

theorem ite_markUpdated_cacheMap (b : Bool) (c : CachedCSVContent) (fn : String) :
    (if b = true then markUpdated c fn else c).csvDataCacheMap = c.csvDataCacheMap := by
  split
  · exact markUpdated_cacheMap c fn
  · rfl

theorem ite_markUpdated_getFile (b : Bool) (c : CachedCSVContent) (fn fn2 : String) :
    getFile (if b = true then markUpdated c fn else c) fn2 = getFile c fn2 := by
  unfold getFile
  rw [ite_markUpdated_cacheMap]

theorem ite_markUpdated_updated_mono (b : Bool) (c : CachedCSVContent) (fn p : String)
    (h : p ∈ c.updatedFilenames) :
    p ∈ (if b = true then markUpdated c fn else c).updatedFilenames := by
  split
  · exact markUpdated_mono c fn p h
  · exact h

theorem addMissingLookupColumns_noop (tasks : List RepairTask) (disk : String → FileMap)
    (self : RepairTask) (sF : RepairField) (c : CachedCSVContent)
    (hhas : jsMapHas c.csvDataCacheMap self.sourceCsvFilename = true)
    (hrows : ∀ pr ∈ getFile c self.sourceCsvFilename, RowOK sF pr.2) :
    (addMissingLookupColumns tasks disk self sF c).2 = []
    ∧ (addMissingLookupColumns tasks disk self sF c).1.updatedFilenames
        = c.updatedFilenames
    ∧ getFile (addMissingLookupColumns tasks disk self sF c).1 self.sourceCsvFilename
        = getFile c self.sourceCsvFilename
    ∧ (∀ fn2, jsMapHas c.csvDataCacheMap fn2 = true →
        jsMapHas (addMissingLookupColumns tasks disk self sF c).1.csvDataCacheMap fn2
          = true) := by
  unfold addMissingLookupColumns
  split
  · rename_i pt hpt
    have hg1 : getFile (readCsvFileOnce disk c pt.sourceCsvFilename).1 self.sourceCsvFilename
        = getFile c self.sourceCsvFilename :=
      readCsvFileOnce_getFile_preserve disk c pt.sourceCsvFilename self.sourceCsvFilename hhas
    have hfold : lookupRowsFold self.sObjectName self.sourceCsvFilename
        pt.sourceCsvFilename sF
        (buildExtIdKeyMap (readCsvFileOnce disk c pt.sourceCsvFilename).2
          sF.parentExternalId)
        ((getFile (readCsvFileOnce disk c pt.sourceCsvFilename).1
          self.sourceCsvFilename).map Prod.fst)
        (readCsvFileOnce disk c pt.sourceCsvFilename).1
        = ((readCsvFileOnce disk c pt.sourceCsvFilename).1, [], false) := by
      apply lookupRowsFold_noop
      intro id hid
      rw [hg1] at hid ⊢
      obtain ⟨row, hrow⟩ :=
        jsMapHas_get_isSome _ id ((jsMapHas_iff_mem_keys _ _).mpr hid)
      exact ⟨row, hrow, hrows (id, row) (jsMapGet_mem _ id row hrow)⟩
    rw [hfold]
    rw [if_neg (show ¬ ((((readCsvFileOnce disk c pt.sourceCsvFilename).1, [], false) :
      CachedCSVContent × List CSVIssue × Bool).2.2 = true) by simp)]
    exact ⟨rfl, readCsvFileOnce_updatedFilenames disk c pt.sourceCsvFilename, hg1,
      fun fn2 h => readCsvFileOnce_has_mono disk c pt.sourceCsvFilename fn2 h⟩
  · exact ⟨rfl, rfl, rfl, fun fn2 h => h⟩

theorem addMissingLookupColumns_establish (tasks : List RepairTask)
    (disk : String → FileMap) (self : RepairTask) (sF : RepairField)
    (c : CachedCSVContent)
    (hhas : jsMapHas c.csvDataCacheMap self.sourceCsvFilename = true)
    (hnd : ((getFile c self.sourceCsvFilename).map Prod.fst).Nodup) :
    getTaskBySObjectName tasks sF.parentObjectName = none
    ∨ (∀ pr ∈ getFile (addMissingLookupColumns tasks disk self sF c).1
        self.sourceCsvFilename, RowOK sF pr.2) := by
  unfold addMissingLookupColumns
  split
  · rename_i pt hpt
    right
    have hg1 : getFile (readCsvFileOnce disk c pt.sourceCsvFilename).1 self.sourceCsvFilename
        = getFile c self.sourceCsvFilename :=
      readCsvFileOnce_getFile_preserve disk c pt.sourceCsvFilename self.sourceCsvFilename hhas
    generalize hL : lookupRowsFold self.sObjectName self.sourceCsvFilename
      pt.sourceCsvFilename sF
      (buildExtIdKeyMap (readCsvFileOnce disk c pt.sourceCsvFilename).2
        sF.parentExternalId)
      ((getFile (readCsvFileOnce disk c pt.sourceCsvFilename).1
        self.sourceCsvFilename).map Prod.fst)
      (readCsvFileOnce disk c pt.sourceCsvFilename).1 = L
    have hres := lookupFold_establish self.sObjectName self.sourceCsvFilename
      pt.sourceCsvFilename sF
      (buildExtIdKeyMap (readCsvFileOnce disk c pt.sourceCsvFilename).2
        sF.parentExternalId)
      ((getFile (readCsvFileOnce disk c pt.sourceCsvFilename).1
        self.sourceCsvFilename).map Prod.fst)
      ((readCsvFileOnce disk c pt.sourceCsvFilename).1, [], false)
      L
      (by rw [← hL]; rfl)
      (by
        show ((getFile (readCsvFileOnce disk c pt.sourceCsvFilename).1
          self.sourceCsvFilename).map Prod.fst).Nodup
        rw [hg1]
        exact hnd)
      (by
        intro id hid
        exact (jsMapHas_iff_mem_keys _ _).mpr hid)
      (by
        intro pr hpr
        exact Or.inl (List.mem_map.mpr ⟨pr, hpr, rfl⟩))
    intro pr hpr
    apply hres pr
    have hpr2 : pr ∈ getFile (if L.2.2 = true
        then markUpdated L.1 self.sourceCsvFilename else L.1) self.sourceCsvFilename := hpr
    rw [ite_markUpdated_getFile] at hpr2
    exact hpr2
  · rename_i hnone
    exact Or.inl hnone

theorem addMissingLookupColumns_pres (tasks : List RepairTask) (disk : String → FileMap)
    (self : RepairTask) (sF : RepairField) (c : CachedCSVContent) (P Q : Row → Prop)
    (hP1 : ∀ r v, P r → P (rowSet r sF.nameId v))
    (hP2 : ∀ r v, P r → P (rowSet r sF.fullName__r v))
    (hQ1 : ∀ r v, Q r → Q (rowSet r sF.nameId v))
    (hQ2 : ∀ r v, Q r → Q (rowSet r sF.fullName__r v))
    (hhas : jsMapHas c.csvDataCacheMap self.sourceCsvFilename = true)
    (hP : ∀ pr ∈ getFile c self.sourceCsvFilename, P pr.2)
    (hQ : Q (firstRowOf (getFile c self.sourceCsvFilename))) :
    (∀ p ∈ c.updatedFilenames,
      p ∈ (addMissingLookupColumns tasks disk self sF c).1.updatedFilenames)
    ∧ (getFile (addMissingLookupColumns tasks disk self sF c).1
        self.sourceCsvFilename).map Prod.fst
        = (getFile c self.sourceCsvFilename).map Prod.fst
    ∧ (∀ fn2, jsMapHas c.csvDataCacheMap fn2 = true →
        jsMapHas (addMissingLookupColumns tasks disk self sF c).1.csvDataCacheMap fn2
          = true)
    ∧ (∀ pr ∈ getFile (addMissingLookupColumns tasks disk self sF c).1
        self.sourceCsvFilename, P pr.2)
    ∧ Q (firstRowOf (getFile (addMissingLookupColumns tasks disk self sF c).1
        self.sourceCsvFilename)) := by
  unfold addMissingLookupColumns
  split
  · rename_i pt hpt
    have hg1 : getFile (readCsvFileOnce disk c pt.sourceCsvFilename).1 self.sourceCsvFilename
        = getFile c self.sourceCsvFilename :=
      readCsvFileOnce_getFile_preserve disk c pt.sourceCsvFilename self.sourceCsvFilename hhas
    generalize hL : lookupRowsFold self.sObjectName self.sourceCsvFilename
      pt.sourceCsvFilename sF
      (buildExtIdKeyMap (readCsvFileOnce disk c pt.sourceCsvFilename).2
        sF.parentExternalId)
      ((getFile (readCsvFileOnce disk c pt.sourceCsvFilename).1
        self.sourceCsvFilename).map Prod.fst)
      (readCsvFileOnce disk c pt.sourceCsvFilename).1 = L
    obtain ⟨ih1, ih2, ih3, ih4, ih5, ih6⟩ := lookupFold_preserve self.sObjectName
      self.sourceCsvFilename pt.sourceCsvFilename sF
      (buildExtIdKeyMap (readCsvFileOnce disk c pt.sourceCsvFilename).2
        sF.parentExternalId)
      P Q hP1 hP2 hQ1 hQ2
      ((getFile (readCsvFileOnce disk c pt.sourceCsvFilename).1
        self.sourceCsvFilename).map Prod.fst)
      ((readCsvFileOnce disk c pt.sourceCsvFilename).1, [], false)
      L
      (by rw [← hL]; rfl)
      (by
        intro id hid
        exact (jsMapHas_iff_mem_keys _ _).mpr hid)
      (by
        show ∀ pr ∈ getFile (readCsvFileOnce disk c pt.sourceCsvFilename).1
          self.sourceCsvFilename, P pr.2
        rw [hg1]
        exact hP)
      (by
        show Q (firstRowOf (getFile (readCsvFileOnce disk c pt.sourceCsvFilename).1
          self.sourceCsvFilename))
        rw [hg1]
        exact hQ)
    refine ⟨?_, ?_, ?_, ?_, ?_⟩
    · intro p hp
      apply ite_markUpdated_updated_mono
      rw [ih1, readCsvFileOnce_updatedFilenames]
      exact hp
    · show (getFile (if L.2.2 = true then markUpdated L.1 self.sourceCsvFilename else L.1)
        self.sourceCsvFilename).map Prod.fst = _
      rw [ite_markUpdated_getFile, ih2, hg1]
    · intro fn2 h2
      show jsMapHas (if L.2.2 = true then markUpdated L.1 self.sourceCsvFilename
        else L.1).csvDataCacheMap fn2 = true
      rw [ite_markUpdated_cacheMap]
      exact ih4 fn2 (readCsvFileOnce_has_mono disk c pt.sourceCsvFilename fn2 h2)
    · intro pr hpr
      apply ih5 pr
      have hpr2 : pr ∈ getFile (if L.2.2 = true
          then markUpdated L.1 self.sourceCsvFilename else L.1) self.sourceCsvFilename := hpr
      rw [ite_markUpdated_getFile] at hpr2
      exact hpr2
    · show Q (firstRowOf (getFile (if L.2.2 = true
        then markUpdated L.1 self.sourceCsvFilename else L.1) self.sourceCsvFilename))
      rw [ite_markUpdated_getFile]
      exact ih6
  · exact ⟨fun p h => h, rfl, fun fn2 h => h, hP, hQ⟩

theorem childRowBranch_cases (selfFn childFn extIdCol : String) (cf : ChildRField)
    (pmap : List (String × String)) (acc : CachedCSVContent × Bool)
    (prKey : String) (row : Row) :
    childRowBranch selfFn childFn extIdCol cf pmap acc prKey row = acc
    ∨ ∃ row2, childRowBranch selfFn childFn extIdCol cf pmap acc prKey row
        = (setFile acc.1 childFn (jsMapSet (getFile acc.1 childFn) prKey row2), true)
      ∧ ChildWrite cf row row2 := by
  unfold childRowBranch
  by_cases hd : getRecordValue4 row extIdCol cf.fullOriginalName__r = ""
  · rw [if_neg (not_not_intro hd)]
    exact Or.inl rfl
  · rw [if_pos hd]
    cases hm : jsMapGet pmap (getRecordValue4 row extIdCol cf.fullOriginalName__r) with
    | none => exact Or.inl rfl
    | some pk => exact Or.inr ⟨_, rfl, _, _, rfl⟩

theorem ChildWrite_pres (cf : ChildRField) (Q : Row → Prop)
    (hQ1 : ∀ r v, Q r → Q (rowSet r cf.nameId v))
    (hQ2 : ∀ r v, Q r → Q (rowSet r cf.fullIdName__r v))
    (row row2 : Row) (hwr : ChildWrite cf row row2) (h : Q row) : Q row2 := by
  obtain ⟨v1, v2, rfl⟩ := hwr
  exact hQ2 _ _ (hQ1 _ _ h)

theorem childFold_preserve (selfFn childFn extIdCol : String) (cf : ChildRField)
    (pmap : List (String × String)) (Q : Row → Prop)
    (hQ1 : ∀ r v, Q r → Q (rowSet r cf.nameId v))
    (hQ2 : ∀ r v, Q r → Q (rowSet r cf.fullIdName__r v)) :
    ∀ (snap : FileMap) (acc : CachedCSVContent × Bool) (res : CachedCSVContent × Bool),
    res = snap.foldl (childRowStep selfFn childFn extIdCol cf pmap) acc →
    (∀ pr ∈ snap, jsMapHas (getFile acc.1 childFn) pr.1 = true) →
    res.1.updatedFilenames = acc.1.updatedFilenames
    ∧ (getFile res.1 childFn).map Prod.fst = (getFile acc.1 childFn).map Prod.fst
    ∧ (∀ fn2, ¬ (fn2 = childFn) → getFile res.1 fn2 = getFile acc.1 fn2)
    ∧ (∀ fn2, jsMapHas acc.1.csvDataCacheMap fn2 = true →
        jsMapHas res.1.csvDataCacheMap fn2 = true)
    ∧ (Q (firstRowOf (getFile acc.1 childFn)) →
        Q (firstRowOf (getFile res.1 childFn))) := by
  intro snap
  induction snap with
  | nil =>
    intro acc res hres hk
    subst hres
    exact ⟨rfl, rfl, fun fn2 h2 => rfl, fun fn2 h2 => h2, fun h => h⟩
  | cons pr0 rest ih =>
    intro acc res hres hk
    rw [List.foldl_cons] at hres
    have hidhas : jsMapHas (getFile acc.1 childFn) pr0.1 = true :=
      hk pr0 (List.mem_cons_self pr0 rest)
    obtain ⟨row, hrow⟩ := jsMapHas_get_isSome _ pr0.1 hidhas
    have hst : childRowStep selfFn childFn extIdCol cf pmap acc pr0
        = childRowBranch selfFn childFn extIdCol cf pmap acc pr0.1 row := by
      unfold childRowStep
      rw [show (jsMapGet (getFile acc.1 childFn) pr0.1).getD [] = row by rw [hrow]; rfl]
    rcases childRowBranch_cases selfFn childFn extIdCol cf pmap acc pr0.1 row with
      heq | ⟨row2, heq, hwr⟩
    · rw [hst, heq] at hres
      exact ih acc res hres (fun pr2 h2 => hk pr2 (List.mem_cons_of_mem pr0 h2))
    · rw [hst, heq] at hres
      have hfmN : getFile (setFile acc.1 childFn
            (jsMapSet (getFile acc.1 childFn) pr0.1 row2)) childFn
          = jsMapSet (getFile acc.1 childFn) pr0.1 row2 :=
        getFile_setFile_self _ _ _
      have hkeysN : (getFile (setFile acc.1 childFn
            (jsMapSet (getFile acc.1 childFn) pr0.1 row2)) childFn).map Prod.fst
          = (getFile acc.1 childFn).map Prod.fst := by
        rw [hfmN]
        exact jsMapSet_keys_of_has _ pr0.1 row2 hidhas
      have hkN : ∀ pr2 ∈ rest, jsMapHas (getFile (setFile acc.1 childFn
          (jsMapSet (getFile acc.1 childFn) pr0.1 row2), true).1 childFn) pr2.1 = true := by
        intro pr2 h2
        show jsMapHas (getFile (setFile acc.1 childFn
          (jsMapSet (getFile acc.1 childFn) pr0.1 row2)) childFn) pr2.1 = true
        rw [jsMapHas_iff_mem_keys, hkeysN]
        exact (jsMapHas_iff_mem_keys _ _).mp (hk pr2 (List.mem_cons_of_mem pr0 h2))
      obtain ⟨ih1, ih2, ih3, ih4, ih5⟩ := ih _ res hres hkN
      refine ⟨ih1.trans (setFile_updated _ _ _), ih2.trans hkeysN, ?_, ?_, ?_⟩
      · intro fn2 hne
        exact (ih3 fn2 hne).trans (getFile_setFile_other _ _ _ _ hne)
      · intro fn2 h2
        exact ih4 fn2 (setFile_has_mono _ _ _ _ h2)
      · intro hQ
        apply ih5
        show Q (firstRowOf (getFile (setFile acc.1 childFn
          (jsMapSet (getFile acc.1 childFn) pr0.1 row2)) childFn))
        rw [hfmN]
        rcases firstRowOf_jsMapSet (getFile acc.1 childFn) pr0.1 row2 hidhas with
          ⟨hfr, hget⟩ | hfr
        · rw [hfr]
          rw [hrow] at hget
          have hroweq : row = firstRowOf (getFile acc.1 childFn) := by
            injection hget
          have hQrow : Q row := by
            rw [hroweq]
            exact hQ
          exact ChildWrite_pres cf Q hQ1 hQ2 row row2 hwr hQrow
        · rw [hfr]
          exact hQ

theorem updateChildOriginalIdColumns_pres (tasks : List RepairTask)
    (disk : String → FileMap) (self : RepairTask) (cf : ChildRField)
    (c : CachedCSVContent) (Q : Row → Prop)
    (hQ1 : ∀ r v, Q r → Q (rowSet r cf.nameId v))
    (hQ2 : ∀ r v, Q r → Q (rowSet r cf.fullIdName__r v))
    (hhas : jsMapHas c.csvDataCacheMap self.sourceCsvFilename = true)
    (hQ : Q (firstRowOf (getFile c self.sourceCsvFilename))) :
    (∀ p ∈ c.updatedFilenames,
      p ∈ (updateChildOriginalIdColumns tasks disk self cf c).1.updatedFilenames)
    ∧ (∀ fn2, jsMapHas c.csvDataCacheMap fn2 = true →
        jsMapHas (updateChildOriginalIdColumns tasks disk self cf c).1.csvDataCacheMap fn2
          = true
        ∧ (getFile (updateChildOriginalIdColumns tasks disk self cf c).1 fn2).map Prod.fst
          = (getFile c fn2).map Prod.fst)
    ∧ Q (firstRowOf (getFile (updateChildOriginalIdColumns tasks disk self cf c).1
        self.sourceCsvFilename)) := by
  unfold updateChildOriginalIdColumns
  by_cases he : self.originalExternalId = "Id"
  · rw [if_neg (not_not_intro he)]
    exact ⟨fun p h => h, fun fn2 h => ⟨h, rfl⟩, hQ⟩
  · rw [if_pos he]
    split
    · rename_i ct hct
      split
      · split
        · rename_i hlen hcol
          generalize hU : updateChildRowsFold self.sourceCsvFilename ct.sourceCsvFilename
            self.originalExternalId cf
            (buildExtIdKeyMap (getFile (readCsvFileOnce disk c ct.sourceCsvFilename).1
              self.sourceCsvFilename) self.originalExternalId)
            (readCsvFileOnce disk c ct.sourceCsvFilename).2
            (readCsvFileOnce disk c ct.sourceCsvFilename).1 = U
          obtain ⟨f1, f2, f3, f4, f5⟩ := childFold_preserve self.sourceCsvFilename
            ct.sourceCsvFilename self.originalExternalId cf
            (buildExtIdKeyMap (getFile (readCsvFileOnce disk c ct.sourceCsvFilename).1
              self.sourceCsvFilename) self.originalExternalId)
            Q hQ1 hQ2
            (readCsvFileOnce disk c ct.sourceCsvFilename).2
            ((readCsvFileOnce disk c ct.sourceCsvFilename).1, false)
            U
            (by rw [← hU]; rfl)
            (by
              intro pr hpr
              rw [readCsvFileOnce_snd_eq] at hpr
              exact (jsMapHas_iff_mem_keys _ _).mpr (List.mem_map.mpr ⟨pr, hpr, rfl⟩))
          refine ⟨?_, ?_, ?_⟩
          · intro p hp
            apply ite_markUpdated_updated_mono
            rw [f1, readCsvFileOnce_updatedFilenames]
            exact hp
          · intro fn2 h2
            constructor
            · show jsMapHas (if U.2 = true then markUpdated U.1 ct.sourceCsvFilename
                else U.1).csvDataCacheMap fn2 = true
              rw [ite_markUpdated_cacheMap]
              exact f4 fn2 (readCsvFileOnce_has_mono disk c ct.sourceCsvFilename fn2 h2)
            · show (getFile (if U.2 = true then markUpdated U.1 ct.sourceCsvFilename
                else U.1) fn2).map Prod.fst = _
              rw [ite_markUpdated_getFile]
              by_cases hfc : fn2 = ct.sourceCsvFilename
              · rw [hfc, f2, readCsvFileOnce_getFile_preserve disk c
                  ct.sourceCsvFilename ct.sourceCsvFilename (hfc ▸ h2)]
              · rw [f3 fn2 hfc, readCsvFileOnce_getFile_preserve disk c
                  ct.sourceCsvFilename fn2 h2]
          · show Q (firstRowOf (getFile (if U.2 = true
              then markUpdated U.1 ct.sourceCsvFilename else U.1) self.sourceCsvFilename))
            rw [ite_markUpdated_getFile]
            by_cases hsf : self.sourceCsvFilename = ct.sourceCsvFilename
            · rw [hsf]
              apply f5
              rw [readCsvFileOnce_getFile_preserve disk c ct.sourceCsvFilename
                ct.sourceCsvFilename (hsf ▸ hhas), ← hsf]
              exact hQ
            · rw [f3 self.sourceCsvFilename hsf,
                readCsvFileOnce_getFile_preserve disk c ct.sourceCsvFilename
                  self.sourceCsvFilename hhas]
              exact hQ
        · refine ⟨?_, ?_, ?_⟩
          · intro p hp
            show p ∈ (readCsvFileOnce disk c ct.sourceCsvFilename).1.updatedFilenames
            rw [readCsvFileOnce_updatedFilenames]
            exact hp
          · intro fn2 h2
            exact ⟨readCsvFileOnce_has_mono disk c ct.sourceCsvFilename fn2 h2,
              by rw [readCsvFileOnce_getFile_preserve disk c ct.sourceCsvFilename fn2 h2]⟩
          · show Q (firstRowOf (getFile (readCsvFileOnce disk c ct.sourceCsvFilename).1
              self.sourceCsvFilename))
            rw [readCsvFileOnce_getFile_preserve disk c ct.sourceCsvFilename
              self.sourceCsvFilename hhas]
            exact hQ
      · refine ⟨?_, ?_, ?_⟩
        · intro p hp
          show p ∈ (readCsvFileOnce disk c ct.sourceCsvFilename).1.updatedFilenames
          rw [readCsvFileOnce_updatedFilenames]
          exact hp
        · intro fn2 h2
          exact ⟨readCsvFileOnce_has_mono disk c ct.sourceCsvFilename fn2 h2,
            by rw [readCsvFileOnce_getFile_preserve disk c ct.sourceCsvFilename fn2 h2]⟩
        · show Q (firstRowOf (getFile (readCsvFileOnce disk c ct.sourceCsvFilename).1
            self.sourceCsvFilename))
          rw [readCsvFileOnce_getFile_preserve disk c ct.sourceCsvFilename
            self.sourceCsvFilename hhas]
          exact hQ
    · exact ⟨fun p h => h, fun fn2 h => ⟨h, rfl⟩, hQ⟩

theorem childFieldsFold_pres (tasks : List RepairTask) (disk : String → FileMap)
    (self : RepairTask) (Q : Row → Prop) :
    ∀ (cfs : List ChildRField) (acc : CachedCSVContent × List CSVIssue)
    (res : CachedCSVContent × List CSVIssue),
    res = cfs.foldl (childFieldStep tasks disk self) acc →
    (∀ cf ∈ cfs, (∀ r v, Q r → Q (rowSet r cf.nameId v))
      ∧ (∀ r v, Q r → Q (rowSet r cf.fullIdName__r v))) →
    jsMapHas acc.1.csvDataCacheMap self.sourceCsvFilename = true →
    Q (firstRowOf (getFile acc.1 self.sourceCsvFilename)) →
    (∀ p ∈ acc.1.updatedFilenames, p ∈ res.1.updatedFilenames)
    ∧ (∀ fn2, jsMapHas acc.1.csvDataCacheMap fn2 = true →
        jsMapHas res.1.csvDataCacheMap fn2 = true
        ∧ (getFile res.1 fn2).map Prod.fst = (getFile acc.1 fn2).map Prod.fst)
    ∧ Q (firstRowOf (getFile res.1 self.sourceCsvFilename)) := by
  intro cfs
  induction cfs with
  | nil =>
    intro acc res hres hcl hhas hQ
    subst hres
    exact ⟨fun p h => h, fun fn2 h => ⟨h, rfl⟩, hQ⟩
  | cons cf rest ih =>
    intro acc res hres hcl hhas hQ
    rw [List.foldl_cons] at hres
    obtain ⟨g1, g2, g3⟩ := updateChildOriginalIdColumns_pres tasks disk self cf acc.1 Q
      (hcl cf (List.mem_cons_self cf rest)).1
      (hcl cf (List.mem_cons_self cf rest)).2
      hhas hQ
    have hstep : (childFieldStep tasks disk self acc cf).1
        = (updateChildOriginalIdColumns tasks disk self cf acc.1).1 := rfl
    obtain ⟨ih1, ih2, ih3⟩ := ih (childFieldStep tasks disk self acc cf) res hres
      (fun cf2 h2 => hcl cf2 (List.mem_cons_of_mem cf h2))
      (by rw [hstep]; exact (g2 self.sourceCsvFilename hhas).1)
      (by rw [hstep]; exact g3)
    refine ⟨?_, ?_, ih3⟩
    · intro p hp
      apply ih1
      rw [hstep]
      exact g1 p hp
    · intro fn2 h2
      have h2s : jsMapHas (childFieldStep tasks disk self acc cf).1.csvDataCacheMap fn2
          = true := by
        rw [hstep]
        exact (g2 fn2 h2).1
      refine ⟨(ih2 fn2 h2s).1, ?_⟩
      rw [(ih2 fn2 h2s).2, hstep, (g2 fn2 h2).2]

theorem fieldsFold_master (tasks : List RepairTask) (disk : String → FileMap)
    (self : RepairTask) :
    ∀ (fields : List RepairField) (acc : CachedCSVContent × List CSVIssue)
    (res : CachedCSVContent × List CSVIssue),
    res = fields.foldl (fieldStep tasks disk self) acc →
    List.Pairwise FieldDisj fields →
    jsMapHas acc.1.csvDataCacheMap self.sourceCsvFilename = true →
    ((getFile acc.1 self.sourceCsvFilename).map Prod.fst).Nodup →
    (∀ p ∈ acc.1.updatedFilenames, p ∈ res.1.updatedFilenames)
    ∧ (∀ fn2, jsMapHas acc.1.csvDataCacheMap fn2 = true →
        jsMapHas res.1.csvDataCacheMap fn2 = true)
    ∧ (getFile res.1 self.sourceCsvFilename).map Prod.fst
        = (getFile acc.1 self.sourceCsvFilename).map Prod.fst
    ∧ (∀ (P : Row → Prop),
        (∀ s2 ∈ fields, (∀ r v, P r → P (rowSet r s2.nameId v))
          ∧ (∀ r v, P r → P (rowSet r s2.fullName__r v))) →
        (∀ pr ∈ getFile acc.1 self.sourceCsvFilename, P pr.2) →
        ∀ pr ∈ getFile res.1 self.sourceCsvFilename, P pr.2)
    ∧ (∀ (Q : Row → Prop),
        (∀ s2 ∈ fields, (∀ r v, Q r → Q (rowSet r s2.nameId v))
          ∧ (∀ r v, Q r → Q (rowSet r s2.fullName__r v))) →
        Q (firstRowOf (getFile acc.1 self.sourceCsvFilename)) →
        Q (firstRowOf (getFile res.1 self.sourceCsvFilename)))
    ∧ (∀ s ∈ fields, GoodField tasks self s res.1) := by
  intro fields
  induction fields with
  | nil =>
    intro acc res hres hp hhas hnd
    subst hres
    refine ⟨fun p h => h, fun fn2 h => h, rfl, fun P _ hP => hP, fun Q _ hQ => hQ, ?_⟩
    intro s hs
    exact absurd hs (by simp)
  | cons s rest ih =>
    intro acc res hres hp hhas hnd
    obtain ⟨hhead, htail⟩ := List.pairwise_cons.mp hp
    rw [List.foldl_cons] at hres
    by_cases hg : (s.isReference = true
        ∧ (¬ rowHasKey (firstRowOf (getFile acc.1 self.sourceCsvFilename)) s.fullName__r
          ∨ ¬ rowHasKey (firstRowOf (getFile acc.1 self.sourceCsvFilename)) s.nameId))
    · have hstep : fieldStep tasks disk self acc s
          = ((addMissingLookupColumns tasks disk self s acc.1).1,
             acc.2 ++ (addMissingLookupColumns tasks disk self s acc.1).2) := by
        unfold fieldStep
        rw [if_pos hg]
      rw [hstep] at hres
      obtain ⟨p1, p2, p3, _, _⟩ := addMissingLookupColumns_pres tasks disk self s acc.1
        (fun _ => True) (fun _ => True)
        (fun _ _ _ => trivial) (fun _ _ _ => trivial) (fun _ _ _ => trivial)
        (fun _ _ _ => trivial) hhas (fun _ _ => trivial) trivial
      obtain ⟨ih1, ih2, ih3, ih4, ih5, ih6⟩ := ih
        ((addMissingLookupColumns tasks disk self s acc.1).1,
         acc.2 ++ (addMissingLookupColumns tasks disk self s acc.1).2)
        res hres htail (p3 self.sourceCsvFilename hhas) (by rw [p2]; exact hnd)
      refine ⟨?_, ?_, ih3.trans p2, ?_, ?_, ?_⟩
      · intro p hp2
        exact ih1 p (p1 p hp2)
      · intro fn2 h2
        exact ih2 fn2 (p3 fn2 h2)
      · intro P hcl hP
        obtain ⟨_, _, _, q4, _⟩ := addMissingLookupColumns_pres tasks disk self s acc.1
          P (fun _ => True)
          (hcl s (List.mem_cons_self s rest)).1 (hcl s (List.mem_cons_self s rest)).2
          (fun _ _ _ => trivial) (fun _ _ _ => trivial) hhas hP trivial
        exact ih4 P (fun s2 h2 => hcl s2 (List.mem_cons_of_mem s h2)) q4
      · intro Q hcl hQ
        obtain ⟨_, _, _, _, q5⟩ := addMissingLookupColumns_pres tasks disk self s acc.1
          (fun _ => True) Q
          (fun _ _ _ => trivial) (fun _ _ _ => trivial)
          (hcl s (List.mem_cons_self s rest)).1 (hcl s (List.mem_cons_self s rest)).2
          hhas (fun _ _ => trivial) hQ
        exact ih5 Q (fun s2 h2 => hcl s2 (List.mem_cons_of_mem s h2)) q5
      · intro s0 hs0
        rcases List.mem_cons.mp hs0 with h0 | h0
        · subst h0
          rcases addMissingLookupColumns_establish tasks disk self s0 acc.1 hhas hnd with
            hnone | hrows
          · exact Or.inr (Or.inl hnone)
          · refine Or.inr (Or.inr (Or.inr ?_))
            apply ih4 (RowOK s0)
            · intro s2 h2
              obtain ⟨d1, d2, d3, d4⟩ := hhead s2 h2
              exact ⟨fun r v h => RowOK_rowSet_of_ne s0 r s2.nameId v d1 d2 h,
                fun r v h => RowOK_rowSet_of_ne s0 r s2.fullName__r v d3 d4 h⟩
            · exact hrows
        · exact ih6 s0 h0
    · have hstep : fieldStep tasks disk self acc s = acc := by
        unfold fieldStep
        rw [if_neg hg]
      rw [hstep] at hres
      obtain ⟨ih1, ih2, ih3, ih4, ih5, ih6⟩ := ih acc res hres htail hhas hnd
      refine ⟨ih1, ih2, ih3, ?_, ?_, ?_⟩
      · intro P hcl hP
        exact ih4 P (fun s2 h2 => hcl s2 (List.mem_cons_of_mem s h2)) hP
      · intro Q hcl hQ
        exact ih5 Q (fun s2 h2 => hcl s2 (List.mem_cons_of_mem s h2)) hQ
      · intro s0 hs0
        rcases List.mem_cons.mp hs0 with h0 | h0
        · subst h0
          by_cases hisref : s0.isReference = true
          · have hr1 : rowHasKey (firstRowOf (getFile acc.1 self.sourceCsvFilename))
                s0.fullName__r = true := by
              cases hc : rowHasKey (firstRowOf (getFile acc.1 self.sourceCsvFilename))
                s0.fullName__r
              · exact absurd ⟨hisref, Or.inl (by simp [hc])⟩ hg
              · rfl
            have hr2 : rowHasKey (firstRowOf (getFile acc.1 self.sourceCsvFilename))
                s0.nameId = true := by
              cases hc : rowHasKey (firstRowOf (getFile acc.1 self.sourceCsvFilename))
                s0.nameId
              · exact absurd ⟨hisref, Or.inr (by simp [hc])⟩ hg
              · rfl
            refine Or.inr (Or.inr (Or.inl ?_))
            have := ih5 (fun r => rowHasKey r s0.fullName__r = true
                ∧ rowHasKey r s0.nameId = true)
              (fun s2 h2 => ⟨fun r v h => ⟨rowHasKey_rowSet_mono r s2.nameId _ v h.1,
                  rowHasKey_rowSet_mono r s2.nameId _ v h.2⟩,
                fun r v h => ⟨rowHasKey_rowSet_mono r s2.fullName__r _ v h.1,
                  rowHasKey_rowSet_mono r s2.fullName__r _ v h.2⟩⟩)
              ⟨hr1, hr2⟩
            exact ⟨this.1, this.2⟩
          · have hfalse : s0.isReference = false := by
              cases hb : s0.isReference
              · rfl
              · exact absurd hb hisref
            exact Or.inl hfalse
        · exact ih6 s0 h0

theorem GoodField_transport (tasks : List RepairTask) (self : RepairTask)
    (s : RepairField) (c c2 : CachedCSVContent)
    (hf : getFile c2 self.sourceCsvFilename = getFile c self.sourceCsvFilename)
    (h : GoodField tasks self s c) : GoodField tasks self s c2 := by
  unfold GoodField at h ⊢
  rw [hf]
  exact h

theorem GoodField_of_bindings_map (tasks : List RepairTask) (self : RepairTask)
    (s : RepairField) (c c2 : CachedCSVContent) (g : Row → Row)
    (hfile : getFile c2 self.sourceCsvFilename
      = (getFile c self.sourceCsvFilename).map (fun pr => (pr.1, g pr.2)))
    (hprops : RowProps g) (h : GoodField tasks self s c) : GoodField tasks self s c2 := by
  rcases h with h | h | ⟨h1, h2⟩ | h
  · exact Or.inl h
  · exact Or.inr (Or.inl h)
  · refine Or.inr (Or.inr (Or.inl ?_))
    match hfm : getFile c self.sourceCsvFilename with
    | [] =>
      rw [hfm] at h1 h2
      constructor
      · rw [hfile, hfm]
        exact h1
      · rw [hfile, hfm]
        exact h2
    | pr0 :: rest =>
      have hne : ¬ (getFile c self.sourceCsvFilename = []) := by
        rw [hfm]
        simp
      rw [hfile, firstRowOf_bindings_map _ g hne]
      exact ⟨by rw [hprops.1, h1], by rw [hprops.1, h2]⟩
  · refine Or.inr (Or.inr (Or.inr ?_))
    intro pr hpr
    rw [hfile] at hpr
    rcases List.mem_map.mp hpr with ⟨pr0, hpr0, heq⟩
    have : pr.2 = g pr0.2 := by
      rw [← heq]
    rw [this]
    exact hprops.2.2.1 s pr0.2 (h pr0 hpr0)

theorem fieldsFold_noop (tasks : List RepairTask) (disk : String → FileMap)
    (self : RepairTask) :
    ∀ (fields : List RepairField) (acc : CachedCSVContent × List CSVIssue),
    jsMapHas acc.1.csvDataCacheMap self.sourceCsvFilename = true →
    (∀ s ∈ fields, GoodField tasks self s acc.1) →
    (fields.foldl (fieldStep tasks disk self) acc).2 = acc.2
    ∧ (fields.foldl (fieldStep tasks disk self) acc).1.updatedFilenames
        = acc.1.updatedFilenames
    ∧ getFile (fields.foldl (fieldStep tasks disk self) acc).1 self.sourceCsvFilename
        = getFile acc.1 self.sourceCsvFilename := by
  intro fields
  induction fields with
  | nil =>
    intro acc hhas hgood
    exact ⟨rfl, rfl, rfl⟩
  | cons s rest ih =>
    intro acc hhas hgood
    rw [List.foldl_cons]
    rcases hgood s (List.mem_cons_self s rest) with hgf | hgf | hgf | hgf
    · have hstep : fieldStep tasks disk self acc s = acc := by
        unfold fieldStep
        rw [if_neg]
        intro hc
        rw [hgf] at hc
        exact absurd hc.1 (by simp)
      rw [hstep]
      exact ih acc hhas (fun s2 h2 => hgood s2 (List.mem_cons_of_mem s h2))
    · by_cases hg : (s.isReference = true
          ∧ (¬ rowHasKey (firstRowOf (getFile acc.1 self.sourceCsvFilename)) s.fullName__r
            ∨ ¬ rowHasKey (firstRowOf (getFile acc.1 self.sourceCsvFilename)) s.nameId))
      · have haml : addMissingLookupColumns tasks disk self s acc.1 = (acc.1, []) := by
          unfold addMissingLookupColumns
          rw [hgf]
        have hstep : fieldStep tasks disk self acc s = acc := by
          unfold fieldStep
          rw [if_pos hg, haml]
          simp
        rw [hstep]
        exact ih acc hhas (fun s2 h2 => hgood s2 (List.mem_cons_of_mem s h2))
      · have hstep : fieldStep tasks disk self acc s = acc := by
          unfold fieldStep
          rw [if_neg hg]
        rw [hstep]
        exact ih acc hhas (fun s2 h2 => hgood s2 (List.mem_cons_of_mem s h2))
    · have hstep : fieldStep tasks disk self acc s = acc := by
        unfold fieldStep
        rw [if_neg]
        intro hc
        rcases hc.2 with hm | hm
        · exact hm hgf.1
        · exact hm hgf.2
      rw [hstep]
      exact ih acc hhas (fun s2 h2 => hgood s2 (List.mem_cons_of_mem s h2))
    · by_cases hg : (s.isReference = true
          ∧ (¬ rowHasKey (firstRowOf (getFile acc.1 self.sourceCsvFilename)) s.fullName__r
            ∨ ¬ rowHasKey (firstRowOf (getFile acc.1 self.sourceCsvFilename)) s.nameId))
      · obtain ⟨n1, n2, n3, n4⟩ := addMissingLookupColumns_noop tasks disk self s acc.1
          hhas hgf
        have hstep : fieldStep tasks disk self acc s
            = ((addMissingLookupColumns tasks disk self s acc.1).1,
               acc.2 ++ (addMissingLookupColumns tasks disk self s acc.1).2) := by
          unfold fieldStep
          rw [if_pos hg]
        rw [hstep]
        obtain ⟨ih1, ih2, ih3⟩ := ih
          ((addMissingLookupColumns tasks disk self s acc.1).1,
           acc.2 ++ (addMissingLookupColumns tasks disk self s acc.1).2)
          (n4 self.sourceCsvFilename hhas)
          (fun s2 h2 => GoodField_transport tasks self s2 acc.1 _ n3
            (hgood s2 (List.mem_cons_of_mem s h2)))
        refine ⟨?_, ?_, ?_⟩
        · rw [ih1]
          show acc.2 ++ (addMissingLookupColumns tasks disk self s acc.1).2 = acc.2
          rw [n1, List.append_nil]
        · rw [ih2]
          exact n2
        · rw [ih3]
          exact n3
      · have hstep : fieldStep tasks disk self acc s = acc := by
          unfold fieldStep
          rw [if_neg hg]
        rw [hstep]
        exact ih acc hhas (fun s2 h2 => hgood s2 (List.mem_cons_of_mem s h2))

theorem repairCSV_noop_of_good (tasks : List RepairTask)
    (vm : List (String × List (String × String))) (disk : String → FileMap)
    (self : RepairTask) (c : CachedCSVContent)
    (hhas : jsMapHas c.csvDataCacheMap self.sourceCsvFilename = true)
    (htrim : ∀ k ∈ rowKeys (firstRowOf (getFile c self.sourceCsvFilename)), strTrim k = k)
    (hid : rowHasKey (firstRowOf (getFile c self.sourceCsvFilename)) "Id" = true
        ∨ getFile c self.sourceCsvFilename = [])
    (hupd : self.useCSVValuesMapping ∧ vm.length > 0 →
        ¬ (getFile c self.sourceCsvFilename = []) →
        self.sourceCsvFilename ∈ c.updatedFilenames)
    (H1 : ∀ p ∈ vm, jsMapGet p.2 "" = none)
    (hgood : ∀ s ∈ self.fieldsInQuery, GoodField tasks self s c) :
    (repairCSV tasks vm disk self c).2 = []
    ∧ (repairCSV tasks vm disk self c).1.updatedFilenames = c.updatedFilenames := by
  have hread : readCsvFileOnce disk c self.sourceCsvFilename
      = (c, getFile c self.sourceCsvFilename) :=
    readCsvFileOnce_of_has disk c self.sourceCsvFilename hhas
  unfold repairCSV
  by_cases hlen : (readCsvFileOnce disk c self.sourceCsvFilename).2.length = 0
  · rw [if_pos hlen]
    refine ⟨rfl, ?_⟩
    rw [hread]
  · rw [if_neg hlen]
    have hfne : ¬ (getFile c self.sourceCsvFilename = []) := by
      intro hc
      apply hlen
      rw [hread, hc]
      rfl
    have hidp : rowHasKey (firstRowOf (getFile c self.sourceCsvFilename)) "Id" = true := by
      rcases hid with h | h
      · exact h
      · exact absurd h hfne
    have htr : repairTrimmed disk self c = c := by
      unfold repairTrimmed
      rw [hread]
      exact trimColumnNames_noop c self.sourceCsvFilename htrim
    have hmfacts : (repairMapped vm disk self c).updatedFilenames = c.updatedFilenames
        ∧ jsMapHas (repairMapped vm disk self c).csvDataCacheMap
            self.sourceCsvFilename = true
        ∧ rowHasKey (firstRowOf (getFile (repairMapped vm disk self c)
            self.sourceCsvFilename)) "Id" = true
        ∧ (∀ s ∈ self.fieldsInQuery,
            GoodField tasks self s (repairMapped vm disk self c)) := by
      by_cases hvc : self.useCSVValuesMapping ∧ vm.length > 0
      · have hmap : repairMapped vm disk self c
            = updateWithCSVValueMapping vm self.sObjectName c self.sourceCsvFilename := by
          unfold repairMapped
          rw [if_pos hvc, htr]
        obtain ⟨g, hbind, hprops⟩ := updateWithCSVValueMapping_bindings vm self.sObjectName
          c self.sourceCsvFilename H1
        refine ⟨?_, ?_, ?_, ?_⟩
        · rw [hmap]
          exact updateWithCSVValueMapping_updated_of_mem vm self.sObjectName c
            self.sourceCsvFilename (hupd hvc hfne)
        · rw [hmap]
          exact updateWithCSVValueMapping_has_mono vm self.sObjectName c
            self.sourceCsvFilename self.sourceCsvFilename hhas
        · rw [hmap, hbind, firstRowOf_bindings_map _ g hfne, hprops.1, hidp]
        · intro s hs
          refine GoodField_of_bindings_map tasks self s c (repairMapped vm disk self c) g
            ?_ hprops (hgood s hs)
          rw [hmap]
          exact hbind
      · have hmap : repairMapped vm disk self c = c := by
          unfold repairMapped
          rw [if_neg hvc]
          exact htr
        rw [hmap]
        exact ⟨rfl, hhas, hidp, hgood⟩
    obtain ⟨hm1, hm2, hm3, hm4⟩ := hmfacts
    have hidstage : repairIdStage tasks vm disk self c = (repairMapped vm disk self c, []) := by
      unfold repairIdStage
      rw [if_neg (not_not_intro hm3)]
    rw [hidstage]
    obtain ⟨f1, f2, f3⟩ := fieldsFold_noop tasks disk self self.fieldsInQuery
      (repairMapped vm disk self c, []) hm2 hm4
    exact ⟨f1, by rw [f2]; exact hm1⟩

theorem bindingsMap_keys2 (fm : FileMap) (g : String → Row → Row) :
    (fm.map (fun pr => (pr.1, g pr.1 pr.2))).map Prod.fst = fm.map Prod.fst := by
  rw [List.map_map]
  rfl

theorem firstRowOf_bindings_map2 (fm : FileMap) (g : String → Row → Row)
    (h : ¬ (fm = [])) :
    ∃ k0, firstRowOf (fm.map (fun pr => (pr.1, g pr.1 pr.2)))
      = g k0 (firstRowOf fm) := by
  match fm with
  | [] => exact absurd rfl h
  | (k, r) :: rest => exact ⟨k, rfl⟩

theorem addMissingIdColumn_getFile (c : CachedCSVContent) (fn : String) :
    getFile (addMissingIdColumn c fn) fn
      = (getFile c fn).map (fun pr => (pr.1, rowSet pr.2 "Id" pr.1)) := by
  unfold addMissingIdColumn
  rw [getFile_markUpdated, getFile_setFile_self]

theorem addMissingIdColumn_updated_mem (c : CachedCSVContent) (fn : String) :
    fn ∈ (addMissingIdColumn c fn).updatedFilenames := by
  unfold addMissingIdColumn
  exact markUpdated_self_mem _ fn

theorem addMissingIdColumn_updated_mono (c : CachedCSVContent) (fn p : String)
    (h : p ∈ c.updatedFilenames) : p ∈ (addMissingIdColumn c fn).updatedFilenames := by
  unfold addMissingIdColumn
  exact markUpdated_mono _ fn p (by rw [setFile_updated]; exact h)

theorem addMissingIdColumn_has_mono (c : CachedCSVContent) (fn fn2 : String)
    (h : jsMapHas c.csvDataCacheMap fn2 = true) :
    jsMapHas (addMissingIdColumn c fn).csvDataCacheMap fn2 = true := by
  unfold addMissingIdColumn
  rw [markUpdated_cacheMap]
  exact setFile_has_mono c fn fn2 _ h

theorem trim_id_string : strTrim "Id" = "Id" := by decide

theorem map_fst_ne_nil (fm : FileMap) (h : ¬ (fm = [])) : ¬ (fm.map Prod.fst = []) := by
  intro hc
  exact h (List.map_eq_nil_iff.mp hc)

theorem ne_nil_of_keys_eq (fm fm2 : FileMap)
    (hk : fm2.map Prod.fst = fm.map Prod.fst) (h : ¬ (fm = [])) : ¬ (fm2 = []) := by
  intro hc
  rw [hc] at hk
  exact map_fst_ne_nil fm h hk.symm

theorem dropWhile_head_false {α : Type} (p : α → Bool) (l : List α) (x : α)
    (h : (l.dropWhile p).head? = some x) : p x = false := by
  induction l with
  | nil => simp [List.dropWhile] at h
  | cons a as ih =>
    rw [List.dropWhile_cons] at h
    by_cases hp : p a = true
    · rw [if_pos hp] at h
      exact ih h
    · rw [if_neg hp] at h
      have hax : a = x := by
        simpa using h
      rw [← hax]
      cases hb : p a
      · rfl
      · exact absurd hb hp

theorem dropWhile_eq_self_of_head {α : Type} (p : α → Bool) (l : List α)
    (h : ∀ x, l.head? = some x → p x = false) : l.dropWhile p = l := by
  cases l with
  | nil => rfl
  | cons a as =>
    rw [List.dropWhile_cons, if_neg]
    rw [h a rfl]
    simp

theorem dropWhile_idem {α : Type} (p : α → Bool) (l : List α) :
    (l.dropWhile p).dropWhile p = l.dropWhile p :=
  dropWhile_eq_self_of_head p _ (fun x hx => dropWhile_head_false p l x hx)

theorem dropWhile_suffix_decomp {α : Type} (p : α → Bool) (l : List α) :
    ∃ t, l = t ++ l.dropWhile p := by
  induction l with
  | nil => exact ⟨[], rfl⟩
  | cons a as ih =>
    rw [List.dropWhile_cons]
    by_cases hp : p a = true
    · rw [if_pos hp]
      obtain ⟨t, ht⟩ := ih
      exact ⟨a :: t, by rw [List.cons_append, ← ht]⟩
    · rw [if_neg hp]
      exact ⟨[], rfl⟩

theorem strTrim_idem (s : String) : strTrim (strTrim s) = strTrim s := by
  unfold strTrim
  congr 1
  have hl1head : ∀ x, (s.data.dropWhile Char.isWhitespace).head? = some x →
      Char.isWhitespace x = false :=
    fun x hx => dropWhile_head_false Char.isWhitespace s.data x hx
  have hmhead : ∀ x,
      (((s.data.dropWhile Char.isWhitespace).reverse.dropWhile
        Char.isWhitespace).reverse).head? = some x → Char.isWhitespace x = false := by
    intro x hx
    obtain ⟨t, ht⟩ := dropWhile_suffix_decomp Char.isWhitespace
      (s.data.dropWhile Char.isWhitespace).reverse
    have hdecomp : s.data.dropWhile Char.isWhitespace
        = ((s.data.dropWhile Char.isWhitespace).reverse.dropWhile
            Char.isWhitespace).reverse ++ t.reverse := by
      have := congrArg List.reverse ht
      rw [List.reverse_reverse, List.reverse_append] at this
      exact this
    match hm : ((s.data.dropWhile Char.isWhitespace).reverse.dropWhile
        Char.isWhitespace).reverse with
    | [] =>
      rw [hm] at hx
      exact absurd hx (by simp)
    | b :: bs =>
      rw [hm] at hx hdecomp
      have hb : b = x := by
        simpa using hx
      apply hl1head x
      rw [hdecomp, ← hb]
      rfl
  rw [show (String.mk (((s.data.dropWhile Char.isWhitespace).reverse.dropWhile
      Char.isWhitespace).reverse)).data
    = ((s.data.dropWhile Char.isWhitespace).reverse.dropWhile
        Char.isWhitespace).reverse from rfl]
  rw [dropWhile_eq_self_of_head Char.isWhitespace _ hmhead]
  rw [List.reverse_reverse, dropWhile_idem]

theorem rowKeys_rowDelete (r : Row) (c k : String) (h : k ∈ rowKeys (rowDelete r c)) :
    k ∈ rowKeys r ∧ ¬ (k = c) := by
  unfold rowDelete rowKeys at h
  unfold rowKeys
  rcases List.mem_map.mp h with ⟨p, hp, hpk⟩
  rw [List.mem_filter] at hp
  constructor
  · exact List.mem_map.mpr ⟨p, hp.1, hpk⟩
  · rw [← hpk]
    exact of_decide_eq_true hp.2

theorem trimRow_keys (cols : List String) :
    ∀ (r : Row) (k : String), k ∈ rowKeys (trimRow cols r) →
      (k ∈ rowKeys r ∧ ¬ (k ∈ cols)) ∨ ∃ col ∈ cols, k = strTrim col := by
  induction cols with
  | nil =>
    intro r k h
    exact Or.inl ⟨h, by simp⟩
  | cons c cs ih =>
    intro r k h
    unfold trimRow at h
    rw [List.foldl_cons] at h
    rcases ih (rowDelete (rowSet r (strTrim c) (rowGet r c)) c) k h with ⟨hk1, hkcs⟩ | hex
    · obtain ⟨hk2, hkc⟩ := rowKeys_rowDelete _ c k hk1
      rcases rowKeys_rowSet_subset r (strTrim c) (rowGet r c) k hk2 with hk3 | hk3
      · refine Or.inl ⟨hk3, ?_⟩
        intro hc
        rcases List.mem_cons.mp hc with h2 | h2
        · exact hkc h2
        · exact hkcs h2
      · exact Or.inr ⟨c, List.mem_cons_self c cs, hk3⟩
    · obtain ⟨col, hcol, hkeq⟩ := hex
      exact Or.inr ⟨col, List.mem_cons_of_mem c hcol, hkeq⟩

theorem columnsToUpdateOf_not_mem (fm : FileMap) (k : String)
    (hmem : k ∈ rowKeys (firstRowOf fm)) (hnot : ¬ (k ∈ columnsToUpdateOf fm)) :
    strTrim k = k := by
  unfold columnsToUpdateOf at hnot
  by_cases hk : k = strTrim k
  · exact hk.symm
  · exact absurd (List.mem_filter.mpr ⟨hmem, decide_eq_true hk⟩) hnot

theorem trimColumnNames_firstRow_trimmed (c : CachedCSVContent) (fn : String) :
    ∀ k ∈ rowKeys (firstRowOf (getFile (trimColumnNames c fn) fn)), strTrim k = k := by
  unfold trimColumnNames
  by_cases hcol : (columnsToUpdateOf (getFile c fn)).length > 0
  · rw [if_pos hcol]
    have hfm : ¬ (getFile c fn = []) := by
      intro hc
      rw [hc] at hcol
      simp [columnsToUpdateOf, firstRowOf, rowKeys] at hcol
    intro k hk
    rw [getFile_markUpdated, getFile_setFile_self,
      firstRowOf_bindings_map _ (trimRow (columnsToUpdateOf (getFile c fn))) hfm] at hk
    rcases trimRow_keys (columnsToUpdateOf (getFile c fn)) (firstRowOf (getFile c fn))
      k hk with ⟨hmem, hnot⟩ | ⟨col, hcolmem, hkeq⟩
    · exact columnsToUpdateOf_not_mem (getFile c fn) k hmem hnot
    · rw [hkeq]
      exact strTrim_idem col
  · rw [if_neg hcol]
    intro k hk
    apply columnsToUpdateOf_not_mem (getFile c fn) k hk
    intro hc
    apply hcol
    cases hc2 : columnsToUpdateOf (getFile c fn) with
    | nil =>
      rw [hc2] at hc
      exact absurd hc (List.not_mem_nil k)
    | cons a as => simp

theorem trimColumnNames_keys (c : CachedCSVContent) (fn : String) :
    (getFile (trimColumnNames c fn) fn).map Prod.fst = (getFile c fn).map Prod.fst := by
  unfold trimColumnNames
  by_cases hcol : (columnsToUpdateOf (getFile c fn)).length > 0
  · rw [if_pos hcol, getFile_markUpdated, getFile_setFile_self]
    exact bindingsMap_keys _ (trimRow (columnsToUpdateOf (getFile c fn)))
  · rw [if_neg hcol]

theorem trimColumnNames_has_mono (c : CachedCSVContent) (fn fn2 : String)
    (h : jsMapHas c.csvDataCacheMap fn2 = true) :
    jsMapHas (trimColumnNames c fn).csvDataCacheMap fn2 = true := by
  unfold trimColumnNames
  by_cases hcol : (columnsToUpdateOf (getFile c fn)).length > 0
  · rw [if_pos hcol, markUpdated_cacheMap]
    exact setFile_has_mono c fn fn2 _ h
  · rw [if_neg hcol]
    exact h

theorem trimColumnNames_updated_mono (c : CachedCSVContent) (fn p : String)
    (h : p ∈ c.updatedFilenames) : p ∈ (trimColumnNames c fn).updatedFilenames := by
  unfold trimColumnNames
  by_cases hcol : (columnsToUpdateOf (getFile c fn)).length > 0
  · rw [if_pos hcol]
    exact markUpdated_mono _ fn p (by rw [setFile_updated]; exact h)
  · rw [if_neg hcol]
    exact h

theorem repairMapped_facts (vm : List (String × List (String × String)))
    (disk : String → FileMap) (self : RepairTask) (cache : CachedCSVContent)
    (H1 : ∀ p ∈ vm, jsMapGet p.2 "" = none)
    (hlen : ¬ ((readCsvFileOnce disk cache self.sourceCsvFilename).2.length = 0)) :
    jsMapHas (repairMapped vm disk self cache).csvDataCacheMap
        self.sourceCsvFilename = true
    ∧ (getFile (repairMapped vm disk self cache) self.sourceCsvFilename).map Prod.fst
        = (getFile (readCsvFileOnce disk cache self.sourceCsvFilename).1
            self.sourceCsvFilename).map Prod.fst
    ∧ (∀ k ∈ rowKeys (firstRowOf (getFile (repairMapped vm disk self cache)
        self.sourceCsvFilename)), strTrim k = k)
    ∧ (self.useCSVValuesMapping ∧ vm.length > 0 →
        self.sourceCsvFilename ∈ (repairMapped vm disk self cache).updatedFilenames)
    ∧ ¬ (getFile (repairMapped vm disk self cache) self.sourceCsvFilename = []) := by
  have hsnd := readCsvFileOnce_snd_eq disk cache self.sourceCsvFilename
  have hhas0 := readCsvFileOnce_has_after disk cache self.sourceCsvFilename
  have hfne0 : ¬ (getFile (readCsvFileOnce disk cache self.sourceCsvFilename).1
      self.sourceCsvFilename = []) := by
    rw [← hsnd]
    intro hc
    exact hlen (by rw [hc]; rfl)
  have thas : jsMapHas (repairTrimmed disk self cache).csvDataCacheMap
      self.sourceCsvFilename = true := by
    unfold repairTrimmed
    exact trimColumnNames_has_mono _ _ _ hhas0
  have tkeys : (getFile (repairTrimmed disk self cache)
      self.sourceCsvFilename).map Prod.fst
      = (getFile (readCsvFileOnce disk cache self.sourceCsvFilename).1
          self.sourceCsvFilename).map Prod.fst := by
    unfold repairTrimmed
    exact trimColumnNames_keys _ _
  have ttrim : ∀ k ∈ rowKeys (firstRowOf (getFile (repairTrimmed disk self cache)
      self.sourceCsvFilename)), strTrim k = k := by
    unfold repairTrimmed
    exact trimColumnNames_firstRow_trimmed _ _
  have tfne : ¬ (getFile (repairTrimmed disk self cache) self.sourceCsvFilename = []) :=
    ne_nil_of_keys_eq _ _ tkeys hfne0
  by_cases hvc : self.useCSVValuesMapping ∧ vm.length > 0
  · have hmap : repairMapped vm disk self cache
        = updateWithCSVValueMapping vm self.sObjectName
          (repairTrimmed disk self cache) self.sourceCsvFilename := by
      unfold repairMapped
      rw [if_pos hvc]
    obtain ⟨g, hbind, hprops⟩ := updateWithCSVValueMapping_bindings vm self.sObjectName
      (repairTrimmed disk self cache) self.sourceCsvFilename H1
    have hkeys : (getFile (repairMapped vm disk self cache)
        self.sourceCsvFilename).map Prod.fst
        = (getFile (readCsvFileOnce disk cache self.sourceCsvFilename).1
            self.sourceCsvFilename).map Prod.fst := by
      rw [hmap, hbind,
        bindingsMap_keys (getFile (repairTrimmed disk self cache)
          self.sourceCsvFilename) g, tkeys]
    refine ⟨?_, hkeys, ?_, ?_, ne_nil_of_keys_eq _ _ hkeys hfne0⟩
    · rw [hmap]
      exact updateWithCSVValueMapping_has_mono vm self.sObjectName _
        self.sourceCsvFilename self.sourceCsvFilename thas
    · intro k hk
      rw [hmap, hbind, firstRowOf_bindings_map _ g tfne] at hk
      unfold rowKeys at hk
      rw [show (g (firstRowOf (getFile (repairTrimmed disk self cache)
          self.sourceCsvFilename))).map Prod.fst
        = rowKeys (g (firstRowOf (getFile (repairTrimmed disk self cache)
          self.sourceCsvFilename))) from rfl, hprops.2.2.2] at hk
      exact ttrim k hk
    · intro _
      rw [hmap]
      exact updateWithCSVValueMapping_updated_mem vm self.sObjectName _
        self.sourceCsvFilename
  · have hmap : repairMapped vm disk self cache = repairTrimmed disk self cache := by
      unfold repairMapped
      rw [if_neg hvc]
    rw [hmap]
    exact ⟨thas, tkeys, ttrim, fun hc => absurd hc hvc, tfne⟩

theorem repairIdStage_facts (tasks : List RepairTask)
    (vm : List (String × List (String × String))) (disk : String → FileMap)
    (self : RepairTask) (cache : CachedCSVContent)
    (H1 : ∀ p ∈ vm, jsMapGet p.2 "" = none)
    (H3 : ∀ cf ∈ self.child__rSFields, strTrim cf.nameId = cf.nameId
        ∧ strTrim cf.fullIdName__r = cf.fullIdName__r)
    (H0 : (((readCsvFileOnce disk cache self.sourceCsvFilename).2).map Prod.fst).Nodup)
    (hlen : ¬ ((readCsvFileOnce disk cache self.sourceCsvFilename).2.length = 0)) :
    jsMapHas (repairIdStage tasks vm disk self cache).1.csvDataCacheMap
        self.sourceCsvFilename = true
    ∧ ((getFile (repairIdStage tasks vm disk self cache).1
        self.sourceCsvFilename).map Prod.fst).Nodup
    ∧ (∀ k ∈ rowKeys (firstRowOf (getFile (repairIdStage tasks vm disk self cache).1
        self.sourceCsvFilename)), strTrim k = k)
    ∧ rowHasKey (firstRowOf (getFile (repairIdStage tasks vm disk self cache).1
        self.sourceCsvFilename)) "Id" = true
    ∧ (self.useCSVValuesMapping ∧ vm.length > 0 →
        self.sourceCsvFilename ∈ (repairIdStage tasks vm disk self cache).1.updatedFilenames) := by
  have hsnd := readCsvFileOnce_snd_eq disk cache self.sourceCsvFilename
  obtain ⟨m1, mkeys, m3, m4, m5⟩ := repairMapped_facts vm disk self cache H1 hlen
  have hnd0 : ((getFile (readCsvFileOnce disk cache self.sourceCsvFilename).1
      self.sourceCsvFilename).map Prod.fst).Nodup := by
    rw [← hsnd]
    exact H0
  have m2 : ((getFile (repairMapped vm disk self cache)
      self.sourceCsvFilename).map Prod.fst).Nodup := by
    rw [mkeys]
    exact hnd0
  unfold repairIdStage
  by_cases hidc : rowHasKey (firstRowOf (getFile (repairMapped vm disk self cache)
      self.sourceCsvFilename)) "Id" = true
  · rw [if_neg (not_not_intro hidc)]
    exact ⟨m1, m2, m3, hidc, m4⟩
  · rw [if_pos hidc]
    have b1 := addMissingIdColumn_has_mono (repairMapped vm disk self cache)
      self.sourceCsvFilename self.sourceCsvFilename m1
    have bkeys : (getFile (addMissingIdColumn (repairMapped vm disk self cache)
        self.sourceCsvFilename) self.sourceCsvFilename).map Prod.fst
        = (getFile (repairMapped vm disk self cache)
            self.sourceCsvFilename).map Prod.fst := by
      rw [addMissingIdColumn_getFile]
      exact bindingsMap_keys2 _ (fun k r => rowSet r "Id" k)
    have bQ : (∀ k ∈ rowKeys (firstRowOf (getFile (addMissingIdColumn
          (repairMapped vm disk self cache) self.sourceCsvFilename)
          self.sourceCsvFilename)), strTrim k = k)
        ∧ rowHasKey (firstRowOf (getFile (addMissingIdColumn
          (repairMapped vm disk self cache) self.sourceCsvFilename)
          self.sourceCsvFilename)) "Id" = true := by
      obtain ⟨k0, hk0⟩ := firstRowOf_bindings_map2
        (getFile (repairMapped vm disk self cache) self.sourceCsvFilename)
        (fun k r => rowSet r "Id" k) m5
      rw [addMissingIdColumn_getFile, hk0]
      constructor
      · intro k hk
        rcases rowKeys_rowSet_subset _ _ _ _ hk with h | h
        · exact m3 k h
        · rw [h]
          exact trim_id_string
      · exact rowHasKey_rowSet_self _ _ _
    obtain ⟨cc1, cc2, cc3⟩ := childFieldsFold_pres tasks disk self
      (fun r => (∀ k ∈ rowKeys r, strTrim k = k) ∧ rowHasKey r "Id" = true)
      self.child__rSFields
      (addMissingIdColumn (repairMapped vm disk self cache) self.sourceCsvFilename, [])
      (self.child__rSFields.foldl (childFieldStep tasks disk self)
        (addMissingIdColumn (repairMapped vm disk self cache) self.sourceCsvFilename, []))
      rfl
      (by
        intro cf hcf
        refine ⟨?_, ?_⟩
        · intro r v h
          refine ⟨?_, rowHasKey_rowSet_mono r cf.nameId "Id" v h.2⟩
          intro k hk
          rcases rowKeys_rowSet_subset r cf.nameId v k hk with h2 | h2
          · exact h.1 k h2
          · rw [h2]
            exact (H3 cf hcf).1
        · intro r v h
          refine ⟨?_, rowHasKey_rowSet_mono r cf.fullIdName__r "Id" v h.2⟩
          intro k hk
          rcases rowKeys_rowSet_subset r cf.fullIdName__r v k hk with h2 | h2
          · exact h.1 k h2
          · rw [h2]
            exact (H3 cf hcf).2)
      b1 bQ
    refine ⟨(cc2 self.sourceCsvFilename b1).1, ?_, cc3.1, cc3.2, ?_⟩
    · rw [(cc2 self.sourceCsvFilename b1).2]
      show ((getFile (addMissingIdColumn (repairMapped vm disk self cache)
        self.sourceCsvFilename) self.sourceCsvFilename).map Prod.fst).Nodup
      rw [bkeys]
      exact m2
    · intro _
      exact cc1 self.sourceCsvFilename
        (addMissingIdColumn_updated_mem (repairMapped vm disk self cache)
          self.sourceCsvFilename)

theorem repairCSV_run1_good (tasks : List RepairTask)
    (vm : List (String × List (String × String))) (disk : String → FileMap)
    (self : RepairTask) (cache : CachedCSVContent)
    (H0 : (((readCsvFileOnce disk cache self.sourceCsvFilename).2).map Prod.fst).Nodup)
    (H1 : ∀ p ∈ vm, jsMapGet p.2 "" = none)
    (H2 : ∀ f ∈ self.fieldsInQuery, strTrim f.nameId = f.nameId
        ∧ strTrim f.fullName__r = f.fullName__r)
    (H3 : ∀ cf ∈ self.child__rSFields, strTrim cf.nameId = cf.nameId
        ∧ strTrim cf.fullIdName__r = cf.fullIdName__r)
    (H4 : List.Pairwise FieldDisj self.fieldsInQuery) :
    jsMapHas (repairCSV tasks vm disk self cache).1.csvDataCacheMap
        self.sourceCsvFilename = true
    ∧ (∀ k ∈ rowKeys (firstRowOf (getFile (repairCSV tasks vm disk self cache).1
        self.sourceCsvFilename)), strTrim k = k)
    ∧ (rowHasKey (firstRowOf (getFile (repairCSV tasks vm disk self cache).1
        self.sourceCsvFilename)) "Id" = true
      ∨ getFile (repairCSV tasks vm disk self cache).1 self.sourceCsvFilename = [])
    ∧ (self.useCSVValuesMapping ∧ vm.length > 0 →
        ¬ (getFile (repairCSV tasks vm disk self cache).1 self.sourceCsvFilename = []) →
        self.sourceCsvFilename ∈ (repairCSV tasks vm disk self cache).1.updatedFilenames)
    ∧ (∀ s ∈ self.fieldsInQuery,
        GoodField tasks self s (repairCSV tasks vm disk self cache).1) := by
  have hsnd := readCsvFileOnce_snd_eq disk cache self.sourceCsvFilename
  unfold repairCSV
  by_cases hlen : (readCsvFileOnce disk cache self.sourceCsvFilename).2.length = 0
  · rw [if_pos hlen]
    have hemp : getFile (readCsvFileOnce disk cache self.sourceCsvFilename).1
        self.sourceCsvFilename = [] := by
      rw [← hsnd]
      exact List.length_eq_zero.mp hlen
    refine ⟨readCsvFileOnce_has_after disk cache self.sourceCsvFilename, ?_,
      Or.inr hemp, ?_, ?_⟩
    · intro k hk
      have hk2 : k ∈ rowKeys (firstRowOf (getFile
          (readCsvFileOnce disk cache self.sourceCsvFilename).1
          self.sourceCsvFilename)) := hk
      rw [hemp] at hk2
      simp [firstRowOf, rowKeys] at hk2
    · intro _ hne
      exact absurd hemp hne
    · intro s hs
      refine Or.inr (Or.inr (Or.inr ?_))
      intro pr hpr
      have hpr2 : pr ∈ getFile (readCsvFileOnce disk cache self.sourceCsvFilename).1
          self.sourceCsvFilename := hpr
      rw [hemp] at hpr2
      exact absurd hpr2 (List.not_mem_nil pr)
  · rw [if_neg hlen]
    obtain ⟨a1, a2, a3, a4, a5⟩ := repairIdStage_facts tasks vm disk self cache
      H1 H3 H0 hlen
    obtain ⟨g1, g2, g3, g4, g5, g6⟩ := fieldsFold_master tasks disk self
      self.fieldsInQuery (repairIdStage tasks vm disk self cache)
      (self.fieldsInQuery.foldl (fieldStep tasks disk self)
        (repairIdStage tasks vm disk self cache))
      rfl H4 a1 a2
    refine ⟨g2 self.sourceCsvFilename a1, ?_, ?_, ?_, g6⟩
    · intro k hk
      have := g5 (fun r => ∀ k2 ∈ rowKeys r, strTrim k2 = k2)
        (by
          intro s2 hs2
          refine ⟨?_, ?_⟩
          · intro r v h k2 hk2
            rcases rowKeys_rowSet_subset r s2.nameId v k2 hk2 with h2 | h2
            · exact h k2 h2
            · rw [h2]
              exact (H2 s2 hs2).1
          · intro r v h k2 hk2
            rcases rowKeys_rowSet_subset r s2.fullName__r v k2 hk2 with h2 | h2
            · exact h k2 h2
            · rw [h2]
              exact (H2 s2 hs2).2)
        a3
      exact this k hk
    · left
      exact g5 (fun r => rowHasKey r "Id" = true)
        (fun s2 hs2 => ⟨fun r v h => rowHasKey_rowSet_mono r s2.nameId "Id" v h,
          fun r v h => rowHasKey_rowSet_mono r s2.fullName__r "Id" v h⟩)
        a4
    · intro hvc _
      exact g1 self.sourceCsvFilename (a5 hvc)

/-- C5 (amended): for every task whose source file has already been
    repaired once, running `repairCSV` a second time on the resulting file
    cache adds no new path to the dirty-file (`updatedFilenames`) set and
    produces zero new issues, provided the value-mapping table has no rule
    keyed by the empty raw value (without this the second pass genuinely
    produces a new missing-parent issue, see the counterexample), the id
    and relationship column names of the reference and child fields carry
    no surrounding whitespace, distinct reference fields use pairwise
    distinct columns, and the row keys of the source file are distinct. -/
theorem c5_repair_idempotent (tasks : List RepairTask)
    (vm : List (String × List (String × String))) (disk : String → FileMap)
    (self : RepairTask) (cache : CachedCSVContent)
    (H0 : (((readCsvFileOnce disk cache self.sourceCsvFilename).2).map Prod.fst).Nodup)
    (H1 : ∀ p ∈ vm, jsMapGet p.2 "" = none)
    (H2 : ∀ f ∈ self.fieldsInQuery, strTrim f.nameId = f.nameId
        ∧ strTrim f.fullName__r = f.fullName__r)
    (H3 : ∀ cf ∈ self.child__rSFields, strTrim cf.nameId = cf.nameId
        ∧ strTrim cf.fullIdName__r = cf.fullIdName__r)
    (H4 : List.Pairwise FieldDisj self.fieldsInQuery) :
    (repairCSV tasks vm disk self (repairCSV tasks vm disk self cache).1).2 = []
    ∧ (repairCSV tasks vm disk self
        (repairCSV tasks vm disk self cache).1).1.updatedFilenames
      = (repairCSV tasks vm disk self cache).1.updatedFilenames := by
  obtain ⟨h1, h2, h3, h4, h5⟩ := repairCSV_run1_good tasks vm disk self cache
    H0 H1 H2 H3 H4
  exact repairCSV_noop_of_good tasks vm disk self
    (repairCSV tasks vm disk self cache).1 h1 h2 h3 h4 H1 h5

/-- Witness for C5 at a concrete input: a Case file whose relationship
    header column carries trailing whitespace, with one resolvable parent
    reference and one missing parent (so the first pass trims the header,
    writes columns and issues one missing-parent report), rerun on the
    resulting cache. -/
theorem c5_repair_idempotent_witness :
    ((((readCsvFileOnce exRepairDisk exRepairCache
        exRepairSelf.sourceCsvFilename).2).map Prod.fst).Nodup
      ∧ (∀ p ∈ ([] : List (String × List (String × String))), jsMapGet p.2 "" = none)
      ∧ (∀ f ∈ exRepairSelf.fieldsInQuery, strTrim f.nameId = f.nameId
          ∧ strTrim f.fullName__r = f.fullName__r)
      ∧ (∀ cf ∈ exRepairSelf.child__rSFields, strTrim cf.nameId = cf.nameId
          ∧ strTrim cf.fullIdName__r = cf.fullIdName__r)
      ∧ List.Pairwise FieldDisj exRepairSelf.fieldsInQuery)
    ∧ (repairCSV exRepairTasks [] exRepairDisk exRepairSelf
        (repairCSV exRepairTasks [] exRepairDisk exRepairSelf exRepairCache).1).2 = []
    ∧ (repairCSV exRepairTasks [] exRepairDisk exRepairSelf
        (repairCSV exRepairTasks [] exRepairDisk exRepairSelf
          exRepairCache).1).1.updatedFilenames
      = (repairCSV exRepairTasks [] exRepairDisk exRepairSelf
          exRepairCache).1.updatedFilenames :=
  ⟨⟨by decide, by decide, by decide, by decide,
    List.Pairwise.cons (fun y hy => absurd hy (List.not_mem_nil y)) List.Pairwise.nil⟩,
   c5_repair_idempotent exRepairTasks [] exRepairDisk exRepairSelf exRepairCache
     (by decide) (by decide) (by decide) (by decide)
     (List.Pairwise.cons (fun y hy => absurd hy (List.not_mem_nil y)) List.Pairwise.nil)⟩


/-- C5 counterexample to the original unconditional claim: with a
    value-mapping rule keyed by the empty raw value, a task's source file
    repaired once and run through `repairCSV` a second time produces a new
    issue (the second pass rewrites the previously empty relationship
    value and fails the parent lookup), so repair is not idempotent in
    general. -/
theorem c5_counterexample :
    ¬ ((repairCSV exNonIdemTasks exNonIdemVM exNonIdemDisk exNonIdemSelf
        (repairCSV exNonIdemTasks exNonIdemVM exNonIdemDisk exNonIdemSelf
          exRepairCache).1).2 = []
      ∧ (repairCSV exNonIdemTasks exNonIdemVM exNonIdemDisk exNonIdemSelf
          (repairCSV exNonIdemTasks exNonIdemVM exNonIdemDisk exNonIdemSelf
            exRepairCache).1).1.updatedFilenames
        = (repairCSV exNonIdemTasks exNonIdemVM exNonIdemDisk exNonIdemSelf
            exRepairCache).1.updatedFilenames) := by
  decide
